import Mathlib

/-!
The service usrsvc: customers and their family members.

A shallow embedding of the request pipeline (`internal/transport/http`), the
operations layer (`internal/usecase`) and the persistence gateway
(`internal/repository`) of the service, followed by the properties proved
about them.

Conventions of the embedding

* Go `int` (64 bit) and `int32` values are `Int`; conversions that can wrap
  (`int32(id)`) are written out with explicit modular arithmetic.
* Go strings are `String`; the library routines that scan bytes
  (`strconv.Atoi`, `time.Parse`) are written over `List Char`.  Each of them
  only ever accepts ASCII digits, `+` and `-`, and rejects at the first other
  byte, so scanning characters and scanning bytes accept the same strings with
  the same values.
* A Go slice is `Slice α = Option (List α)`: `none` is the nil slice.
* A Go `(value, error)` result is a pair whose second component is
  `Option Error`; `none` is the nil error.
* The `ctx` argument is left out of the handlers, the operations layer and the
  gateway operations; the section on `context` puts it back on the gateway,
  where it decides whether a storage call is made at all.
-/

namespace Usrsvc

/-! ## Go library: `time` -/

/-- Go `time.Time`, kept as the civil fields it shows in its own location
together with that location's offset (seconds east of UTC). -/
structure Time where
  year : Int
  month : Nat
  day : Nat
  hour : Nat
  minute : Nat
  second : Nat
  nanosecond : Nat
  offset : Int
deriving DecidableEq, Repr

/-- Go `time.Time{}`: January 1, year 1, 00:00:00 UTC. -/
def Time.zero : Time := ⟨1, 1, 1, 0, 0, 0, 0, 0⟩

/-- Go `time.Date(y, m, d, 0, 0, 0, 0, time.UTC)` for an in-range month and day. -/
def Time.ofDate (y : Int) (m d : Nat) : Time := ⟨y, m, d, 0, 0, 0, 0, 0⟩

/-- Byte test `'0' <= c && c <= '9'` of `time.isDigit` and `strconv`. -/
def isDigit (c : Char) : Bool := decide (48 ≤ c.toNat) && decide (c.toNat ≤ 57)

/-- Value `c - '0'` of a digit. -/
def digitVal (c : Char) : Nat := c.toNat - 48

/-- Character `'0' + d`. -/
def digitChar (d : Nat) : Char := Char.ofNat (48 + d)

/-- Go `time.isLeap`. -/
def isLeap (year : Int) : Bool :=
  decide (year % 4 = 0) && (decide (year % 100 ≠ 0) || decide (year % 400 = 0))

/-- Go `time.daysIn`. -/
def daysIn (m : Nat) (year : Int) : Nat :=
  if m = 2 ∧ isLeap year = true then 29
  else match m with
    | 1 => 31 | 2 => 28 | 3 => 31 | 4 => 30 | 5 => 31 | 6 => 30
    | 7 => 31 | 8 => 31 | 9 => 30 | 10 => 31 | 11 => 30 | 12 => 31
    | _ => 0

/-- Go `time.getnum(s, true)`: exactly two digits. -/
def getnum2 : List Char → Option (Nat × List Char)
  | a :: b :: rest =>
    if isDigit a && isDigit b then some (digitVal a * 10 + digitVal b, rest) else none
  | _ => none

/-- Go `time.skip(value, "-")`. -/
def skipDash : List Char → Option (List Char)
  | c :: rest => if c = '-' then some rest else none
  | [] => none

/-- The `stdLongYear` step of `time.Parse`: the next four bytes, all digits. -/
def getYear4 : List Char → Option (Nat × List Char)
  | a :: b :: c :: d :: rest =>
    if isDigit a && isDigit b && isDigit c && isDigit d then
      some (digitVal a * 1000 + digitVal b * 100 + digitVal c * 10 + digitVal d, rest)
    else none
  | _ => none

/-- Go `time.Parse("2006-01-02", s)` on the bytes of `s`; `none` is a parse
error.  Year, `-`, two-digit month (range checked), `-`, two-digit day, no
trailing text, then the day is validated against the month's length. -/
def parseDateChars (s : List Char) : Option Time :=
  match getYear4 s with
  | none => none
  | some (year, v1) =>
    match skipDash v1 with
    | none => none
    | some v2 =>
      match getnum2 v2 with
      | none => none
      | some (month, v3) =>
        if month = 0 ∨ 12 < month then none
        else match skipDash v3 with
          | none => none
          | some v4 =>
            match getnum2 v4 with
            | none => none
            | some (day, v5) =>
              if v5 ≠ [] then none
              else if day < 1 ∨ day > daysIn month (year : Int) then none
              else some (Time.ofDate year month day)

/-- Go `time.Parse("2006-01-02", s)`. -/
def parseDate (s : String) : Option Time := parseDateChars s.data

/-- Go `mustParse`: the parsed time, or the zero time when parsing fails. -/
def mustParse (s : String) : Time :=
  match parseDate s with
  | some t => t
  | none => Time.zero

/-- Go `time.appendInt`: optional sign, then the decimal digits of the
magnitude, zero padded to `width` (with the library's two fast paths). -/
def appendInt (x : Int) (width : Nat) : List Char :=
  let u := x.natAbs
  let sign : List Char := if x < 0 then ['-'] else []
  if width = 2 ∧ u < 100 then
    sign ++ [digitChar (u / 10), digitChar (u % 10)]
  else if width = 4 ∧ u < 10000 then
    sign ++ [digitChar (u / 1000), digitChar (u / 100 % 10), digitChar (u / 10 % 10),
      digitChar (u % 10)]
  else
    let ds := Nat.toDigits 10 u
    sign ++ List.replicate (width - ds.length) '0' ++ ds

/-- Go `t.Format("2006-01-02")` as bytes. -/
def formatDateChars (t : Time) : List Char :=
  appendInt t.year 4 ++ ['-'] ++ appendInt t.month 2 ++ ['-'] ++ appendInt t.day 2

/-- Go `t.Format("2006-01-02")`. -/
def formatDate (t : Time) : String := String.mk (formatDateChars t)

/-! ## Go library: `strconv` -/

/-- The `Err` field of a `*strconv.NumError`. -/
inductive NumError where
  | ErrSyntax
  | ErrRange
deriving DecidableEq, Repr

/-- Largest `uint64`. -/
def maxUint64 : Nat := 18446744073709551615

/-- The digit loop of `strconv.ParseUint(s, 10, 64)`.  A byte that is not a
decimal digit is a syntax error; an overflow is a range error, reported where
it happens, before the rest of the input is looked at. -/
def parseUintLoop : List Char → Nat → Nat × Option NumError
  | [], n => (n, none)
  | c :: cs, n =>
    if isDigit c = false then (0, some NumError.ErrSyntax)
    else if n ≥ maxUint64 / 10 + 1 then (maxUint64, some NumError.ErrRange)
    else if n * 10 + digitVal c > maxUint64 then (maxUint64, some NumError.ErrRange)
    else parseUintLoop cs (n * 10 + digitVal c)

/-- Go `strconv.ParseUint(s, 10, 64)`. -/
def ParseUint (s : List Char) : Nat × Option NumError :=
  match s with
  | [] => (0, some NumError.ErrSyntax)
  | _ => parseUintLoop s 0

/-- Go `strconv.ParseInt(s, 10, 0)` on a 64-bit platform. -/
def ParseInt (s : List Char) : Int × Option NumError :=
  match s with
  | [] => (0, some NumError.ErrSyntax)
  | c :: cs =>
    let neg := decide (c = '-')
    let digits := if c = '+' ∨ c = '-' then cs else s
    match ParseUint digits with
    | (_, some NumError.ErrSyntax) => (0, some NumError.ErrSyntax)
    | (un, _) =>
      if neg = false ∧ un ≥ 2 ^ 63 then (2 ^ 63 - 1, some NumError.ErrRange)
      else if neg = true ∧ un > 2 ^ 63 then (-(2 ^ 63), some NumError.ErrRange)
      else (if neg then -(un : Int) else (un : Int), none)

/-- Go `strconv.Atoi` on a 64-bit platform.  Its fast path for short inputs
computes the same result as `ParseInt`. -/
def Atoi (s : String) : Int × Option NumError := ParseInt s.data

/-- Go `strconv.Itoa` for a slice index. -/
def Itoa (i : Nat) : String := String.mk (Nat.toDigits 10 i)

/-- Go conversion `int32(x)` of an `int`: the low 32 bits, read as signed. -/
def toInt32 (x : Int) : Int := (x + 2 ^ 31) % 2 ^ 32 - 2 ^ 31

/-- The value a Go `int` (64 bit) holds after an arithmetic result `x`: the low
64 bits, read as signed. -/
def toInt64 (x : Int) : Int := (x + 2 ^ 63) % 2 ^ 64 - 2 ^ 63

/-! ## `internal/domain` -/

/-- A Go slice: `none` is the nil slice, `some l` a non-nil slice holding `l`. -/
abbrev Slice (α : Type) := Option (List α)

/-- The elements a `for range` loop over the slice visits. -/
def Slice.toList {α : Type} : Slice α → List α
  | none => []
  | some l => l

/-- Go `append(s, x)`. -/
def Slice.append {α : Type} (s : Slice α) (x : α) : Slice α := some (Slice.toList s ++ [x])

/-- Go `len(s)`. -/
def Slice.len {α : Type} (s : Slice α) : Nat := (Slice.toList s).length

/-- Go struct `domain.Nationality`. -/
structure Nationality where
  ID : Int
  Name : String
  Code : Option String
deriving DecidableEq, Repr

/-- Go struct `domain.FamilyMember`. -/
structure FamilyMember where
  ID : Int
  CustomerID : Int
  Relation : String
  Name : String
  Dob : Time
deriving DecidableEq, Repr

/-- Go struct `domain.Customer`. -/
structure Customer where
  ID : Int
  NationalityID : Int
  Name : String
  Dob : Time
  PhoneNum : String
  Email : String
  Family : Slice FamilyMember
deriving DecidableEq, Repr

/-- Errors the storage driver (pgx) hands back: a `*pgconn.PgError` with its
SQLSTATE code, `pgx.ErrNoRows`, or any other failure (connection, scan, ...). -/
inductive StorageErr where
  | PgError (Code : String)
  | ErrNoRows
  | other (msg : String)
deriving DecidableEq, Repr

/-- Go `error` values that reach the program: the three sentinels of
`domain/errors.go`, a driver error, an error wrapping another one, or any
other error. -/
inductive Error where
  | ErrNotFound
  | ErrInvalidID
  | ErrConflict
  | storage (e : StorageErr)
  | wrapped (msg : String) (inner : Error)
  | other (msg : String)
deriving DecidableEq, Repr

/-- Go `errors.Is(err, target)` for a sentinel target: the error itself or one
it wraps. -/
def Error.Is : Error → Error → Bool
  | Error.wrapped msg inner, target =>
    decide (Error.wrapped msg inner = target) || Error.Is inner target
  | e, target => decide (e = target)

/-- The interface `domain.UserRepository`, over a store state `σ`: every
operation takes the state and returns its Go results with the next state. -/
structure UserRepository (σ : Type) where
  ListCustomers : String → Int → Int → σ → (Slice Customer × Int × Option Error) × σ
  GetCustomer : Int → σ → (Option Customer × Option Error) × σ
  CreateCustomer : Customer → σ → (Int × Option Error) × σ
  UpdateCustomer : Int → Customer → σ → Option Error × σ
  DeleteCustomer : Int → σ → Option Error × σ
  ListNationalities : σ → (Slice Nationality × Option Error) × σ

/-- The interface `domain.UserUsecase`, over a state `σ`. -/
structure UserUsecase (σ : Type) where
  List : String → Int → Int → σ → (Slice Customer × Int × Option Error) × σ
  Get : Int → σ → (Option Customer × Option Error) × σ
  Create : Customer → σ → (Int × Option Error) × σ
  Update : Int → Customer → σ → Option Error × σ
  Delete : Int → σ → Option Error × σ
  ListNationality : σ → (Slice Nationality × Option Error) × σ

/-! ## `internal/usecase` -/

namespace userUC

/-- Go `(*userUC).List`: page and size are normalised, the offset is computed in
64-bit `int` arithmetic. -/
def List {σ : Type} (repo : UserRepository σ) (search : String) (page size : Int) (s : σ) :
    (Slice Customer × Int × Option Error) × σ :=
  let size := if size ≤ 0 then 10 else size
  let page := if page ≤ 0 then 1 else page
  let offset := ((page - 1) * size + 2 ^ 63) % 2 ^ 64 - 2 ^ 63
  repo.ListCustomers search size offset s

/-- Go `(*userUC).Get`. -/
def Get {σ : Type} (repo : UserRepository σ) (id : Int) (s : σ) :
    (Option Customer × Option Error) × σ :=
  repo.GetCustomer id s

/-- Go `(*userUC).Create`. -/
def Create {σ : Type} (repo : UserRepository σ) (c : Customer) (s : σ) :
    (Int × Option Error) × σ :=
  repo.CreateCustomer c s

/-- Go `(*userUC).Update`. -/
def Update {σ : Type} (repo : UserRepository σ) (id : Int) (c : Customer) (s : σ) :
    Option Error × σ :=
  repo.UpdateCustomer id c s

/-- Go `(*userUC).Delete`. -/
def Delete {σ : Type} (repo : UserRepository σ) (id : Int) (s : σ) : Option Error × σ :=
  repo.DeleteCustomer id s

/-- Go `(*userUC).ListNationality`. -/
def ListNationality {σ : Type} (repo : UserRepository σ) (s : σ) :
    (Slice Nationality × Option Error) × σ :=
  repo.ListNationalities s

end userUC

/-- Go `NewUserUC`: the operations layer over a repository. -/
def NewUserUC {σ : Type} (r : UserRepository σ) : UserUsecase σ where
  List := userUC.List r
  Get := userUC.Get r
  Create := userUC.Create r
  Update := userUC.Update r
  Delete := userUC.Delete r
  ListNationality := userUC.ListNationality r

/-! ## The relational store

The schema is not part of the repository; the tables below follow the
statements of `pg_user_repo.go` and the data model of the specification. -/

/-- Modelled from the spec: the schema is missing from the sources.  A stored
date of birth is a calendar date, with no time of day and no zone. -/
structure Date where
  year : Int
  month : Nat
  day : Nat
deriving DecidableEq, Repr

/-- What the driver writes for a `time.Time` parameter of a date column: the
civil date of the time. -/
def Date.ofTime (t : Time) : Date := ⟨t.year, t.month, t.day⟩

/-- What the driver scans from a date column: midnight UTC of that date. -/
def Date.toTime (d : Date) : Time := Time.ofDate d.year d.month d.day

/-- Modelled from the spec: row of table `nationality` (columns as selected by
`ListNationalities`). -/
structure NationalityRow where
  nationality_id : Int
  nationality_name : String
  nationality_code : Option String
deriving DecidableEq, Repr

/-- Modelled from the spec: row of table `customer` (columns as written by
`CreateCustomer`). -/
structure CustomerRow where
  cst_id : Int
  nationality_id : Int
  cst_name : String
  cst_dob : Date
  cst_phoneNum : String
  cst_email : String
deriving DecidableEq, Repr

/-- Modelled from the spec: row of table `family_list`. -/
structure FamilyRow where
  fl_id : Int
  cst_id : Int
  fl_relation : String
  fl_name : String
  fl_dob : Date
deriving DecidableEq, Repr

/-- Modelled from the spec: the store.  The three tables, and the two
sequences from which storage assigns `cst_id` and `fl_id` (each holds the last
value handed out). -/
structure DB where
  nationality : List NationalityRow
  customer : List CustomerRow
  family_list : List FamilyRow
  customer_seq : Int
  family_seq : Int
deriving DecidableEq, Repr

namespace DB

/-- Modelled from the spec: the integrity the schema keeps.  Every family row
references an existing customer (foreign key) and the sequences start at 1. -/
def WF (db : DB) : Prop :=
  (∀ f ∈ db.family_list, ∃ c ∈ db.customer, c.cst_id = f.cst_id)
    ∧ 0 ≤ db.customer_seq ∧ 0 ≤ db.family_seq

/-- Modelled from the spec: `INSERT INTO customer (...) VALUES (...) RETURNING
cst_id`.  Storage assigns the id from the sequence; the unique email (and the
primary key) is enforced with SQLSTATE 23505, the nationality reference with
23503.  The sequence keeps its new value even when the statement fails. -/
def insertCustomer (t : DB) (nationality_id : Int) (name : String) (dob : Date)
    (phone email : String) : Except StorageErr Int × DB :=
  let id := t.customer_seq + 1
  let t1 := { t with customer_seq := id }
  if t.customer.any (fun r => decide (r.cst_email = email) || decide (r.cst_id = id)) = true then
    (Except.error (StorageErr.PgError "23505"), t1)
  else if t.nationality.any (fun n => decide (n.nationality_id = nationality_id)) = false then
    (Except.error (StorageErr.PgError "23503"), t1)
  else
    (Except.ok id,
      { t1 with customer := t1.customer ++ [⟨id, nationality_id, name, dob, phone, email⟩] })

/-- Modelled from the spec: `INSERT INTO family_list (cst_id, fl_relation,
fl_name, fl_dob) VALUES (...)`. -/
def insertFamily (t : DB) (cst_id : Int) (relation name : String) (dob : Date) :
    Option StorageErr × DB :=
  let id := t.family_seq + 1
  let t1 := { t with family_seq := id }
  if t.family_list.any (fun r => decide (r.fl_id = id)) = true then
    (some (StorageErr.PgError "23505"), t1)
  else if t.customer.any (fun r => decide (r.cst_id = cst_id)) = false then
    (some (StorageErr.PgError "23503"), t1)
  else
    (none, { t1 with family_list := t1.family_list ++ [⟨id, cst_id, relation, name, dob⟩] })

/-- Modelled from the spec: `UPDATE customer SET ... WHERE cst_id = id`.  No
matching row is not an error. -/
def updateCustomer (t : DB) (id nationality_id : Int) (name : String) (dob : Date)
    (phone email : String) : Option StorageErr × DB :=
  if t.customer.any (fun r => decide (r.cst_id = id)) = false then (none, t)
  else if t.customer.any (fun r => decide (r.cst_id ≠ id) && decide (r.cst_email = email))
      = true then
    (some (StorageErr.PgError "23505"), t)
  else if t.nationality.any (fun n => decide (n.nationality_id = nationality_id)) = false then
    (some (StorageErr.PgError "23503"), t)
  else
    (none, { t with customer := t.customer.map (fun r =>
      if r.cst_id = id then ⟨id, nationality_id, name, dob, phone, email⟩ else r) })

/-- Modelled from the spec: `DELETE FROM family_list WHERE cst_id = id`. -/
def deleteFamily (t : DB) (id : Int) : DB :=
  { t with family_list := t.family_list.filter (fun r => decide (r.cst_id ≠ id)) }

/-- Modelled from the spec: `DELETE FROM customer WHERE cst_id = id`, with the
number of rows affected; the family rows of the customer go with it. -/
def deleteCustomer (t : DB) (id : Int) : Nat × DB :=
  ((t.customer.filter (fun r => decide (r.cst_id = id))).length,
    { t with
      customer := t.customer.filter (fun r => decide (r.cst_id ≠ id))
      family_list := t.family_list.filter (fun r => decide (r.cst_id ≠ id)) })

/-- `SELECT ... FROM customer WHERE cst_id = id`: the row, if any. -/
def selectCustomer (t : DB) (id : Int) : Option CustomerRow :=
  t.customer.find? (fun r => decide (r.cst_id = id))

/-- `SELECT ... FROM family_list WHERE cst_id = id ORDER BY fl_id`. -/
def selectFamily (t : DB) (id : Int) : List FamilyRow :=
  (t.family_list.filter (fun r => decide (r.cst_id = id))).insertionSort
    (fun a b => a.fl_id ≤ b.fl_id)

/-- The committed store after a transaction that worked on the copy `t` is
rolled back: the rows are those before the transaction; sequence values that
were handed out are not returned. -/
def rollback (db t : DB) : DB :=
  { db with customer_seq := t.customer_seq, family_seq := t.family_seq }

end DB

/-! ## Go library: `strings` -/

/-- Go `unicode.IsSpace`. -/
def isSpace (c : Char) : Bool :=
  let n := c.toNat
  decide (9 ≤ n ∧ n ≤ 13) || decide (n = 32) || decide (n = 0x85) || decide (n = 0xA0)
    || decide (n = 0x1680) || decide (0x2000 ≤ n ∧ n ≤ 0x200A) || decide (n = 0x2028)
    || decide (n = 0x2029) || decide (n = 0x202F) || decide (n = 0x205F) || decide (n = 0x3000)

/-- Go `strings.TrimSpace`. -/
def TrimSpace (s : String) : String :=
  String.mk ((s.data.dropWhile isSpace).reverse.dropWhile isSpace).reverse

/-! ## `internal/repository` -/

/-- Go `PgUserRepo`.  Its pool is the connection to storage; what storage
contributes beyond the tables is kept here: `fault k` is the failure, if any,
of round trip number `k` of a call (connection loss, cancellation, scan
failure, ...), `ilike text pattern` is the engine's `ILIKE`, and `collate` the
ordering it sorts names by.  For a round trip that is a `Query`, `inRows k`
says where its failure shows: `none` when `Query` itself returns the error
(no connection, context done, statement not prepared), `some n` when the
statement fails while it runs and the error arrives as the rows are read,
after `n` of them; `QueryRow(...).Scan` and `Exec` return either kind. -/
structure PgUserRepo where
  fault : Nat → Option StorageErr
  inRows : Nat → Option Nat
  ilike : String → String → Bool
  collate : String → String → Bool

namespace PgUserRepo

/-- The filter `($1 = '' OR cst_name ILIKE '%'||$1||'%' OR cst_email ILIKE
'%'||$1||'%')` shared by the page query and the count query. -/
def matchesSearch (r : PgUserRepo) (q : String) (row : CustomerRow) : Bool :=
  decide (q = "") || r.ilike row.cst_name ("%" ++ q ++ "%")
    || r.ilike row.cst_email ("%" ++ q ++ "%")

/-- The customer scanned from a row of `customer`; `Family` is still nil. -/
def scanCustomer (row : CustomerRow) : Customer :=
  ⟨row.cst_id, row.nationality_id, row.cst_name, row.cst_dob.toTime, row.cst_phoneNum,
    row.cst_email, none⟩

/-- The family member scanned from a row of `family_list`. -/
def scanFamily (row : FamilyRow) : FamilyMember :=
  ⟨row.fl_id, row.cst_id, row.fl_relation, row.fl_name, row.fl_dob.toTime⟩

/-- What `rows, err := r.db.Query(...)` followed by a loop `for rows.Next()`
gets of the rows `result` the statement of round trip `k` produces.  `Query`
returns the error when the failure is its own.  A failure that arrives while
the rows are read makes `rows.Next()` return false and is kept in
`rows.Err()`, which no operation of this file reads: the loop sees the rows
read so far and then ends as it does after the last row. -/
def queryRows {α : Type} (r : PgUserRepo) (k : Nat) (result : List α) :
    Except StorageErr (List α) :=
  match r.fault k with
  | none => Except.ok result
  | some e =>
    match r.inRows k with
    | none => Except.error e
    | some n => Except.ok (result.take n)

/-- The loop `for rows.Next() { rows.Scan(...); out = append(out, c) }` of
`ListCustomers`; `k` numbers the round trip. -/
def scanCustomersLoop (r : PgUserRepo) :
    List CustomerRow → Nat → Slice Customer → Except StorageErr (Slice Customer)
  | [], _, out => Except.ok out
  | row :: rows, k, out =>
    match r.fault k with
    | some e => Except.error e
    | none => scanCustomersLoop r rows (k + 1) (Slice.append out (scanCustomer row))

/-- The rows the page query of `ListCustomers` produces.  Storage rejects a
negative `LIMIT` (2201W) or `OFFSET` (2201X) when the statement runs, so the
error arrives as the rows are read, before the first of them: no row is
produced. -/
def pageRows (r : PgUserRepo) (q : String) (limit offset : Int) (db : DB) : List CustomerRow :=
  if limit < 0 ∨ offset < 0 then []
  else (((db.customer.filter (matchesSearch r q)).insertionSort
    (fun a b => a.cst_id ≥ b.cst_id)).drop offset.toNat).take limit.toNat

/-- Go `(*PgUserRepo).ListCustomers`.  There is no `rows.Err()` after the loop,
and the error of the count query is dropped (`_ =`), leaving `total` at
zero. -/
def ListCustomers (r : PgUserRepo) (search : String) (limit offset : Int) (db : DB) :
    (Slice Customer × Int × Option Error) × DB :=
  let q := TrimSpace search
  match queryRows r 0 (pageRows r q limit offset db) with
  | Except.error e => ((none, 0, some (Error.storage e)), db)
  | Except.ok rows =>
    match scanCustomersLoop r rows 1 none with
    | Except.error e => ((none, 0, some (Error.storage e)), db)
    | Except.ok out =>
      let total : Int :=
        match r.fault (1 + rows.length) with
        | some _ => 0
        | none => ((db.customer.filter (matchesSearch r q)).length : Int)
      ((out, total, none), db)

/-- The loop `for rows.Next() { rows.Scan(...); c.Family = append(c.Family, f) }`
of `GetCustomer`. -/
def scanFamilyLoop (r : PgUserRepo) :
    List FamilyRow → Nat → Customer → Option Customer × Option Error
  | [], _, c => (some c, none)
  | row :: rows, k, c =>
    match r.fault k with
    | some e => (none, some (Error.storage e))
    | none =>
      scanFamilyLoop r rows (k + 1) { c with Family := Slice.append c.Family (scanFamily row) }

/-- Go `(*PgUserRepo).GetCustomer`.  There is no `rows.Err()` after the family
loop. -/
def GetCustomer (r : PgUserRepo) (id : Int) (db : DB) :
    (Option Customer × Option Error) × DB :=
  let row : Except StorageErr CustomerRow :=
    match r.fault 0 with
    | some e => Except.error e
    | none =>
      match db.selectCustomer id with
      | none => Except.error StorageErr.ErrNoRows
      | some row => Except.ok row
  match row with
  | Except.error e =>
    if e = StorageErr.ErrNoRows then ((none, none), db)
    else ((none, some (Error.storage e)), db)
  | Except.ok row =>
    match queryRows r 1 (db.selectFamily id) with
    | Except.error e => ((none, some (Error.storage e)), db)
    | Except.ok rows => (scanFamilyLoop r rows 2 (scanCustomer row), db)

/-- The loop `for _, f := range c.Family { tx.Exec(INSERT INTO family_list ...) }`
shared by `CreateCustomer` and `UpdateCustomer`; `k` numbers the round trip and
the loop stops at the first failure. -/
def insertFamilyLoop (r : PgUserRepo) (id : Int) :
    List FamilyMember → Nat → DB → Option StorageErr × DB
  | [], _, t => (none, t)
  | f :: fs, k, t =>
    match r.fault k with
    | some e => (some e, t)
    | none =>
      match t.insertFamily id f.Relation f.Name (Date.ofTime f.Dob) with
      | (some e, t1) => (some e, t1)
      | (none, t1) => insertFamilyLoop r id fs (k + 1) t1

/-- The statement `tx.QueryRow(INSERT INTO customer ... RETURNING cst_id).Scan(&id)`
of `CreateCustomer` (round trip 1) on the transaction's copy `t`. -/
def insertCustomerRow (r : PgUserRepo) (c : Customer) (t : DB) : Except StorageErr Int × DB :=
  match r.fault 1 with
  | some e => (Except.error e, t)
  | none => t.insertCustomer c.NationalityID c.Name (Date.ofTime c.Dob) c.PhoneNum c.Email

/-- Go `(*PgUserRepo).CreateCustomer`.  The transaction works on a copy `t` of
the committed store; every return before `tx.Commit` succeeds leaves through
the deferred `tx.Rollback`. -/
def CreateCustomer (r : PgUserRepo) (c : Customer) (db : DB) : (Int × Option Error) × DB :=
  match r.fault 0 with
  | some e => ((0, some (Error.storage e)), db)
  | none =>
    match insertCustomerRow r c db with
    | (Except.error e, t1) =>
      match e with
      | StorageErr.PgError code =>
        if code = "23505" then ((0, some Error.ErrConflict), DB.rollback db t1)
        else ((0, some (Error.storage e)), DB.rollback db t1)
      | _ => ((0, some (Error.storage e)), DB.rollback db t1)
    | (Except.ok id, t1) =>
      match insertFamilyLoop r id (Slice.toList c.Family) 2 t1 with
      | (some e, t2) => ((0, some (Error.storage e)), DB.rollback db t2)
      | (none, t2) =>
        match r.fault (2 + Slice.len c.Family) with
        | some e => ((0, some (Error.storage e)), DB.rollback db t2)
        | none => ((id, none), t2)

/-- The statement `tx.Exec(UPDATE customer SET ... WHERE cst_id=$6)` of
`UpdateCustomer` (round trip 1) on the transaction's copy `t`. -/
def updateCustomerRow (r : PgUserRepo) (id : Int) (c : Customer) (t : DB) :
    Option StorageErr × DB :=
  match r.fault 1 with
  | some e => (some e, t)
  | none => t.updateCustomer id c.NationalityID c.Name (Date.ofTime c.Dob) c.PhoneNum c.Email

/-- The statement `tx.Exec(DELETE FROM family_list WHERE cst_id=$1)` of
`UpdateCustomer` (round trip 2) on the transaction's copy `t`. -/
def deleteFamilyRows (r : PgUserRepo) (id : Int) (t : DB) : Option StorageErr × DB :=
  match r.fault 2 with
  | some e => (some e, t)
  | none => (none, t.deleteFamily id)

/-- Go `(*PgUserRepo).UpdateCustomer`.  There is no `tx.Commit`: every return,
the final `return nil` included, leaves through the deferred `tx.Rollback`. -/
def UpdateCustomer (r : PgUserRepo) (id : Int) (c : Customer) (db : DB) : Option Error × DB :=
  match r.fault 0 with
  | some e => (some (Error.storage e), db)
  | none =>
    match updateCustomerRow r id c db with
    | (some e, t1) => (some (Error.storage e), DB.rollback db t1)
    | (none, t1) =>
      match deleteFamilyRows r id t1 with
      | (some e, t2) => (some (Error.storage e), DB.rollback db t2)
      | (none, t2) =>
        match insertFamilyLoop r id (Slice.toList c.Family) 3 t2 with
        | (some e, t3) => (some (Error.storage e), DB.rollback db t3)
        | (none, t3) => (none, DB.rollback db t3)

/-- Go `(*PgUserRepo).DeleteCustomer`. -/
def DeleteCustomer (r : PgUserRepo) (id : Int) (db : DB) : Option Error × DB :=
  match r.fault 0 with
  | some e => (some (Error.storage e), db)
  | none =>
    match db.deleteCustomer id with
    | (n, db1) => if n = 0 then (some Error.ErrNotFound, db1) else (none, db1)

/-- The loop `for rows.Next() { rows.Scan(...); out = append(out, n) }` of
`ListNationalities`. -/
def scanNationalitiesLoop (r : PgUserRepo) :
    List NationalityRow → Nat → Slice Nationality → Except StorageErr (Slice Nationality)
  | [], _, out => Except.ok out
  | row :: rows, k, out =>
    match r.fault k with
    | some e => Except.error e
    | none =>
      scanNationalitiesLoop r rows (k + 1)
        (Slice.append out ⟨row.nationality_id, row.nationality_name, row.nationality_code⟩)

/-- Go `(*PgUserRepo).ListNationalities`.  There is no `rows.Err()` after the
loop. -/
def ListNationalities (r : PgUserRepo) (db : DB) : (Slice Nationality × Option Error) × DB :=
  match queryRows r 0 (db.nationality.insertionSort
      (fun a b => r.collate a.nationality_name b.nationality_name = true)) with
  | Except.error e => ((none, some (Error.storage e)), db)
  | Except.ok rows =>
    match scanNationalitiesLoop r rows 1 none with
    | Except.error e => ((none, some (Error.storage e)), db)
    | Except.ok out => ((out, none), db)

/-- The repository as a `domain.UserRepository` over the store. -/
def asRepository (r : PgUserRepo) : UserRepository DB where
  ListCustomers := r.ListCustomers
  GetCustomer := r.GetCustomer
  CreateCustomer := r.CreateCustomer
  UpdateCustomer := r.UpdateCustomer
  DeleteCustomer := r.DeleteCustomer
  ListNationalities := r.ListNationalities

end PgUserRepo

/-- A storage connection on which no round trip fails.  It orders names by code
point; its `ILIKE` matches no text, so that a search finds rows only through
the `$1 = ''` branch of the filter. -/
def PgUserRepo.healthy : PgUserRepo where
  fault := fun _ => none
  inRows := fun _ => none
  ilike := fun _ _ => false
  collate := fun a b => decide (a ≤ b)

/-! ## `internal/dto` -/

/-- The element type of `CreateCustomerRequest.Family`. -/
structure FamilyRequest where
  FlRelation : String
  FlName : String
  FlDob : String
deriving DecidableEq, Repr

/-- Go struct `dto.CreateCustomerRequest`, as decoded from the request body: a
key that is absent leaves the zero value (`""`, `0`, nil). -/
structure CreateCustomerRequest where
  CstName : String
  CstDob : String
  NationalityID : Int
  CstPhoneNum : String
  CstEmail : String
  Family : Slice FamilyRequest
deriving DecidableEq, Repr

/-- Go `type UpdateCustomerRequest = CreateCustomerRequest`. -/
abbrev UpdateCustomerRequest := CreateCustomerRequest

/-- Go struct `dto.FamilyMemberResponse`. -/
structure FamilyMemberResponse where
  FlRelation : String
  FlName : String
  FlDob : String
deriving DecidableEq, Repr

/-- Go struct `dto.CustomerResponse`. -/
structure CustomerResponse where
  CstID : Int
  CstName : String
  CstDob : String
  NationalityID : Int
  CstPhoneNum : String
  CstEmail : String
  Family : Slice FamilyMemberResponse
deriving DecidableEq, Repr

/-- Go struct `dto.CustomerListItem`. -/
structure CustomerListItem where
  CstID : Int
  CstName : String
  CstDob : String
  NationalityID : Int
  CstPhoneNum : String
  CstEmail : String
deriving DecidableEq, Repr

/-- Go struct `dto.CustomerListResponse`. -/
structure CustomerListResponse where
  Data : Slice CustomerListItem
  Total : Int
deriving DecidableEq, Repr

/-! ## Go library: `validator` -/

/-- The `*validator.Validate` of the handler.  The library's `email` rule is
kept as given; `required` and `gt=0` are written out in `Validate.Struct`. -/
structure Validate where
  email : String → Bool

/-- Go `h.Val.Struct(req)` for `dto.CreateCustomerRequest`, `true` when it
returns an error.  The tags are `required` on the four strings,
`required,gt=0` on `nationality_id` and `required,email` on `cst_email`.  The
`Family` field carries no tag (no `dive`), so the library does not descend
into its elements and their `validate` tags are never evaluated. -/
def Validate.Struct (v : Validate) (req : CreateCustomerRequest) : Bool :=
  decide (req.CstName = "") || decide (req.CstDob = "")
    || decide (req.NationalityID = 0) || !decide (req.NationalityID > 0)
    || decide (req.CstPhoneNum = "")
    || decide (req.CstEmail = "") || !v.email req.CstEmail

/-! ## `internal/transport/http` -/

/-- Go `StatusOK`. -/
def StatusOK : Nat := 200
/-- Go `StatusCreated`. -/
def StatusCreated : Nat := 201
/-- Go `StatusBadRequest`. -/
def StatusBadRequest : Nat := 400
/-- Go `StatusUnprocessableEntity`. -/
def StatusUnprocessableEntity : Nat := 422
/-- Go `StatusNotFound`. -/
def StatusNotFound : Nat := 404
/-- Go `StatusInternalServerError`. -/
def StatusInternalServerError : Nat := 500
/-- Go `StatusConflict`. -/
def StatusConflict : Nat := 409

/-- Go `MsgInvalidID`. -/
def MsgInvalidID : String := "invalid id"
/-- Go `MsgInvalidJSON`. -/
def MsgInvalidJSON : String := "invalid JSON"
/-- Go `MsgValidation`. -/
def MsgValidation : String := "validation error"
/-- Go `MsgNotFound`. -/
def MsgNotFound : String := "not found"
/-- Go `MsgInternal`. -/
def MsgInternal : String := "internal error"
/-- Go `MsgConflict`. -/
def MsgConflict : String := "conflict"

/-- Go struct `apiError`; `Fields` is a `map[string]string`, `none` when nil. -/
structure apiError where
  Error : Bool
  Message : String
  Fields : Option (List (String × String))
deriving DecidableEq, Repr

/-- The Go value a handler passes to `writeJSON`. -/
inductive Body where
  | apiError (e : apiError)
  | customer (c : Customer)
  | customerResponse (r : CustomerResponse)
  | customerListResponse (r : CustomerListResponse)
  | stringMap (m : List (String × String))
  | nationalities (n : Slice Nationality)
deriving DecidableEq, Repr

/-- What a handler wrote: the status line and the value it encoded. -/
structure Response where
  status : Nat
  body : Body
deriving DecidableEq, Repr

/-- Go `writeJSON`. -/
def writeJSON (status : Nat) (v : Body) : Response := ⟨status, v⟩

/-- Go `writeErr`. -/
def writeErr (status : Nat) (msg : String) (fields : Option (List (String × String))) :
    Response :=
  writeJSON status (Body.apiError ⟨true, msg, fields⟩)

/-- Go struct `Handler`. -/
structure Handler (σ : Type) where
  UC : UserUsecase σ
  Val : Validate

namespace Handler

/-- The loop of `ListUsers` that appends one `dto.CustomerListItem` per row. -/
def buildListItems : List Customer → Slice CustomerListItem → Slice CustomerListItem
  | [], acc => acc
  | c :: cs, acc =>
    buildListItems cs
      (Slice.append acc
        ⟨c.ID, TrimSpace c.Name, formatDate c.Dob, c.NationalityID, c.PhoneNum, c.Email⟩)

/-- Go `(*Handler).ListUsers`; `pageParam`, `sizeParam` and `searchParam` are
`q.Get("page")`, `q.Get("size")` and `q.Get("search")`, the empty string when
the parameter is absent.  The errors of `Atoi` are dropped. -/
def ListUsers {σ : Type} (h : Handler σ) (pageParam sizeParam searchParam : String) (s : σ) :
    Response × σ :=
  let page := (Atoi pageParam).1
  let size := (Atoi sizeParam).1
  let page := if page < 1 then 1 else page
  let size := if size < 1 ∨ size > 100 then 10 else size
  match h.UC.List searchParam page size s with
  | ((_, _, some _), s1) => (writeErr StatusInternalServerError MsgInternal none, s1)
  | ((rows, total, none), s1) =>
    (writeJSON StatusOK
      (Body.customerListResponse ⟨buildListItems (Slice.toList rows) (some []), total⟩), s1)

/-- The loop of `CreateUser` that checks every `fl_dob` in list order: the index
of the first entry whose date does not parse. -/
def checkFamilyDob : List FamilyRequest → Nat → Option Nat
  | [], _ => none
  | f :: fs, i =>
    match parseDate f.FlDob with
    | none => some i
    | some _ => checkFamilyDob fs (i + 1)

/-- The loop of `CreateUser` that appends the family members to `c.Family`. -/
def buildFamily : List FamilyRequest → Slice FamilyMember → Slice FamilyMember
  | [], acc => acc
  | f :: fs, acc =>
    buildFamily fs (Slice.append acc ⟨0, 0, f.FlRelation, f.FlName, mustParse f.FlDob⟩)

/-- The loop of `CreateUser` that appends the family entries of the response. -/
def buildFamilyResponse :
    List FamilyMember → Slice FamilyMemberResponse → Slice FamilyMemberResponse
  | [], acc => acc
  | f :: fs, acc =>
    buildFamilyResponse fs (Slice.append acc ⟨f.Relation, f.Name, formatDate f.Dob⟩)

/-- The loop of `UpdateUser`, which checks and appends in one pass: the index of
the first entry whose date does not parse, or the family built. -/
def checkAndBuildFamily :
    List FamilyRequest → Nat → Slice FamilyMember → Except Nat (Slice FamilyMember)
  | [], _, acc => Except.ok acc
  | f :: fs, i, acc =>
    match parseDate f.FlDob with
    | none => Except.error i
    | some _ =>
      checkAndBuildFamily fs (i + 1)
        (Slice.append acc ⟨0, 0, f.FlRelation, f.FlName, mustParse f.FlDob⟩)

/-- The struct literal `domain.Customer{NationalityID: ..., Name: ..., Dob:
mustParse(req.CstDob), PhoneNum: ..., Email: ...}` of `CreateUser` and
`UpdateUser`, with the family the loop appended. -/
def newCustomer (req : CreateCustomerRequest) (family : Slice FamilyMember) : Customer :=
  { ID := 0, NationalityID := req.NationalityID, Name := req.CstName,
    Dob := mustParse req.CstDob, PhoneNum := req.CstPhoneNum, Email := req.CstEmail,
    Family := family }

/-- Go `(*Handler).GetUser`; `idVar` is `mux.Vars(r)["id"]`. -/
def GetUser {σ : Type} (h : Handler σ) (idVar : String) (s : σ) : Response × σ :=
  let id := (Atoi idVar).1
  if id = 0 then (writeErr StatusBadRequest MsgInvalidID none, s)
  else
    match h.UC.Get (toInt32 id) s with
    | ((_, some err), s1) =>
      if err.Is Error.ErrNotFound = true then (writeErr StatusNotFound MsgNotFound none, s1)
      else (writeErr StatusInternalServerError MsgInternal none, s1)
    | ((none, none), s1) => (writeErr StatusNotFound MsgNotFound none, s1)
    | ((some c, none), s1) => (writeJSON StatusOK (Body.customer c), s1)

/-- Go `(*Handler).CreateUser`; `body` is the decoded request, `none` when
`Decode` fails. -/
def CreateUser {σ : Type} (h : Handler σ) (body : Option CreateCustomerRequest) (s : σ) :
    Response × σ :=
  match body with
  | none => (writeErr StatusBadRequest MsgInvalidJSON none, s)
  | some req =>
    if h.Val.Struct req = true then
      (writeErr StatusUnprocessableEntity MsgValidation none, s)
    else if parseDate req.CstDob = none then
      (writeErr StatusUnprocessableEntity "invalid cst_dob" (some [("cst_dob", "YYYY-MM-DD")]), s)
    else
      match checkFamilyDob (Slice.toList req.Family) 0 with
      | some i =>
        (writeErr StatusUnprocessableEntity "invalid fl_dob"
          (some [("family[" ++ Itoa i ++ "].fl_dob", "YYYY-MM-DD")]), s)
      | none =>
        let c : Customer := newCustomer req (buildFamily (Slice.toList req.Family) none)
        match h.UC.Create c s with
        | ((_, some err), s1) =>
          if err.Is Error.ErrConflict = true then
            (writeErr StatusConflict MsgConflict (some [("cst_email", "already exists")]), s1)
          else (writeErr StatusInternalServerError MsgInternal none, s1)
        | ((id, none), s1) =>
          let resp : CustomerResponse :=
            { CstID := id, CstName := c.Name, CstDob := formatDate c.Dob,
              NationalityID := c.NationalityID, CstPhoneNum := c.PhoneNum,
              CstEmail := c.Email,
              Family := buildFamilyResponse (Slice.toList c.Family) (some []) }
          (writeJSON StatusCreated (Body.customerResponse resp), s1)

/-- Go `(*Handler).UpdateUser`. -/
def UpdateUser {σ : Type} (h : Handler σ) (idVar : String)
    (body : Option UpdateCustomerRequest) (s : σ) : Response × σ :=
  let id := (Atoi idVar).1
  if id = 0 then (writeErr StatusBadRequest MsgInvalidID none, s)
  else
    match body with
    | none => (writeErr StatusBadRequest MsgInvalidJSON none, s)
    | some req =>
      if h.Val.Struct req = true then
        (writeErr StatusUnprocessableEntity MsgValidation none, s)
      else if parseDate req.CstDob = none then
        (writeErr StatusUnprocessableEntity "invalid cst_dob"
          (some [("cst_dob", "YYYY-MM-DD")]), s)
      else
        match checkAndBuildFamily (Slice.toList req.Family) 0 none with
        | Except.error i =>
          (writeErr StatusUnprocessableEntity "invalid fl_dob"
            (some [("family[" ++ Itoa i ++ "].fl_dob", "YYYY-MM-DD")]), s)
        | Except.ok family =>
          let c : Customer := newCustomer req family
          match h.UC.Update (toInt32 id) c s with
          | (some err, s1) =>
            if err.Is Error.ErrNotFound = true then
              (writeErr StatusNotFound MsgNotFound none, s1)
            else (writeErr StatusInternalServerError MsgInternal none, s1)
          | (none, s1) => (writeJSON StatusOK (Body.stringMap [("status", "ok")]), s1)

/-- Go `(*Handler).DeleteUser`. -/
def DeleteUser {σ : Type} (h : Handler σ) (idVar : String) (s : σ) : Response × σ :=
  match Atoi idVar with
  | (id, err) =>
    if err ≠ none ∨ id ≤ 0 then (writeErr StatusBadRequest MsgInvalidID none, s)
    else
      match h.UC.Delete (toInt32 id) s with
      | (some err, s1) =>
        if err.Is Error.ErrNotFound = true then (writeErr StatusNotFound MsgNotFound none, s1)
        else (writeErr StatusInternalServerError MsgInternal none, s1)
      | (none, s1) => (writeJSON StatusOK (Body.stringMap [("status", "ok")]), s1)

/-- Go `(*Handler).ListNationality`. -/
def ListNationality {σ : Type} (h : Handler σ) (s : σ) : Response × σ :=
  match h.UC.ListNationality s with
  | ((_, some _), s1) => (writeErr StatusInternalServerError MsgInternal none, s1)
  | ((n, none), s1) =>
    let n : Slice Nationality :=
      match n with
      | none => some []
      | some l => some l
    (writeJSON StatusOK (Body.nationalities n), s1)

end Handler

/-- Go `NewHandler`, for a validator `v` made by `validator.New()`. -/
def NewHandler {σ : Type} (uc : UserUsecase σ) (v : Validate) : Handler σ := ⟨uc, v⟩

/-! ## Observing the calls a handler makes -/

/-- A call on the operations layer, with its arguments. -/
inductive Call where
  | List (search : String) (page size : Int)
  | Get (id : Int)
  | Create (c : Customer)
  | Update (id : Int) (c : Customer)
  | Delete (id : Int)
  | ListNationality
deriving DecidableEq, Repr

/-- The operations layer `uc` with every call written to a log, in the manner of
the mock of the handler tests: the state carries the calls made so far. -/
def recording {σ : Type} (uc : UserUsecase σ) : UserUsecase (σ × List Call) where
  List := fun search page size s =>
    ((uc.List search page size s.1).1,
      ((uc.List search page size s.1).2, s.2 ++ [Call.List search page size]))
  Get := fun id s => ((uc.Get id s.1).1, ((uc.Get id s.1).2, s.2 ++ [Call.Get id]))
  Create := fun c s => ((uc.Create c s.1).1, ((uc.Create c s.1).2, s.2 ++ [Call.Create c]))
  Update := fun id c s =>
    ((uc.Update id c s.1).1, ((uc.Update id c s.1).2, s.2 ++ [Call.Update id c]))
  Delete := fun id s => ((uc.Delete id s.1).1, ((uc.Delete id s.1).2, s.2 ++ [Call.Delete id]))
  ListNationality := fun s =>
    ((uc.ListNationality s.1).1, ((uc.ListNationality s.1).2, s.2 ++ [Call.ListNationality]))

/-- An operations layer that answers every call with fixed results and keeps no
state, as the mocks of the tests do. -/
def stubUC (get : Option Customer × Option Error) (create : Int × Option Error)
    (update delete : Option Error) : UserUsecase Unit where
  List := fun _ _ _ s => ((none, 0, none), s)
  Get := fun _ s => (get, s)
  Create := fun _ s => (create, s)
  Update := fun _ _ s => (update, s)
  Delete := fun _ s => (delete, s)
  ListNationality := fun s => ((none, none), s)

/-- An operations layer that answers `List` and `ListNationality` with fixed
results and keeps no state. -/
def stubListUC (list : Slice Customer × Int × Option Error)
    (nationalities : Slice Nationality × Option Error) : UserUsecase Unit where
  List := fun _ _ _ s => (list, s)
  Get := fun _ s => ((none, none), s)
  Create := fun _ s => ((0, none), s)
  Update := fun _ _ s => (none, s)
  Delete := fun _ s => (none, s)
  ListNationality := fun s => (nationalities, s)

/-- A call on the gateway, with its arguments. -/
inductive RepoCall where
  | ListCustomers (search : String) (limit offset : Int)
  | GetCustomer (id : Int)
  | CreateCustomer (c : Customer)
  | UpdateCustomer (id : Int) (c : Customer)
  | DeleteCustomer (id : Int)
  | ListNationalities
deriving DecidableEq, Repr

/-- The gateway `repo` with every call written to a log, in the manner of the
mock of the usecase tests. -/
def recordingRepo {σ : Type} (repo : UserRepository σ) : UserRepository (σ × List RepoCall) where
  ListCustomers := fun search limit offset s =>
    ((repo.ListCustomers search limit offset s.1).1,
      ((repo.ListCustomers search limit offset s.1).2,
        s.2 ++ [RepoCall.ListCustomers search limit offset]))
  GetCustomer := fun id s =>
    ((repo.GetCustomer id s.1).1, ((repo.GetCustomer id s.1).2, s.2 ++ [RepoCall.GetCustomer id]))
  CreateCustomer := fun c s =>
    ((repo.CreateCustomer c s.1).1,
      ((repo.CreateCustomer c s.1).2, s.2 ++ [RepoCall.CreateCustomer c]))
  UpdateCustomer := fun id c s =>
    ((repo.UpdateCustomer id c s.1).1,
      ((repo.UpdateCustomer id c s.1).2, s.2 ++ [RepoCall.UpdateCustomer id c]))
  DeleteCustomer := fun id s =>
    ((repo.DeleteCustomer id s.1).1,
      ((repo.DeleteCustomer id s.1).2, s.2 ++ [RepoCall.DeleteCustomer id]))
  ListNationalities := fun s =>
    ((repo.ListNationalities s.1).1,
      ((repo.ListNationalities s.1).2, s.2 ++ [RepoCall.ListNationalities]))

/-- A gateway that answers every call with fixed results and keeps no state. -/
def stubRepo (list : Slice Customer × Int × Option Error) : UserRepository Unit where
  ListCustomers := fun _ _ _ s => (list, s)
  GetCustomer := fun _ s => ((none, none), s)
  CreateCustomer := fun _ s => ((0, none), s)
  UpdateCustomer := fun _ _ s => (none, s)
  DeleteCustomer := fun _ s => (none, s)
  ListNationalities := fun s => ((none, none), s)

/-! ## Go library: `encoding/json` -/

/-- A JSON document. -/
inductive JSON where
  | null
  | bool (b : Bool)
  | number (n : Int)
  | string (s : String)
  | array (l : List JSON)
  | object (l : List (String × JSON))

/-- The member `k` of a JSON object. -/
def JSON.member (k : String) : JSON → Option JSON
  | JSON.object l => (l.find? (fun kv => decide (kv.1 = k))).map Prod.snd
  | _ => none

/-- The trailing zeros of a digit string removed (`time.appendNano`). -/
def trimZeros (l : List Char) : List Char := (l.reverse.dropWhile (fun c => c = '0')).reverse

/-- Go `Time.appendFormatRFC3339(b, true)`: date, `T`, clock, the fraction of a
second when it is not zero, then `Z` or the zone offset. -/
def appendFormatRFC3339 (t : Time) : List Char :=
  appendInt t.year 4 ++ ['-'] ++ appendInt t.month 2 ++ ['-'] ++ appendInt t.day 2 ++ ['T']
    ++ appendInt t.hour 2 ++ [':'] ++ appendInt t.minute 2 ++ [':'] ++ appendInt t.second 2
    ++ (if t.nanosecond = 0 then [] else '.' :: trimZeros (appendInt t.nanosecond 9))
    ++ (if t.offset = 0 then ['Z']
        else (if t.offset ≤ -60 then ['-'] else ['+'])
          ++ appendInt ((t.offset.natAbs / 60 / 60 : Nat) : Int) 2 ++ [':']
          ++ appendInt ((t.offset.natAbs / 60 % 60 : Nat) : Int) 2)

/-- Go `Time.MarshalJSON`, without the surrounding quotes; `none` when it
returns an error (the year does not take exactly four digits, or the zone
offset is 24 hours or more). -/
def Time.MarshalJSON (t : Time) : Option String :=
  let b := appendFormatRFC3339 t
  if b.get? 4 ≠ some '-' then none
  else if t.offset ≠ 0 ∧ t.offset.natAbs / 60 / 60 ≥ 24 then none
  else some (String.mk b)

/-- Go `json.Marshal` of a `domain.FamilyMember`: the struct has no tags, the
keys are the field names. -/
def marshalFamilyMember (f : FamilyMember) : Option JSON :=
  match f.Dob.MarshalJSON with
  | none => none
  | some dob =>
    some (JSON.object [("ID", JSON.number f.ID), ("CustomerID", JSON.number f.CustomerID),
      ("Relation", JSON.string f.Relation), ("Name", JSON.string f.Name),
      ("Dob", JSON.string dob)])

/-- Go `json.Marshal` of the elements of a `[]domain.FamilyMember`. -/
def marshalFamilyList : List FamilyMember → Option (List JSON)
  | [] => some []
  | f :: fs =>
    match marshalFamilyMember f, marshalFamilyList fs with
    | some j, some js => some (j :: js)
    | _, _ => none

/-- Go `json.Marshal` of a `domain.Customer`; a nil `Family` is `null`. -/
def marshalCustomer (c : Customer) : Option JSON :=
  match c.Dob.MarshalJSON with
  | none => none
  | some dob =>
    let family : Option JSON :=
      match c.Family with
      | none => some JSON.null
      | some l => (marshalFamilyList l).map JSON.array
    match family with
    | none => none
    | some fam =>
      some (JSON.object [("ID", JSON.number c.ID),
        ("NationalityID", JSON.number c.NationalityID), ("Name", JSON.string c.Name),
        ("Dob", JSON.string dob), ("PhoneNum", JSON.string c.PhoneNum),
        ("Email", JSON.string c.Email), ("Family", fam)])

/-- Go `json.Marshal` of a `dto.CustomerResponse`, keys from the `json` tags. -/
def marshalCustomerResponse (r : CustomerResponse) : JSON :=
  JSON.object [("cst_id", JSON.number r.CstID), ("cst_name", JSON.string r.CstName),
    ("cst_dob", JSON.string r.CstDob), ("nationality_id", JSON.number r.NationalityID),
    ("cst_phoneNum", JSON.string r.CstPhoneNum), ("cst_email", JSON.string r.CstEmail),
    ("family", match r.Family with
      | none => JSON.null
      | some l => JSON.array (l.map (fun f => JSON.object [("fl_relation", JSON.string f.FlRelation),
          ("fl_name", JSON.string f.FlName), ("fl_dob", JSON.string f.FlDob)])))]

/-- Go `json.Marshal` of a `dto.CustomerListItem`, keys from the `json` tags. -/
def marshalCustomerListItem (i : CustomerListItem) : JSON :=
  JSON.object [("cst_id", JSON.number i.CstID), ("cst_name", JSON.string i.CstName),
    ("cst_dob", JSON.string i.CstDob), ("nationality_id", JSON.number i.NationalityID),
    ("cst_phoneNum", JSON.string i.CstPhoneNum), ("cst_email", JSON.string i.CstEmail)]

/-- Go `json.Marshal` of a `dto.CustomerListResponse`: `data` has no
`omitempty`; a nil slice is `null`, a non-nil slice a list. -/
def marshalCustomerListResponse (r : CustomerListResponse) : JSON :=
  JSON.object [("data", match r.Data with
      | none => JSON.null
      | some l => JSON.array (l.map marshalCustomerListItem)),
    ("total", JSON.number r.Total)]

/-- Go `json.Marshal` of a `domain.Nationality`: no tags, `Code` is a `*string`. -/
def marshalNationality (n : Nationality) : JSON :=
  JSON.object [("ID", JSON.number n.ID), ("Name", JSON.string n.Name),
    ("Code", match n.Code with
      | none => JSON.null
      | some c => JSON.string c)]

/-- Go `json.Marshal` of a `[]domain.Nationality`. -/
def marshalNationalities : Slice Nationality → JSON
  | none => JSON.null
  | some l => JSON.array (l.map marshalNationality)

/-- Go `json.Marshal` of a `map[string]string`: an object, keys in sorted order. -/
def marshalStringMap (m : List (String × String)) : JSON :=
  JSON.object ((m.insertionSort (fun a b => a.1 ≤ b.1)).map (fun kv => (kv.1, JSON.string kv.2)))

/-- Go `json.Marshal` of an `apiError`: `fields` has `omitempty` and is left
out for a nil or empty map. -/
def marshalApiError (e : apiError) : JSON :=
  JSON.object ([("error", JSON.bool e.Error), ("message", JSON.string e.Message)]
    ++ (match e.Fields with
      | none => []
      | some [] => []
      | some (kv :: m) => [("fields", marshalStringMap (kv :: m))]))

/-- What `json.NewEncoder(w).Encode(v)` writes for the value a handler passes to
`writeJSON`; `none` when encoding fails and nothing is written. -/
def Body.marshal : Body → Option JSON
  | Body.apiError e => some (marshalApiError e)
  | Body.customer c => marshalCustomer c
  | Body.customerResponse r => some (marshalCustomerResponse r)
  | Body.customerListResponse r => some (marshalCustomerListResponse r)
  | Body.stringMap m => some (marshalStringMap m)
  | Body.nationalities n => some (marshalNationalities n)

/-- The string value of member `k` of a JSON object. -/
def JSON.stringMember (k : String) (j : JSON) : Option String :=
  match JSON.member k j with
  | some (JSON.string v) => some v
  | _ => none

/-- The elements of member `k` of a JSON object, when that member is an array. -/
def JSON.arrayMember (k : String) (j : JSON) : List JSON :=
  match JSON.member k j with
  | some (JSON.array l) => l
  | _ => []

/-! ## Path values read as numerals -/

/-- The number a string of decimal digits writes, continuing from `n`. -/
def digitsValue (l : List Char) (n : Nat) : Nat := l.foldl (fun m c => m * 10 + digitVal c) n

/-- The integer a path value writes in decimal: an optional sign followed by one
or more decimal digits, of any length; `none` when the value is not numeric.
It is the reading against which the statements on ids are made. -/
def decimalValue (s : String) : Option Int :=
  match s.data with
  | [] => none
  | c :: cs =>
    let digits := if c = '+' ∨ c = '-' then cs else c :: cs
    if digits ≠ [] ∧ digits.all isDigit = true then
      some (if c = '-' then -(digitsValue digits 0 : Int) else (digitsValue digits 0 : Int))
    else none

/-! ## Notions used by the statements on the store -/

/-- A time that is a calendar date: midnight UTC, as `time.Parse("2006-01-02", ·)`
and `mustParse` produce. -/
def Time.IsDate (t : Time) : Prop := t = Time.ofDate t.year t.month t.day

instance (t : Time) : Decidable t.IsDate := by
  unfold Time.IsDate
  exact inferInstance

/-- The rows the family loop of `CreateCustomer` and `UpdateCustomer` adds for
customer `id` when the sequence stands at `seq`. -/
def newFamilyRows (id : Int) : List FamilyMember → Int → List FamilyRow
  | [], _ => []
  | f :: fs, seq =>
    ⟨seq + 1, id, f.Relation, f.Name, Date.ofTime f.Dob⟩ :: newFamilyRows id fs (seq + 1)

/-- A storage connection on which round trip `k` of every call fails with `e`;
for a `Query` the error is the one `Query` returns. -/
def PgUserRepo.failingAt (k : Nat) (e : StorageErr) : PgUserRepo :=
  { PgUserRepo.healthy with fault := fun i => if i = k then some e else none }

/-- A storage connection on which the statement of round trip `k` fails with
`e` while it runs, after `n` rows have been read. -/
def PgUserRepo.failingInRows (k n : Nat) (e : StorageErr) : PgUserRepo :=
  { PgUserRepo.healthy with
    fault := fun i => if i = k then some e else none
    inRows := fun _ => some n }

/-! ## Go library: `context`, and the gateway with its context argument

The operations above leave the `ctx` argument out.  Every storage call of pgx
takes a context and returns that context's error once it is done.  Within one
gateway operation all storage calls are handed the same context, so the
operation under a context is the operation on the connection as that context
lets it be seen. -/

/-- The non-nil values of `ctx.Err()`. -/
inductive ContextErr where
  | Canceled
  | DeadlineExceeded
deriving DecidableEq, Repr

/-- The error a storage call returns for a context that is done. -/
def ContextErr.toStorage : ContextErr → StorageErr
  | ContextErr.Canceled => StorageErr.other "context canceled"
  | ContextErr.DeadlineExceeded => StorageErr.other "context deadline exceeded"

/-- Go `context.Context` as a storage call sees it: `err` is `ctx.Err()`, nil
until the context is cancelled or its deadline has passed. -/
structure Context where
  err : Option ContextErr
deriving DecidableEq, Repr

/-- Go `context.Background()`: never cancelled, no deadline. -/
def Context.Background : Context := ⟨none⟩

/-- The connection as the storage calls handed `ctx` see it: once `ctx` is done
every round trip fails with the context's error, and a `Query` returns it
itself, since no connection is handed out for a context that is done. -/
def PgUserRepo.withContext (r : PgUserRepo) (ctx : Context) : PgUserRepo :=
  match ctx.err with
  | none => r
  | some e => { r with fault := fun _ => some e.toStorage, inRows := fun _ => none }

namespace WithContext

/-- Go `(*PgUserRepo).ListCustomers(ctx, ...)`: `r.db.Query(ctx, ...)` and
`r.db.QueryRow(ctx, ...)`. -/
def ListCustomers (r : PgUserRepo) (ctx : Context) (search : String) (limit offset : Int)
    (db : DB) : (Slice Customer × Int × Option Error) × DB :=
  (r.withContext ctx).ListCustomers search limit offset db

/-- Go `(*PgUserRepo).GetCustomer(ctx, id)`: `r.db.QueryRow(ctx, ...)` and
`r.db.Query(ctx, ...)`. -/
def GetCustomer (r : PgUserRepo) (ctx : Context) (id : Int) (db : DB) :
    (Option Customer × Option Error) × DB :=
  (r.withContext ctx).GetCustomer id db

/-- Go `(*PgUserRepo).CreateCustomer(ctx, c)`: `r.db.Begin(ctx)`,
`tx.QueryRow(ctx, ...)`, `tx.Exec(ctx, ...)`, `tx.Commit(ctx)`. -/
def CreateCustomer (r : PgUserRepo) (ctx : Context) (c : Customer) (db : DB) :
    (Int × Option Error) × DB :=
  (r.withContext ctx).CreateCustomer c db

/-- Go `(*PgUserRepo).UpdateCustomer(ctx, id, c)`: `r.db.Begin(ctx)` and
`tx.Exec(ctx, ...)` three times. -/
def UpdateCustomer (r : PgUserRepo) (ctx : Context) (id : Int) (c : Customer) (db : DB) :
    Option Error × DB :=
  (r.withContext ctx).UpdateCustomer id c db

/-- Go `(*PgUserRepo).DeleteCustomer(ctx, id)`: `r.db.Exec(ctx, ...)`. -/
def DeleteCustomer (r : PgUserRepo) (ctx : Context) (id : Int) (db : DB) : Option Error × DB :=
  (r.withContext ctx).DeleteCustomer id db

/-- Go `(*PgUserRepo).ListNationalities(ctx)`: its one storage call is
`r.db.Query(context.Background(), ...)`; `ctx` is not used. -/
def ListNationalities (r : PgUserRepo) (_ctx : Context) (db : DB) :
    (Slice Nationality × Option Error) × DB :=
  (r.withContext Context.Background).ListNationalities db

end WithContext

/-! ## Concrete values

The payload of the specification's creation scenario and the values built
around it; the concrete statements below are evaluated on them. -/

/-- A validator whose `email` rule asks only for an `@`. -/
def exampleValidate : Validate := ⟨fun e => e.data.any (fun c => decide (c = '@'))⟩

/-- The creation payload of the specification's scenario. -/
def exampleRequest : CreateCustomerRequest :=
  { CstName := "ALFA", CstDob := "1992-05-10", NationalityID := 1,
    CstPhoneNum := "0811000001", CstEmail := "alfa1@example.com",
    Family := some [⟨"Spouse", "BETA", "1993-07-01"⟩] }

/-- The payload with `cst_dob` in day-month-year order, as in the handler test. -/
def badDobRequest : CreateCustomerRequest := { exampleRequest with CstDob := "10-05-1992" }

/-- A payload whose second family entry has an unparsable `fl_dob`. -/
def badFamilyRequest : CreateCustomerRequest :=
  { exampleRequest with
    Family := some [⟨"Spouse", "BETA", "1993-07-01"⟩, ⟨"Child", "GAMA", "31/12/2010"⟩,
      ⟨"Child", "DELTA", "2012-1-1"⟩] }

/-- The customer the payload describes, as storage returns it under id 1. -/
def exampleCustomer : Customer :=
  { ID := 1, NationalityID := 1, Name := "ALFA", Dob := Time.ofDate 1992 5 10,
    PhoneNum := "0811000001", Email := "alfa1@example.com",
    Family := some [⟨1, 1, "Spouse", "BETA", Time.ofDate 1993 7 1⟩] }

/-- A replacement for `exampleCustomer`: new name, new family. -/
def replacementCustomer : Customer :=
  { ID := 0, NationalityID := 1, Name := "ALFA BARU", Dob := Time.ofDate 1992 5 11,
    PhoneNum := "0811000002", Email := "alfa2@example.com",
    Family := some [⟨0, 0, "Child", "GAMA", Time.ofDate 2010 12 31⟩] }

/-- A store holding one nationality and no customer. -/
def emptyStore : DB :=
  { nationality := [⟨1, "Indonesia", some "ID"⟩], customer := [], family_list := [],
    customer_seq := 0, family_seq := 0 }

/-- A store holding `exampleCustomer` and its family member. -/
def exampleStore : DB :=
  { nationality := [⟨1, "Indonesia", some "ID"⟩],
    customer := [⟨1, 1, "ALFA", ⟨1992, 5, 10⟩, "0811000001", "alfa1@example.com"⟩],
    family_list := [⟨1, 1, "Spouse", "BETA", ⟨1993, 7, 1⟩⟩],
    customer_seq := 1, family_seq := 1 }

/-- The scenario payload with an empty `fl_relation` in its family entry. -/
def emptyRelationRequest : CreateCustomerRequest :=
  { exampleRequest with Family := some [⟨"", "BETA", "1993-07-01"⟩] }

/-- The scenario payload whose family entry has no `fl_name`. -/
def emptyNameRequest : CreateCustomerRequest :=
  { exampleRequest with Family := some [⟨"Spouse", "", "1993-07-01"⟩] }

/-- The two rows of the `ListUsers` handler test. -/
def exampleRows : List Customer :=
  [⟨36, 1, "  ALFA  ", Time.ofDate 1992 5 10, "0811000001", "alfa1@example.com", none⟩,
   ⟨37, 1, "BRAVO", Time.ofDate 1988 11 20, "0811000002", "bravo2@example.com", none⟩]

/-- A store holding two customers, ids 1 and 2, with different emails. -/
def twoCustomerStore : DB :=
  { nationality := [⟨1, "Indonesia", some "ID"⟩],
    customer := [⟨1, 1, "ALFA", ⟨1992, 5, 10⟩, "0811000001", "alfa1@example.com"⟩,
      ⟨2, 1, "BRAVO", ⟨1988, 11, 20⟩, "0811000002", "bravo2@example.com"⟩],
    family_list := [⟨1, 1, "Spouse", "BETA", ⟨1993, 7, 1⟩⟩],
    customer_seq := 2, family_seq := 1 }

/-! ### Lemmas on dates -/

theorem digitVal_lt {c : Char} (h : isDigit c = true) : digitVal c < 10 := by
  simp only [isDigit, Bool.and_eq_true, decide_eq_true_eq] at h
  unfold digitVal
  omega

theorem digitChar_digitVal {c : Char} (h : isDigit c = true) : digitChar (digitVal c) = c := by
  simp only [isDigit, Bool.and_eq_true, decide_eq_true_eq] at h
  unfold digitChar digitVal
  have : 48 + (c.toNat - 48) = c.toNat := by omega
  rw [this]
  exact Char.ofNat_toNat c

theorem appendInt_two (a b : Char) (ha : isDigit a = true) (hb : isDigit b = true) :
    appendInt ((digitVal a * 10 + digitVal b : Nat) : Int) 2 = [a, b] := by
  have h1 := digitVal_lt ha
  have h2 := digitVal_lt hb
  have hlt : digitVal a * 10 + digitVal b < 100 := by omega
  have hd : (digitVal a * 10 + digitVal b) / 10 = digitVal a := by omega
  have hm : (digitVal a * 10 + digitVal b) % 10 = digitVal b := by omega
  have hneg : ¬ (((digitVal a * 10 + digitVal b : Nat) : Int) < 0) := by omega
  simp only [appendInt, Int.natAbs_ofNat, hlt, hneg, and_self, if_true, if_false,
    List.nil_append, hd, hm, digitChar_digitVal ha, digitChar_digitVal hb]

theorem appendInt_four (a b c d : Char) (ha : isDigit a = true) (hb : isDigit b = true)
    (hc : isDigit c = true) (hd : isDigit d = true) :
    appendInt ((digitVal a * 1000 + digitVal b * 100 + digitVal c * 10 + digitVal d : Nat) : Int) 4
      = [a, b, c, d] := by
  have h1 := digitVal_lt ha
  have h2 := digitVal_lt hb
  have h3 := digitVal_lt hc
  have h4 := digitVal_lt hd
  generalize hn : digitVal a * 1000 + digitVal b * 100 + digitVal c * 10 + digitVal d = n
  have hlt : n < 10000 := by omega
  have e1 : n / 1000 = digitVal a := by omega
  have e2 : n / 100 % 10 = digitVal b := by omega
  have e3 : n / 10 % 10 = digitVal c := by omega
  have e4 : n % 10 = digitVal d := by omega
  have hneg : ¬ ((n : Int) < 0) := by omega
  have h42 : ¬ ((4 : Nat) = 2 ∧ n < 100) := by omega
  simp only [appendInt, Int.natAbs_ofNat, hlt, hneg, h42, and_self, if_true, if_false,
    List.nil_append, e1, e2, e3, e4, digitChar_digitVal ha, digitChar_digitVal hb,
    digitChar_digitVal hc, digitChar_digitVal hd]

theorem getnum2_some {s : List Char} {n : Nat} {rest : List Char}
    (h : getnum2 s = some (n, rest)) :
    ∃ a b, s = a :: b :: rest ∧ isDigit a = true ∧ isDigit b = true
      ∧ n = digitVal a * 10 + digitVal b := by
  match s, h with
  | a :: b :: r, h =>
    simp only [getnum2] at h
    split at h
    · rename_i hab
      simp only [Bool.and_eq_true] at hab
      simp only [Option.some.injEq, Prod.mk.injEq] at h
      exact ⟨a, b, by rw [h.2], hab.1, hab.2, h.1.symm⟩
    · cases h
  | [], h => simp [getnum2] at h
  | [_], h => simp [getnum2] at h

theorem getYear4_some {s : List Char} {n : Nat} {rest : List Char}
    (h : getYear4 s = some (n, rest)) :
    ∃ a b c d, s = a :: b :: c :: d :: rest ∧ isDigit a = true ∧ isDigit b = true
      ∧ isDigit c = true ∧ isDigit d = true
      ∧ n = digitVal a * 1000 + digitVal b * 100 + digitVal c * 10 + digitVal d := by
  match s, h with
  | a :: b :: c :: d :: r, h =>
    simp only [getYear4] at h
    split at h
    · rename_i hab
      simp only [Bool.and_eq_true] at hab
      simp only [Option.some.injEq, Prod.mk.injEq] at h
      exact ⟨a, b, c, d, by rw [h.2], hab.1.1.1, hab.1.1.2, hab.1.2, hab.2, h.1.symm⟩
    · cases h
  | [], h => simp [getYear4] at h
  | [_], h => simp [getYear4] at h
  | [_, _], h => simp [getYear4] at h
  | [_, _, _], h => simp [getYear4] at h

theorem skipDash_some {s rest : List Char} (h : skipDash s = some rest) : s = '-' :: rest := by
  match s, h with
  | c :: r, h =>
    simp only [skipDash] at h
    split at h
    · rename_i hc
      simp only [Option.some.injEq] at h
      rw [hc, h]
    · cases h
  | [], h => simp [skipDash] at h

/-- Everything `time.Parse("2006-01-02", ·)` accepts is rendered back unchanged by
`Format("2006-01-02")`, and the parsed time is a date at midnight UTC. -/
theorem formatDateChars_parseDateChars {s : List Char} {t : Time}
    (h : parseDateChars s = some t) :
    formatDateChars t = s ∧ t = Time.ofDate t.year t.month t.day := by
  unfold parseDateChars at h
  split at h
  · cases h
  · rename_i year v1 hy
    split at h
    · cases h
    · rename_i v2 h1
      split at h
      · cases h
      · rename_i month v3 hm
        split at h
        · cases h
        · split at h
          · cases h
          · rename_i v4 h2
            split at h
            · cases h
            · rename_i day v5 hd
              split at h
              · cases h
              · rename_i hv5
                split at h
                · cases h
                · simp only [Option.some.injEq] at h
                  subst h
                  obtain ⟨a, b, c, d, rfl, ha, hb, hc, hd4, rfl⟩ := getYear4_some hy
                  obtain rfl := skipDash_some h1
                  obtain ⟨e, f, rfl, he, hf, rfl⟩ := getnum2_some hm
                  obtain rfl := skipDash_some h2
                  obtain ⟨g, k, rfl, hg, hk, rfl⟩ := getnum2_some hd
                  have hv : v5 = [] := by simpa using hv5
                  subst hv
                  refine ⟨?_, rfl⟩
                  simp only [formatDateChars, Time.ofDate]
                  rw [appendInt_four a b c d ha hb hc hd4, appendInt_two e f he hf,
                    appendInt_two g k hg hk]
                  rfl

theorem formatDate_parseDate {s : String} {t : Time} (h : parseDate s = some t) :
    formatDate t = s := by
  unfold parseDate at h
  unfold formatDate
  rw [(formatDateChars_parseDateChars h).1]

theorem formatDate_mustParse {s : String} (h : (parseDate s).isSome = true) :
    formatDate (mustParse s) = s := by
  unfold mustParse
  cases hp : parseDate s with
  | none => rw [hp] at h; cases h
  | some t => exact formatDate_parseDate hp

/-! ### Lemmas on the request pipeline -/

theorem Slice.toList_none {α : Type} : Slice.toList (none : Slice α) = [] := rfl

theorem Slice.toList_some {α : Type} (l : List α) : Slice.toList (some l : Slice α) = l := rfl

theorem checkAndBuildFamily_eq (l : List FamilyRequest) (i : Nat) (acc : Slice FamilyMember) :
    Handler.checkAndBuildFamily l i acc =
      match Handler.checkFamilyDob l i with
      | some j => Except.error j
      | none => Except.ok (Handler.buildFamily l acc) := by
  induction l generalizing i acc with
  | nil => rfl
  | cons f fs ih =>
    simp only [Handler.checkAndBuildFamily, Handler.checkFamilyDob, Handler.buildFamily]
    cases hp : parseDate f.FlDob with
    | none => rfl
    | some t => exact ih (i + 1) _

theorem checkFamilyDob_first (l : List FamilyRequest) (k i : Nat) (f : FamilyRequest)
    (hi : l[i]? = some f) (hbad : parseDate f.FlDob = none)
    (hmin : ∀ j, j < i → ∀ g, l[j]? = some g → parseDate g.FlDob ≠ none) :
    Handler.checkFamilyDob l k = some (k + i) := by
  induction l generalizing k i with
  | nil => simp at hi
  | cons a as ih =>
    cases i with
    | zero =>
      simp only [List.getElem?_cons_zero, Option.some.injEq] at hi
      subst hi
      simp [Handler.checkFamilyDob, hbad]
    | succ n =>
      have ha : parseDate a.FlDob ≠ none := hmin 0 (Nat.succ_pos n) a (by simp)
      simp only [List.getElem?_cons_succ] at hi
      have hrec := ih (k + 1) n hi (fun j hj g hg => hmin (j + 1) (by omega) g (by simpa using hg))
      cases hp : parseDate a.FlDob with
      | none => exact absurd hp ha
      | some t =>
        simp only [Handler.checkFamilyDob, hp]
        rw [hrec]
        congr 1
        omega

theorem checkFamilyDob_none (l : List FamilyRequest) (k : Nat)
    (h : ∀ f ∈ l, parseDate f.FlDob ≠ none) : Handler.checkFamilyDob l k = none := by
  induction l generalizing k with
  | nil => rfl
  | cons a as ih =>
    have ha : parseDate a.FlDob ≠ none := h a (List.mem_cons_self a as)
    cases hp : parseDate a.FlDob with
    | none => exact absurd hp ha
    | some t =>
      simp only [Handler.checkFamilyDob, hp]
      exact ih (k + 1) (fun f hf => h f (List.mem_cons_of_mem a hf))

theorem buildFamily_toList (l : List FamilyRequest) (acc : Slice FamilyMember) :
    Slice.toList (Handler.buildFamily l acc) =
      Slice.toList acc ++ l.map (fun f => ⟨0, 0, f.FlRelation, f.FlName, mustParse f.FlDob⟩) := by
  induction l generalizing acc with
  | nil => simp [Handler.buildFamily]
  | cons a as ih =>
    simp only [Handler.buildFamily]
    rw [ih]
    simp [Slice.append, Slice.toList]

theorem buildFamilyResponse_toList (l : List FamilyMember) (acc : Slice FamilyMemberResponse) :
    Slice.toList (Handler.buildFamilyResponse l acc) =
      Slice.toList acc ++ l.map (fun f => ⟨f.Relation, f.Name, formatDate f.Dob⟩) := by
  induction l generalizing acc with
  | nil => simp [Handler.buildFamilyResponse]
  | cons a as ih =>
    simp only [Handler.buildFamilyResponse]
    rw [ih]
    simp [Slice.append, Slice.toList]

theorem buildFamilyResponse_ne_none (l : List FamilyMember) (acc : Slice FamilyMemberResponse)
    (h : acc ≠ none) : Handler.buildFamilyResponse l acc ≠ none := by
  induction l generalizing acc with
  | nil => simpa [Handler.buildFamilyResponse] using h
  | cons a as ih =>
    simp only [Handler.buildFamilyResponse]
    exact ih _ (by simp [Slice.append])

/-! ## The request pipeline: date checks and the created representation -/

/-- C5: for a create or update payload that decodes and passes the declared-field
validation (and, for update, a path id that is accepted): when `cst_dob` does
not parse as YYYY-MM-DD the response is 422 "invalid cst_dob" with the field
key "cst_dob"; otherwise, when `i` is the smallest index of a family entry
whose `fl_dob` does not parse, the response is 422 "invalid fl_dob" with the
single field key "family[i].fl_dob".  In both cases the operations layer is
not invoked: the log of calls and the state are unchanged. -/
theorem C5_bad_dob_is_422_without_call {σ : Type} (uc : UserUsecase σ) (v : Validate)
    (req : CreateCustomerRequest) (idVar : String) (s : σ) (log : List Call)
    (hid : (Atoi idVar).1 ≠ 0) (hval : v.Struct req = false) :
    (parseDate req.CstDob = none →
      Handler.CreateUser ⟨recording uc, v⟩ (some req) (s, log)
          = (⟨422, Body.apiError ⟨true, "invalid cst_dob", some [("cst_dob", "YYYY-MM-DD")]⟩⟩,
              (s, log))
        ∧ Handler.UpdateUser ⟨recording uc, v⟩ idVar (some req) (s, log)
          = (⟨422, Body.apiError ⟨true, "invalid cst_dob", some [("cst_dob", "YYYY-MM-DD")]⟩⟩,
              (s, log)))
    ∧ (parseDate req.CstDob ≠ none →
        ∀ (i : Nat) (f : FamilyRequest), (Slice.toList req.Family)[i]? = some f →
          parseDate f.FlDob = none →
          (∀ j, j < i → ∀ g, (Slice.toList req.Family)[j]? = some g → parseDate g.FlDob ≠ none) →
          Handler.CreateUser ⟨recording uc, v⟩ (some req) (s, log)
              = (⟨422, Body.apiError ⟨true, "invalid fl_dob",
                    some [("family[" ++ Itoa i ++ "].fl_dob", "YYYY-MM-DD")]⟩⟩, (s, log))
            ∧ Handler.UpdateUser ⟨recording uc, v⟩ idVar (some req) (s, log)
              = (⟨422, Body.apiError ⟨true, "invalid fl_dob",
                    some [("family[" ++ Itoa i ++ "].fl_dob", "YYYY-MM-DD")]⟩⟩, (s, log))) := by
  refine ⟨fun hdob => ?_, fun hdob i f hi hbad hmin => ?_⟩
  · constructor
    · simp [Handler.CreateUser, hval, hdob, writeErr, writeJSON, StatusUnprocessableEntity]
    · simp [Handler.UpdateUser, hid, hval, hdob, writeErr, writeJSON, StatusUnprocessableEntity]
  · have hfirst := checkFamilyDob_first (Slice.toList req.Family) 0 i f hi hbad hmin
    rw [Nat.zero_add] at hfirst
    constructor
    · simp [Handler.CreateUser, hval, hdob, hfirst, writeErr, writeJSON,
        StatusUnprocessableEntity]
    · simp [Handler.UpdateUser, hid, hval, hdob, checkAndBuildFamily_eq, hfirst, writeErr,
        writeJSON, StatusUnprocessableEntity]

/-- C6: for a create payload that passes every validation and for which the
operations layer returns `(id, nil)`, `CreateUser` responds 201 with `cst_id =
id`, the payload's name, nationality, phone and email, `cst_dob` equal to the
payload's string, and a non-nil family list with, position by position, the
payload's relation, name and `fl_dob` string.  Formatting a parsed date gives
back the string that was parsed. -/
theorem C6_CreateUser_201_echoes_payload {σ : Type} (h : Handler σ)
    (req : CreateCustomerRequest) (s : σ) (id : Int)
    (hval : h.Val.Struct req = false) (hdob : parseDate req.CstDob ≠ none)
    (hfam : ∀ f ∈ Slice.toList req.Family, parseDate f.FlDob ≠ none)
    (hcreate : (h.UC.Create
      (Handler.newCustomer req (Handler.buildFamily (Slice.toList req.Family) none)) s).1
        = (id, none)) :
    (∃ resp : CustomerResponse,
      (h.CreateUser (some req) s).1 = ⟨201, Body.customerResponse resp⟩
        ∧ resp.CstID = id ∧ resp.CstName = req.CstName
        ∧ resp.NationalityID = req.NationalityID ∧ resp.CstPhoneNum = req.CstPhoneNum
        ∧ resp.CstEmail = req.CstEmail ∧ resp.CstDob = req.CstDob
        ∧ resp.Family ≠ none
        ∧ (Slice.toList resp.Family).map (fun f => (f.FlRelation, f.FlName, f.FlDob))
            = (Slice.toList req.Family).map (fun f => (f.FlRelation, f.FlName, f.FlDob)))
    ∧ (∀ (str : String) (t : Time), parseDate str = some t → formatDate t = str) := by
  refine ⟨?_, fun str t ht => formatDate_parseDate ht⟩
  have hcheck := checkFamilyDob_none (Slice.toList req.Family) 0 hfam
  rcases hc : h.UC.Create
      (Handler.newCustomer req (Handler.buildFamily (Slice.toList req.Family) none)) s
    with ⟨⟨id', err⟩, s1⟩
  rw [hc] at hcreate
  simp only [Prod.mk.injEq] at hcreate
  obtain ⟨rfl, rfl⟩ := hcreate
  have hsome : (parseDate req.CstDob).isSome = true := by
    cases hp : parseDate req.CstDob with
    | none => exact absurd hp hdob
    | some t => rfl
  refine ⟨⟨id', req.CstName, formatDate (mustParse req.CstDob), req.NationalityID,
    req.CstPhoneNum, req.CstEmail,
    Handler.buildFamilyResponse
      (Slice.toList (Handler.buildFamily (Slice.toList req.Family) none)) (some [])⟩,
    ?_, rfl, rfl, rfl, rfl, rfl, ?_, ?_, ?_⟩
  · simp only [Handler.CreateUser, hval, hdob, hcheck, Bool.false_eq_true, if_false, hc,
      writeJSON, StatusCreated]
    rfl
  · simp only [Handler.newCustomer]
    exact formatDate_mustParse hsome
  · exact buildFamilyResponse_ne_none _ _ (by simp)
  · rw [buildFamilyResponse_toList]
    simp only [Handler.newCustomer, buildFamily_toList, Slice.toList_none, Slice.toList_some,
      List.nil_append, List.map_map]
    apply List.map_congr_left
    intro f hf
    have hp : (parseDate f.FlDob).isSome = true := by
      cases hq : parseDate f.FlDob with
      | none => exact absurd hq (hfam f hf)
      | some t => rfl
    simp [formatDate_mustParse hp]

/-- C10: for an accepted id, `GetUser` answers 404 "not found" with no fields
both when the operations layer returns an error that is `ErrNotFound` and when
it returns `(nil, nil)`; the two responses are equal. -/
theorem C10_GetUser_not_found_same_response {σ τ : Type} (h1 : Handler σ) (h2 : Handler τ)
    (idVar : String) (s : σ) (s2 : τ) (c : Option Customer) (e : Error)
    (hid : (Atoi idVar).1 ≠ 0)
    (herr : (h1.UC.Get (toInt32 (Atoi idVar).1) s).1 = (c, some e))
    (hnf : e.Is Error.ErrNotFound = true)
    (hnil : (h2.UC.Get (toInt32 (Atoi idVar).1) s2).1 = (none, none)) :
    (h1.GetUser idVar s).1 = ⟨404, Body.apiError ⟨true, "not found", none⟩⟩
      ∧ (h2.GetUser idVar s2).1 = ⟨404, Body.apiError ⟨true, "not found", none⟩⟩
      ∧ (h1.GetUser idVar s).1 = (h2.GetUser idVar s2).1 := by
  have e1 : (h1.GetUser idVar s).1 = ⟨404, Body.apiError ⟨true, "not found", none⟩⟩ := by
    rcases hg : h1.UC.Get (toInt32 (Atoi idVar).1) s with ⟨⟨c1, err1⟩, s1⟩
    rw [hg] at herr
    simp only [Prod.mk.injEq] at herr
    obtain ⟨rfl, rfl⟩ := herr
    simp [Handler.GetUser, hid, hg, hnf, writeErr, writeJSON, StatusNotFound, MsgNotFound]
  have e2 : (h2.GetUser idVar s2).1 = ⟨404, Body.apiError ⟨true, "not found", none⟩⟩ := by
    rcases hg : h2.UC.Get (toInt32 (Atoi idVar).1) s2 with ⟨⟨c1, err1⟩, s1⟩
    rw [hg] at hnil
    simp only [Prod.mk.injEq] at hnil
    obtain ⟨rfl, rfl⟩ := hnil
    simp [Handler.GetUser, hid, hg, writeErr, writeJSON, StatusNotFound, MsgNotFound]
  exact ⟨e1, e2, e1.trans e2.symm⟩

/-- Witness of C5: the handler test's payload with `cst_dob = "10-05-1992"`, and a
payload whose family entry 1 is the first with an unparsable `fl_dob`. -/
theorem C5_bad_dob_is_422_without_call_witness :
    Handler.CreateUser ⟨recording (stubUC (none, none) (123, none) none none), exampleValidate⟩
        (some badDobRequest) ((), [])
      = (⟨422, Body.apiError ⟨true, "invalid cst_dob", some [("cst_dob", "YYYY-MM-DD")]⟩⟩,
          ((), []))
    ∧ Handler.UpdateUser ⟨recording (stubUC (none, none) (123, none) none none), exampleValidate⟩
        "7" (some badFamilyRequest) ((), [])
      = (⟨422, Body.apiError ⟨true, "invalid fl_dob",
            some [("family[" ++ Itoa 1 ++ "].fl_dob", "YYYY-MM-DD")]⟩⟩, ((), [])) :=
  ⟨((C5_bad_dob_is_422_without_call (stubUC (none, none) (123, none) none none)
      exampleValidate badDobRequest "7" () [] (by decide) (by decide)).1 (by decide)).1,
   ((C5_bad_dob_is_422_without_call (stubUC (none, none) (123, none) none none)
      exampleValidate badFamilyRequest "7" () [] (by decide) (by decide)).2 (by decide)
      1 ⟨"Child", "GAMA", "31/12/2010"⟩ (by decide) (by decide)
      (fun j hj g hg => by
        have hj0 : j = 0 := by omega
        subst hj0
        have hg0 : g = ⟨"Spouse", "BETA", "1993-07-01"⟩ := by
          simpa [badFamilyRequest, Slice.toList] using hg.symm
        subst hg0
        decide)).2⟩

/-- Witness of C6: the specification's creation scenario, answered with id 123. -/
theorem C6_CreateUser_201_echoes_payload_witness :
    (∃ resp : CustomerResponse,
      (Handler.CreateUser ⟨stubUC (none, none) (123, none) none none, exampleValidate⟩
          (some exampleRequest) ()).1 = ⟨201, Body.customerResponse resp⟩
        ∧ resp.CstID = 123 ∧ resp.CstName = "ALFA" ∧ resp.NationalityID = 1
        ∧ resp.CstPhoneNum = "0811000001" ∧ resp.CstEmail = "alfa1@example.com"
        ∧ resp.CstDob = "1992-05-10" ∧ resp.Family ≠ none
        ∧ (Slice.toList resp.Family).map (fun f => (f.FlRelation, f.FlName, f.FlDob))
            = [("Spouse", "BETA", "1993-07-01")])
    ∧ (∀ (str : String) (t : Time), parseDate str = some t → formatDate t = str) :=
  C6_CreateUser_201_echoes_payload
    ⟨stubUC (none, none) (123, none) none none, exampleValidate⟩ exampleRequest () 123
    (by decide) (by decide) (by decide) rfl

/-- Witness of C10: id 123 answered once with `ErrNotFound`, once with `(nil, nil)`,
as in the two 404 cases of the handler test. -/
theorem C10_GetUser_not_found_same_response_witness :
    (Handler.GetUser ⟨stubUC (none, some Error.ErrNotFound) (0, none) none none,
        exampleValidate⟩ "123" ()).1 = ⟨404, Body.apiError ⟨true, "not found", none⟩⟩
      ∧ (Handler.GetUser ⟨stubUC (none, none) (0, none) none none, exampleValidate⟩
          "123" ()).1 = ⟨404, Body.apiError ⟨true, "not found", none⟩⟩
      ∧ (Handler.GetUser ⟨stubUC (none, some Error.ErrNotFound) (0, none) none none,
          exampleValidate⟩ "123" ()).1
        = (Handler.GetUser ⟨stubUC (none, none) (0, none) none none, exampleValidate⟩
          "123" ()).1 :=
  C10_GetUser_not_found_same_response
    ⟨stubUC (none, some Error.ErrNotFound) (0, none) none none, exampleValidate⟩
    ⟨stubUC (none, none) (0, none) none none, exampleValidate⟩ "123" () () none
    Error.ErrNotFound (by decide) rfl (by decide) rfl

/-! ## `GetUser`: what is written for a customer, and which ids reach the lookup -/

/-- C7 (the code differs): `GetUser` hands the `domain.Customer` itself to
`writeJSON`.  For the customer born 1992-05-10 with a family member born
1993-07-01 the 200 body carries `"Dob":"1992-05-10T00:00:00Z"` and, for the
family member, `"Dob":"1993-07-01T00:00:00Z"`: timestamps with a time of day
and a zone, under the key `Dob`, where `Format("2006-01-02")` of the same
values gives "1992-05-10" and "1993-07-01". -/
theorem C7_GetUser_body_dob_is_timestamp :
    (Handler.GetUser ⟨stubUC (some exampleCustomer, none) (0, none) none none,
        exampleValidate⟩ "1" ()).1 = ⟨200, Body.customer exampleCustomer⟩
      ∧ (marshalCustomer exampleCustomer).bind (JSON.stringMember "Dob")
          = some "1992-05-10T00:00:00Z"
      ∧ ((marshalCustomer exampleCustomer).map
            (fun j => (JSON.arrayMember "Family" j).map (JSON.stringMember "Dob")))
          = some [some "1993-07-01T00:00:00Z"]
      ∧ (marshalCustomer exampleCustomer).bind (JSON.stringMember "cst_dob") = none
      ∧ formatDate exampleCustomer.Dob = "1992-05-10" := by
  decide

/-- C8 (the code differs): `GetUser` and `UpdateUser` test only `id == 0`.  For
the path value "-5" both invoke the operations layer with id -5: `GetUser`
performs the lookup (here answered with `(nil, nil)`, hence 404), `UpdateUser`
performs the update and answers 200.  The same happens for a value that is
not numeric but on which `Atoi` stops with a range error before it reaches
the offending byte: the value it returns with the error is not zero. -/
theorem C8_negative_id_reaches_operations_layer :
    Handler.GetUser ⟨recording (stubUC (none, none) (0, none) none none), exampleValidate⟩
        "-5" ((), [])
      = (⟨404, Body.apiError ⟨true, "not found", none⟩⟩, ((), [Call.Get (-5)]))
    ∧ Handler.UpdateUser ⟨recording (stubUC (none, none) (0, none) none none),
        exampleValidate⟩ "-5" (some exampleRequest) ((), [])
      = (⟨200, Body.stringMap [("status", "ok")]⟩,
          ((), [Call.Update (-5) (Handler.newCustomer exampleRequest
            (some [⟨0, 0, "Spouse", "BETA", Time.ofDate 1993 7 1⟩]))]))
    ∧ decimalValue "99999999999999999999x" = none
    ∧ Handler.GetUser ⟨recording (stubUC (none, none) (0, none) none none), exampleValidate⟩
        "99999999999999999999x" ((), [])
      = (⟨404, Body.apiError ⟨true, "not found", none⟩⟩, ((), [Call.Get (-1)])) := by
  decide

/-! ### Lemmas on `strconv.Atoi` -/

theorem le_digitsValue (l : List Char) (n : Nat) : n ≤ digitsValue l n := by
  induction l generalizing n with
  | nil => exact Nat.le_refl n
  | cons c cs ih =>
    have h := ih (n * 10 + digitVal c)
    simp only [digitsValue, List.foldl_cons] at h ⊢
    omega

theorem parseUintLoop_digits (cs : List Char) (n : Nat) (hall : cs.all isDigit = true)
    (hn : n ≤ maxUint64) :
    parseUintLoop cs n =
      if digitsValue cs n ≤ maxUint64 then (digitsValue cs n, none)
      else (maxUint64, some NumError.ErrRange) := by
  induction cs generalizing n with
  | nil => simp [parseUintLoop, digitsValue, hn]
  | cons c cs ih =>
    simp only [List.all_cons, Bool.and_eq_true] at hall
    have hmono := le_digitsValue cs (n * 10 + digitVal c)
    have hstep : digitsValue (c :: cs) n = digitsValue cs (n * 10 + digitVal c) := rfl
    rw [hstep]
    simp only [parseUintLoop, hall.1, Bool.true_eq_false, if_false]
    by_cases h1 : n ≥ maxUint64 / 10 + 1
    · have hbig : ¬ digitsValue cs (n * 10 + digitVal c) ≤ maxUint64 := by
        simp only [maxUint64] at h1 ⊢
        omega
      simp [h1, hbig]
    · by_cases h2 : n * 10 + digitVal c > maxUint64
      · have hbig : ¬ digitsValue cs (n * 10 + digitVal c) ≤ maxUint64 := by omega
        simp [h1, h2, hbig]
      · simp only [h1, h2, if_false]
        exact ih (n * 10 + digitVal c) hall.2 (by omega)

theorem parseUintLoop_not_digits (cs : List Char) (n : Nat) (hall : cs.all isDigit = false) :
    (parseUintLoop cs n).2 ≠ none := by
  induction cs generalizing n with
  | nil => simp at hall
  | cons c cs ih =>
    simp only [parseUintLoop]
    by_cases hc : isDigit c = false
    · simp [hc]
    · have hc1 : isDigit c = true := by simpa using hc
      have hrest : cs.all isDigit = false := by
        simpa [List.all_cons, hc1] using hall
      simp only [hc1, Bool.true_eq_false, if_false]
      split
      · simp
      · split
        · simp
        · exact ih _ hrest

theorem parseUintLoop_range (cs : List Char) (n : Nat)
    (h : (parseUintLoop cs n).2 = some NumError.ErrRange) :
    (parseUintLoop cs n).1 = maxUint64 := by
  induction cs generalizing n with
  | nil => simp [parseUintLoop] at h
  | cons c cs ih =>
    simp only [parseUintLoop] at h ⊢
    split
    · rename_i hc
      simp [hc] at h
    · rename_i hc
      simp only [hc, if_false] at h
      split
      · rfl
      · rename_i h1
        simp only [h1, if_false] at h
        split
        · rfl
        · rename_i h2
          simp only [h2, if_false] at h
          exact ih _ h

theorem ParseUint_digits (ds : List Char) (hne : ds ≠ []) (hall : ds.all isDigit = true) :
    ParseUint ds =
      if digitsValue ds 0 ≤ maxUint64 then (digitsValue ds 0, none)
      else (maxUint64, some NumError.ErrRange) := by
  cases ds with
  | nil => exact absurd rfl hne
  | cons c cs =>
    simp only [ParseUint]
    exact parseUintLoop_digits (c :: cs) 0 hall (by simp [maxUint64])

theorem ParseUint_not_digits (ds : List Char) (h : ds = [] ∨ ds.all isDigit = false) :
    (ParseUint ds).2 ≠ none := by
  cases ds with
  | nil => simp [ParseUint]
  | cons c cs =>
    rcases h with h | h
    · cases h
    · simp only [ParseUint]
      exact parseUintLoop_not_digits (c :: cs) 0 h

theorem ParseInt_digits (c : Char) (cs ds : List Char)
    (hd : ds = if c = '+' ∨ c = '-' then cs else c :: cs)
    (hne : ds ≠ []) (hall : ds.all isDigit = true) :
    ParseInt (c :: cs) =
      if c ≠ '-' ∧ digitsValue ds 0 ≥ 2 ^ 63 then (2 ^ 63 - 1, some NumError.ErrRange)
      else if c = '-' ∧ digitsValue ds 0 > 2 ^ 63 then (-(2 ^ 63), some NumError.ErrRange)
      else (if c = '-' then -(digitsValue ds 0 : Int) else (digitsValue ds 0 : Int), none) := by
  have hu := ParseUint_digits ds hne hall
  simp only [ParseInt, ← hd]
  by_cases hv : digitsValue ds 0 ≤ maxUint64
  · rw [if_pos hv] at hu
    rw [hu]
    by_cases hc : c = '-' <;> simp [hc]
  · rw [if_neg hv] at hu
    rw [hu]
    have hbig : 9223372036854775808 < digitsValue ds 0 := by
      simp only [maxUint64] at hv
      omega
    by_cases hc : c = '-'
    · simp [hc, maxUint64, hbig]
    · have hbig2 : 9223372036854775808 ≤ digitsValue ds 0 := by omega
      simp [hc, maxUint64, hbig2]

theorem ParseInt_not_digits (c : Char) (cs ds : List Char)
    (hd : ds = if c = '+' ∨ c = '-' then cs else c :: cs)
    (h : ds = [] ∨ ds.all isDigit = false) :
    (ParseInt (c :: cs)).2 ≠ none := by
  have hu := ParseUint_not_digits ds h
  simp only [ParseInt, ← hd]
  rcases hp : ParseUint ds with ⟨un, err⟩
  rw [hp] at hu
  cases err with
  | none => exact absurd rfl hu
  | some e =>
    cases e with
    | ErrSyntax => simp
    | ErrRange =>
      simp only
      split
      · simp
      · split
        · simp
        · rename_i h1 h2
          exfalso
          cases ds with
          | nil => simp [ParseUint] at hp
          | cons d ds' =>
            simp only [ParseUint] at hp
            have hr := parseUintLoop_range (d :: ds') 0 (by rw [hp])
            rw [hp] at hr
            simp only at hr
            subst hr
            by_cases hc : c = '-'
            · exact h2 ⟨by simp [hc], by simp [maxUint64]⟩
            · exact h1 ⟨by simp [hc], by simp [maxUint64]⟩

/-- `strconv.Atoi` succeeds with value `v` exactly on the numerals that write an
integer `v` of the signed 64-bit range. -/
theorem Atoi_eq_ok_iff (s : String) (v : Int) :
    Atoi s = (v, none) ↔ decimalValue s = some v ∧ -(2 ^ 63) ≤ v ∧ v < 2 ^ 63 := by
  unfold Atoi decimalValue
  cases hs : s.data with
  | nil => simp [ParseInt]
  | cons c cs =>
    simp only
    generalize hd : (if c = '+' ∨ c = '-' then cs else c :: cs) = ds
    by_cases hgood : ds ≠ [] ∧ ds.all isDigit = true
    · rw [ParseInt_digits c cs ds hd.symm hgood.1 hgood.2, if_pos hgood]
      by_cases hc : c = '-'
      · simp only [hc, ne_eq, not_true_eq_false, false_and, if_false, true_and, if_true,
          Option.some.injEq]
        by_cases hbig : digitsValue ds 0 > 2 ^ 63
        · simp only [hbig, if_true, Prod.mk.injEq, reduceCtorEq, and_false, false_iff]
          omega
        · simp only [hbig, if_false, Prod.mk.injEq, and_true]
          constructor
          · intro h
            omega
          · intro h
            exact h.1
      · simp only [hc, ne_eq, not_false_eq_true, true_and, false_and, if_false,
          Option.some.injEq]
        by_cases hbig : digitsValue ds 0 ≥ 2 ^ 63
        · simp only [hbig, if_true, Prod.mk.injEq, reduceCtorEq, and_false, false_iff]
          omega
        · simp only [hbig, if_false, Prod.mk.injEq, and_true]
          constructor
          · intro h
            omega
          · intro h
            exact h.1
    · have hbad : ds = [] ∨ ds.all isDigit = false := by
        by_cases hne : ds = []
        · exact Or.inl hne
        · right
          cases hall : ds.all isDigit with
          | false => rfl
          | true => exact absurd ⟨hne, hall⟩ hgood
      have herr := ParseInt_not_digits c cs ds hd.symm hbad
      rw [if_neg hgood]
      constructor
      · intro h
        rw [h] at herr
        exact absurd rfl herr
      · intro h
        simp at h

/-- What `strconv.Atoi` reports: no error exactly on the numerals of the signed
64-bit range. -/
theorem Atoi_err_eq_none_iff (s : String) :
    (Atoi s).2 = none ↔ ∃ v, decimalValue s = some v ∧ -(2 ^ 63) ≤ v ∧ v < 2 ^ 63 := by
  constructor
  · intro h
    refine ⟨(Atoi s).1, (Atoi_eq_ok_iff s (Atoi s).1).1 ?_⟩
    rw [← h]
  · rintro ⟨v, hv⟩
    rw [(Atoi_eq_ok_iff s v).2 hv]

/-! ## `DeleteUser`: which path values reach the operations layer -/

/-- What holds of the id check of `GetUser` and `UpdateUser`: a path value that writes zero, or on which
`Atoi` fails with a syntax error, is answered by `GetUser` and `UpdateUser`
with 400 "invalid id", the state untouched. -/
theorem GetUser_UpdateUser_reject_zero {σ : Type} (h : Handler σ) (idVar : String)
    (body : Option UpdateCustomerRequest) (s : σ)
    (hzero : decimalValue idVar = some 0 ∨ (Atoi idVar).2 = some NumError.ErrSyntax) :
    h.GetUser idVar s = (⟨400, Body.apiError ⟨true, "invalid id", none⟩⟩, s)
      ∧ h.UpdateUser idVar body s = (⟨400, Body.apiError ⟨true, "invalid id", none⟩⟩, s) := by
  have hid : (Atoi idVar).1 = 0 := by
    rcases hzero with h0 | hsyn
    · rw [(Atoi_eq_ok_iff idVar 0).2 ⟨h0, by omega, by omega⟩]
    · unfold Atoi ParseInt at hsyn ⊢
      cases hd : idVar.data with
      | nil => rfl
      | cons c cs =>
        rw [hd] at hsyn
        simp only at hsyn ⊢
        rcases hp : ParseUint (if c = '+' ∨ c = '-' then cs else c :: cs) with ⟨un, err⟩
        rw [hp] at hsyn
        cases err with
        | none =>
          simp only at hsyn
          split_ifs at hsyn <;> simp at hsyn
        | some e =>
          cases e with
          | ErrSyntax => rfl
          | ErrRange =>
            simp only at hsyn
            split_ifs at hsyn <;> simp at hsyn
  constructor
  · simp [Handler.GetUser, hid, writeErr, writeJSON, StatusBadRequest, MsgInvalidID]
  · simp [Handler.UpdateUser, hid, writeErr, writeJSON, StatusBadRequest, MsgInvalidID]

theorem DeleteUser_rejects {σ : Type} (h : Handler σ) (idVar : String) (s : σ)
    (hbad : (Atoi idVar).2 ≠ none ∨ (Atoi idVar).1 ≤ 0) :
    h.DeleteUser idVar s = (⟨400, Body.apiError ⟨true, "invalid id", none⟩⟩, s) := by
  unfold Handler.DeleteUser
  rcases ha : Atoi idVar with ⟨id, err⟩
  rw [ha] at hbad
  simp only [if_pos hbad]
  rfl

theorem DeleteUser_accepts {σ : Type} (uc : UserUsecase σ) (v : Validate) (idVar : String)
    (s : σ) (log : List Call) (herr : (Atoi idVar).2 = none) (hpos : 0 < (Atoi idVar).1) :
    (Handler.DeleteUser ⟨recording uc, v⟩ idVar (s, log)).2.2
        = log ++ [Call.Delete (toInt32 (Atoi idVar).1)]
      ∧ (Handler.DeleteUser ⟨recording uc, v⟩ idVar (s, log)).1.status ≠ 400 := by
  unfold Handler.DeleteUser
  rcases ha : Atoi idVar with ⟨id, err⟩
  rw [ha] at herr hpos
  simp only at herr hpos
  subst herr
  have hnot : ¬ ((none : Option NumError) ≠ none ∨ id ≤ 0) := by
    intro h
    rcases h with h | h
    · exact h rfl
    · omega
  simp only [if_neg hnot, recording]
  cases hdel : (uc.Delete (toInt32 id) s).1 with
  | none => simp [writeJSON, StatusOK]
  | some e =>
    by_cases hnf : e.Is Error.ErrNotFound = true
    · simp [hnf, writeErr, writeJSON, StatusNotFound]
    · simp [hnf, writeErr, writeJSON, StatusInternalServerError]

/-- C9 as stated fails: the path value "9223372036854775808" is numeric and its
integer value is positive, yet `DeleteUser` responds 400 "invalid id" without
invoking `Delete` (`Atoi` reports a range error). -/
theorem C9_numeric_positive_value_rejected :
    ¬ ((Handler.DeleteUser ⟨recording (stubUC (none, none) (0, none) none none),
            exampleValidate⟩ "9223372036854775808" ((), [])
          = (⟨400, Body.apiError ⟨true, "invalid id", none⟩⟩, ((), [])))
        ↔ (decimalValue "9223372036854775808" = none
            ∨ ∃ x, decimalValue "9223372036854775808" = some x ∧ x ≤ 0)) := by
  intro h
  have hval : decimalValue "9223372036854775808" = some 9223372036854775808 := by decide
  rcases h.1 (by decide) with hnone | ⟨x, hx, hle⟩
  · rw [hval] at hnone
    cases hnone
  · rw [hval] at hx
    simp only [Option.some.injEq] at hx
    omega

/-- C9 (amended): `DeleteUser` responds 400 "invalid id" without invoking
`Delete` if and only if the path value is not numeric, or its integer value is
`<= 0`, or its integer value does not fit a signed 64-bit integer (`>= 2^63`);
for every other value `Delete` is invoked exactly once and the response is not
400; the id it is invoked with is the value written whenever that is below
`2^31`. -/
theorem C9_DeleteUser_400_iff_not_accepted {σ : Type} (uc : UserUsecase σ) (v : Validate)
    (idVar : String) (s : σ) (log : List Call) :
    ((Handler.DeleteUser ⟨recording uc, v⟩ idVar (s, log)
          = (⟨400, Body.apiError ⟨true, "invalid id", none⟩⟩, (s, log)))
        ↔ (decimalValue idVar = none
            ∨ ∃ x, decimalValue idVar = some x ∧ (x ≤ 0 ∨ 2 ^ 63 ≤ x)))
    ∧ (∀ x, decimalValue idVar = some x → 0 < x → x < 2 ^ 63 →
        ∃ id : Int,
          (Handler.DeleteUser ⟨recording uc, v⟩ idVar (s, log)).2.2 = log ++ [Call.Delete id]
            ∧ (x < 2 ^ 31 → id = x)
            ∧ (Handler.DeleteUser ⟨recording uc, v⟩ idVar (s, log)).1.status ≠ 400) := by
  have hacc : ∀ x, decimalValue idVar = some x → 0 < x → x < 2 ^ 63 →
      (Handler.DeleteUser ⟨recording uc, v⟩ idVar (s, log)).2.2
          = log ++ [Call.Delete (toInt32 x)]
        ∧ (Handler.DeleteUser ⟨recording uc, v⟩ idVar (s, log)).1.status ≠ 400 := by
    intro x hx hpos hlt
    have hok : Atoi idVar = (x, none) := (Atoi_eq_ok_iff idVar x).2 ⟨hx, by omega, hlt⟩
    have h := DeleteUser_accepts uc v idVar s log (by rw [hok]) (by rw [hok]; exact hpos)
    rw [hok] at h
    exact h
  refine ⟨⟨fun h400 => ?_, fun hrej => ?_⟩, fun x hx hpos hlt =>
    ⟨toInt32 x, (hacc x hx hpos hlt).1, fun h31 => by unfold toInt32; omega,
      (hacc x hx hpos hlt).2⟩⟩
  · cases hd : decimalValue idVar with
    | none => exact Or.inl rfl
    | some x =>
      right
      refine ⟨x, rfl, ?_⟩
      by_contra hcon
      have hx : 0 < x ∧ x < 2 ^ 63 := by omega
      have hlog := (hacc x hd hx.1 hx.2).1
      rw [h400] at hlog
      have hlen := congrArg List.length hlog
      simp at hlen
  · apply DeleteUser_rejects
    by_cases herr : (Atoi idVar).2 = none
    · right
      obtain ⟨w, hw, hlo, hhi⟩ := (Atoi_err_eq_none_iff idVar).1 herr
      have hok : Atoi idVar = (w, none) := (Atoi_eq_ok_iff idVar w).2 ⟨hw, hlo, hhi⟩
      rw [hok]
      rcases hrej with hnone | ⟨x, hx, hx2⟩
      · rw [hw] at hnone
        cases hnone
      · rw [hw] at hx
        simp only [Option.some.injEq] at hx
        subst hx
        simp only
        omega
    · exact Or.inl herr

/-! ## The persistence gateway: transactions -/

theorem rollback_rows (db t : DB) :
    (DB.rollback db t).customer = db.customer
      ∧ (DB.rollback db t).family_list = db.family_list
      ∧ (DB.rollback db t).nationality = db.nationality :=
  ⟨rfl, rfl, rfl⟩

/-- The three outcomes of `CreateCustomer` once the transaction has begun. -/
theorem CreateCustomer_cases (r : PgUserRepo) (c : Customer) (db : DB)
    (hbegin : r.fault 0 = none) :
    (∃ e t1, r.insertCustomerRow c db = (Except.error e, t1)
        ∧ r.CreateCustomer c db
          = ((0, some (if e = StorageErr.PgError "23505" then Error.ErrConflict
                else Error.storage e)), DB.rollback db t1))
    ∨ (∃ id t1 e t2, r.insertCustomerRow c db = (Except.ok id, t1)
        ∧ ((r.insertFamilyLoop id (Slice.toList c.Family) 2 t1 = (some e, t2))
            ∨ (r.insertFamilyLoop id (Slice.toList c.Family) 2 t1 = (none, t2)
                ∧ r.fault (2 + Slice.len c.Family) = some e))
        ∧ r.CreateCustomer c db = ((0, some (Error.storage e)), DB.rollback db t2))
    ∨ (∃ id t1 t2, r.insertCustomerRow c db = (Except.ok id, t1)
        ∧ r.insertFamilyLoop id (Slice.toList c.Family) 2 t1 = (none, t2)
        ∧ r.fault (2 + Slice.len c.Family) = none
        ∧ r.CreateCustomer c db = ((id, none), t2)) := by
  unfold PgUserRepo.CreateCustomer
  simp only [hbegin]
  rcases hins : r.insertCustomerRow c db with ⟨res, t1⟩
  cases res with
  | error e =>
    left
    refine ⟨e, t1, rfl, ?_⟩
    cases e with
    | PgError code =>
      by_cases hcode : code = "23505"
      · simp [hcode]
      · simp [hcode]
    | ErrNoRows => simp
    | other msg => simp
  | ok id =>
    right
    simp only
    rcases hloop : r.insertFamilyLoop id (Slice.toList c.Family) 2 t1 with ⟨le, t2⟩
    cases le with
    | some e => exact Or.inl ⟨id, t1, e, t2, rfl, Or.inl hloop, rfl⟩
    | none =>
      cases hcommit : r.fault (2 + Slice.len c.Family) with
      | some e => exact Or.inl ⟨id, t1, e, t2, rfl, Or.inr ⟨hloop, rfl⟩, rfl⟩
      | none => exact Or.inr ⟨id, t1, t2, rfl, hloop, rfl, rfl⟩

/-- C3: once the transaction has begun, when the customer insert fails with the
unique-violation code 23505 `CreateCustomer` returns `(0, ErrConflict)`; when
it fails with any other storage error `e` it returns `(0, e)`, which is not a
conflict.  An insert that reaches storage with an email already held by a
customer row fails with 23505.  The usecase `Create`, and through it the
handler, receives exactly the result of `CreateCustomer`. -/
theorem C3_CreateCustomer_conflict_only_on_23505 (r : PgUserRepo) (c : Customer) (db : DB)
    (e : StorageErr) (t1 : DB) (v : Validate) (hbegin : r.fault 0 = none)
    (hins : r.insertCustomerRow c db = (Except.error e, t1)) :
    (e = StorageErr.PgError "23505" → (r.CreateCustomer c db).1 = (0, some Error.ErrConflict))
      ∧ (e ≠ StorageErr.PgError "23505" →
          (r.CreateCustomer c db).1 = (0, some (Error.storage e))
            ∧ (Error.storage e).Is Error.ErrConflict = false)
      ∧ (r.fault 1 = none → (∃ row ∈ db.customer, row.cst_email = c.Email) →
          e = StorageErr.PgError "23505")
      ∧ userUC.Create r.asRepository c db = r.CreateCustomer c db
      ∧ (NewHandler (NewUserUC r.asRepository) v).UC.Create c db = r.CreateCustomer c db := by
  have hcases := CreateCustomer_cases r c db hbegin
  have hres : r.CreateCustomer c db
      = ((0, some (if e = StorageErr.PgError "23505" then Error.ErrConflict
            else Error.storage e)), DB.rollback db t1) := by
    rcases hcases with ⟨e', t', h1, h2⟩ | ⟨id, t', e', t2, h1, _, _⟩ | ⟨id, t', t2, h1, _⟩
    · rw [hins] at h1
      simp only [Prod.mk.injEq, Except.error.injEq] at h1
      obtain ⟨rfl, rfl⟩ := h1
      exact h2
    · rw [hins] at h1
      simp at h1
    · rw [hins] at h1
      simp at h1
  refine ⟨fun he => ?_, fun he => ⟨?_, ?_⟩, fun h1 hdup => ?_, rfl, rfl⟩
  · rw [hres, if_pos he]
  · rw [hres, if_neg he]
  · simp [Error.Is]
  · obtain ⟨row, hmem, hrow⟩ := hdup
    have hany : db.customer.any (fun r' => decide (r'.cst_email = c.Email)
        || decide (r'.cst_id = db.customer_seq + 1)) = true := by
      rw [List.any_eq_true]
      exact ⟨row, hmem, by simp [hrow]⟩
    simp only [PgUserRepo.insertCustomerRow, h1, DB.insertCustomer, hany, if_true,
      Prod.mk.injEq, Except.error.injEq] at hins
    exact hins.1.symm

/-- C4: when `CreateCustomer` returns an error, the rows of the committed store
are those before the call (no customer row, no family row of the call is
visible) and the id returned is 0.  When it returns no error, the transaction
began, the customer insert succeeded, every family insert succeeded and the
commit succeeded, in that order; only then does the store become the
transaction's copy. -/
theorem C4_CreateCustomer_error_leaves_no_row (r : PgUserRepo) (c : Customer) (db : DB) :
    ((r.CreateCustomer c db).1.2 ≠ none →
        (r.CreateCustomer c db).2.customer = db.customer
          ∧ (r.CreateCustomer c db).2.family_list = db.family_list
          ∧ (r.CreateCustomer c db).2.nationality = db.nationality
          ∧ (r.CreateCustomer c db).1.1 = 0)
      ∧ ((r.CreateCustomer c db).1.2 = none →
          ∃ id t1 t2, r.fault 0 = none
            ∧ r.insertCustomerRow c db = (Except.ok id, t1)
            ∧ r.insertFamilyLoop id (Slice.toList c.Family) 2 t1 = (none, t2)
            ∧ r.fault (2 + Slice.len c.Family) = none
            ∧ r.CreateCustomer c db = ((id, none), t2)) := by
  cases hbegin : r.fault 0 with
  | some e =>
    have hres : r.CreateCustomer c db = ((0, some (Error.storage e)), db) := by
      simp [PgUserRepo.CreateCustomer, hbegin]
    rw [hres]
    simp
  | none =>
    rcases CreateCustomer_cases r c db hbegin with
      ⟨e, t1, _, h2⟩ | ⟨id, t1, e, t2, _, _, h2⟩ | ⟨id, t1, t2, h1, h2, h3, h4⟩
    · rw [h2]
      refine ⟨fun _ => ⟨rfl, rfl, rfl, rfl⟩, fun h => ?_⟩
      simp at h
    · rw [h2]
      refine ⟨fun _ => ⟨rfl, rfl, rfl, rfl⟩, fun h => ?_⟩
      simp at h
    · rw [h4]
      refine ⟨fun h => absurd rfl h, fun _ => ⟨id, t1, t2, rfl, h1, h2, h3, rfl⟩⟩

/-- Witness of C3: creating `exampleCustomer` in a store that already holds its
email, on a healthy connection and on one whose insert round trip is lost. -/
theorem C3_CreateCustomer_conflict_only_on_23505_witness :
    (PgUserRepo.healthy.CreateCustomer exampleCustomer exampleStore).1
        = (0, some Error.ErrConflict)
      ∧ ((PgUserRepo.failingAt 1 (StorageErr.other "connection reset")).CreateCustomer
          exampleCustomer exampleStore).1
        = (0, some (Error.storage (StorageErr.other "connection reset"))) :=
  ⟨(C3_CreateCustomer_conflict_only_on_23505 PgUserRepo.healthy exampleCustomer exampleStore
      (StorageErr.PgError "23505") { exampleStore with customer_seq := 2 } exampleValidate
      rfl rfl).1 rfl,
   ((C3_CreateCustomer_conflict_only_on_23505
      (PgUserRepo.failingAt 1 (StorageErr.other "connection reset")) exampleCustomer
      exampleStore (StorageErr.other "connection reset") exampleStore exampleValidate
      rfl rfl).2.1 (by decide)).1⟩

/-- Witness of C4: a create that fails on the duplicate email, and one whose
commit fails after the customer and the family member were inserted. -/
theorem C4_CreateCustomer_error_leaves_no_row_witness :
    ((PgUserRepo.healthy.CreateCustomer exampleCustomer exampleStore).2.customer
        = exampleStore.customer
      ∧ (PgUserRepo.healthy.CreateCustomer exampleCustomer exampleStore).2.family_list
        = exampleStore.family_list)
    ∧ (((PgUserRepo.failingAt 3 (StorageErr.other "commit failed")).CreateCustomer
          exampleCustomer emptyStore).2.customer = []
      ∧ ((PgUserRepo.failingAt 3 (StorageErr.other "commit failed")).CreateCustomer
          exampleCustomer emptyStore).2.family_list = []) :=
  ⟨⟨((C4_CreateCustomer_error_leaves_no_row PgUserRepo.healthy exampleCustomer
        exampleStore).1 (by decide)).1,
    ((C4_CreateCustomer_error_leaves_no_row PgUserRepo.healthy exampleCustomer
        exampleStore).1 (by decide)).2.1⟩,
   ⟨((C4_CreateCustomer_error_leaves_no_row
        (PgUserRepo.failingAt 3 (StorageErr.other "commit failed")) exampleCustomer
        emptyStore).1 (by decide)).1,
    ((C4_CreateCustomer_error_leaves_no_row
        (PgUserRepo.failingAt 3 (StorageErr.other "commit failed")) exampleCustomer
        emptyStore).1 (by decide)).2.1⟩⟩

/-- Whatever happens in `UpdateCustomer`, the rows of the committed store are
those before the call. -/
theorem UpdateCustomer_rows_unchanged (r : PgUserRepo) (id : Int) (c : Customer) (db : DB) :
    (r.UpdateCustomer id c db).2.customer = db.customer
      ∧ (r.UpdateCustomer id c db).2.family_list = db.family_list
      ∧ (r.UpdateCustomer id c db).2.nationality = db.nationality := by
  unfold PgUserRepo.UpdateCustomer
  cases r.fault 0 with
  | some e => exact ⟨rfl, rfl, rfl⟩
  | none =>
    simp only
    split
    · exact ⟨rfl, rfl, rfl⟩
    · split
      · exact ⟨rfl, rfl, rfl⟩
      · split
        · exact ⟨rfl, rfl, rfl⟩
        · exact ⟨rfl, rfl, rfl⟩

/-- C1 (the code differs): `UpdateCustomer` has no `tx.Commit`.  On a healthy
connection, replacing `exampleCustomer` (id 1, one family member) by
`replacementCustomer` returns nil, yet the committed store is the store before
the call and the following `GetCustomer(1)` returns the old scalar fields and
the old family list. -/
theorem C1_UpdateCustomer_returns_nil_and_discards :
    (PgUserRepo.healthy.UpdateCustomer 1 replacementCustomer exampleStore).1 = none
      ∧ (PgUserRepo.healthy.UpdateCustomer 1 replacementCustomer exampleStore).2.customer
          = exampleStore.customer
      ∧ (PgUserRepo.healthy.UpdateCustomer 1 replacementCustomer exampleStore).2.family_list
          = exampleStore.family_list
      ∧ (PgUserRepo.healthy.GetCustomer 1
          (PgUserRepo.healthy.UpdateCustomer 1 replacementCustomer exampleStore).2).1
          = (some exampleCustomer, none)
      ∧ (PgUserRepo.healthy.GetCustomer 1 exampleStore).1 = (some exampleCustomer, none) := by
  decide

/-! ### Lemmas on the create and fetch round trip -/

theorem insertFamily_ok (t t1 : DB) (id : Int) (relation name : String) (dob : Date)
    (h : t.insertFamily id relation name dob = (none, t1)) :
    t1 = { t with family_seq := t.family_seq + 1,
                  family_list := t.family_list
                    ++ [⟨t.family_seq + 1, id, relation, name, dob⟩] } := by
  unfold DB.insertFamily at h
  simp only at h
  split_ifs at h with h1 h2
  · simp at h
  · simp at h
  · simp only [Prod.mk.injEq, true_and] at h
    exact h.symm

theorem insertFamilyLoop_ok (r : PgUserRepo) (id : Int) (fs : List FamilyMember) (k : Nat)
    (t t2 : DB) (h : r.insertFamilyLoop id fs k t = (none, t2)) :
    t2.customer = t.customer ∧ t2.nationality = t.nationality
      ∧ t2.customer_seq = t.customer_seq
      ∧ t2.family_list = t.family_list ++ newFamilyRows id fs t.family_seq
      ∧ t2.family_seq = t.family_seq + fs.length := by
  induction fs generalizing k t with
  | nil =>
    simp only [PgUserRepo.insertFamilyLoop, Prod.mk.injEq, true_and] at h
    subst h
    simp [newFamilyRows]
  | cons f fs ih =>
    simp only [PgUserRepo.insertFamilyLoop] at h
    cases hk : r.fault k with
    | some e => simp [hk] at h
    | none =>
      simp only [hk] at h
      rcases hi : t.insertFamily id f.Relation f.Name (Date.ofTime f.Dob) with ⟨e, t1⟩
      rw [hi] at h
      cases e with
      | some e => simp at h
      | none =>
        simp only at h
        have hrec := ih (k + 1) t1 h
        have ht1 := insertFamily_ok t t1 id f.Relation f.Name (Date.ofTime f.Dob) hi
        subst ht1
        simp only at hrec
        obtain ⟨h1, h2, h3, h4, h5⟩ := hrec
        refine ⟨h1, h2, h3, ?_, ?_⟩
        · rw [h4]
          simp [newFamilyRows]
        · rw [h5]
          simp only [List.length_cons]
          push_cast
          omega

theorem newFamilyRows_mem (id : Int) (fs : List FamilyMember) (seq : Int) :
    ∀ row ∈ newFamilyRows id fs seq, seq < row.fl_id ∧ row.cst_id = id := by
  induction fs generalizing seq with
  | nil => simp [newFamilyRows]
  | cons f fs ih =>
    intro row hrow
    simp only [newFamilyRows, List.mem_cons] at hrow
    rcases hrow with rfl | hrow
    · exact ⟨by simp, rfl⟩
    · have := ih (seq + 1) row hrow
      exact ⟨by omega, this.2⟩

theorem newFamilyRows_sorted (id : Int) (fs : List FamilyMember) (seq : Int) :
    (newFamilyRows id fs seq).Sorted (fun a b => a.fl_id ≤ b.fl_id) := by
  induction fs generalizing seq with
  | nil => simp [newFamilyRows]
  | cons f fs ih =>
    simp only [newFamilyRows, List.sorted_cons]
    refine ⟨fun b hb => ?_, ih (seq + 1)⟩
    have := (newFamilyRows_mem id fs (seq + 1) b hb).1
    omega

theorem newFamilyRows_filter (id : Int) (fs : List FamilyMember) (seq : Int) :
    (newFamilyRows id fs seq).filter (fun r => decide (r.cst_id = id))
      = newFamilyRows id fs seq := by
  rw [List.filter_eq_self]
  intro row hrow
  simp [(newFamilyRows_mem id fs seq row hrow).2]

theorem newFamilyRows_scan (id : Int) (fs : List FamilyMember) (seq : Int)
    (hfam : ∀ f ∈ fs, f.Dob.IsDate) :
    (newFamilyRows id fs seq).map
        (fun row => ((PgUserRepo.scanFamily row).Relation, (PgUserRepo.scanFamily row).Name,
          (PgUserRepo.scanFamily row).Dob))
      = fs.map (fun f => (f.Relation, f.Name, f.Dob)) := by
  induction fs generalizing seq with
  | nil => simp [newFamilyRows]
  | cons f fs ih =>
    have hf : f.Dob.IsDate := hfam f (List.mem_cons_self f fs)
    have hrest := ih (seq + 1) (fun g hg => hfam g (List.mem_cons_of_mem f hg))
    simp only [newFamilyRows, List.map_cons, hrest, List.cons.injEq, and_true]
    simp only [PgUserRepo.scanFamily, Date.toTime, Date.ofTime, Prod.mk.injEq, true_and]
    exact hf.symm

theorem scanFamilyLoop_ok (r : PgUserRepo) (rows : List FamilyRow) (k : Nat) (c : Customer)
    (h : ∀ i, r.fault i = none) :
    ∃ g, r.scanFamilyLoop rows k c = (some g, none)
      ∧ g.ID = c.ID ∧ g.NationalityID = c.NationalityID ∧ g.Name = c.Name ∧ g.Dob = c.Dob
      ∧ g.PhoneNum = c.PhoneNum ∧ g.Email = c.Email
      ∧ Slice.toList g.Family = Slice.toList c.Family ++ rows.map PgUserRepo.scanFamily := by
  induction rows generalizing k c with
  | nil => exact ⟨c, rfl, rfl, rfl, rfl, rfl, rfl, rfl, by simp⟩
  | cons row rows ih =>
    simp only [PgUserRepo.scanFamilyLoop, h k]
    obtain ⟨g, hg, h1, h2, h3, h4, h5, h6, h7⟩ :=
      ih (k + 1) { c with Family := Slice.append c.Family (PgUserRepo.scanFamily row) }
    refine ⟨g, hg, h1, h2, h3, h4, h5, h6, ?_⟩
    rw [h7]
    simp [Slice.append, Slice.toList]

theorem insertCustomer_ok (t t1 : DB) (id nationality_id : Int) (name : String) (dob : Date)
    (phone email : String)
    (h : t.insertCustomer nationality_id name dob phone email = (Except.ok id, t1)) :
    id = t.customer_seq + 1
      ∧ t1 = { t with customer_seq := t.customer_seq + 1,
                      customer := t.customer
                        ++ [⟨t.customer_seq + 1, nationality_id, name, dob, phone, email⟩] }
      ∧ ∀ row ∈ t.customer, row.cst_id ≠ t.customer_seq + 1 := by
  unfold DB.insertCustomer at h
  simp only at h
  split_ifs at h with h1 h2
  · simp at h
  · simp at h
  · simp only [Prod.mk.injEq, Except.ok.injEq] at h
    refine ⟨h.1.symm, h.2.symm, fun row hrow hid => ?_⟩
    apply h1
    rw [List.any_eq_true]
    exact ⟨row, hrow, by simp [hid]⟩

/-- C2: in a store that keeps its integrity, for a customer whose dates of birth
are calendar dates, if `CreateCustomer(c)` returns `(id, nil)` then `id` is
positive and a `GetCustomer(id)` whose round trips do not fail returns a
customer with that id, with `c`'s nationality, name, date of birth, phone and
email, and with a family list that has, position by position, the relation,
name and date of birth of `c.Family` (same length, same order), every member
referencing `id`. -/
theorem C2_CreateCustomer_GetCustomer_round_trip (r r2 : PgUserRepo) (c : Customer) (db : DB)
    (id : Int) (hwf : db.WF) (hdob : c.Dob.IsDate)
    (hfam : ∀ f ∈ Slice.toList c.Family, f.Dob.IsDate)
    (hcreate : (r.CreateCustomer c db).1 = (id, none))
    (hget : ∀ k, r2.fault k = none) :
    0 < id
      ∧ ∃ g, (r2.GetCustomer id (r.CreateCustomer c db).2).1 = (some g, none)
        ∧ g.ID = id ∧ g.NationalityID = c.NationalityID ∧ g.Name = c.Name ∧ g.Dob = c.Dob
        ∧ g.PhoneNum = c.PhoneNum ∧ g.Email = c.Email
        ∧ (Slice.toList g.Family).map (fun f => (f.Relation, f.Name, f.Dob))
            = (Slice.toList c.Family).map (fun f => (f.Relation, f.Name, f.Dob))
        ∧ ∀ f ∈ Slice.toList g.Family, f.CustomerID = id := by
  have hbegin : r.fault 0 = none := by
    cases h0 : r.fault 0 with
    | none => rfl
    | some e =>
      simp [PgUserRepo.CreateCustomer, h0] at hcreate
  rcases CreateCustomer_cases r c db hbegin with
    ⟨e, t1, _, h2⟩ | ⟨id', t1, e, t2, _, _, h2⟩ | ⟨id', t1, t2, hins, hloop, _, hres⟩
  · rw [h2] at hcreate
    simp at hcreate
  · rw [h2] at hcreate
    simp at hcreate
  · rw [hres] at hcreate ⊢
    simp only [Prod.mk.injEq, and_true] at hcreate
    subst hcreate
    have hf1 : r.fault 1 = none := by
      cases h1 : r.fault 1 with
      | none => rfl
      | some e => simp [PgUserRepo.insertCustomerRow, h1] at hins
    simp only [PgUserRepo.insertCustomerRow, hf1] at hins
    obtain ⟨hid, ht1, hfresh⟩ := insertCustomer_ok db t1 id' _ _ _ _ _ hins
    obtain ⟨hc2, _, _, hfl2, _⟩ := insertFamilyLoop_ok r id' _ 2 t1 t2 hloop
    subst ht1
    simp only at hc2 hfl2
    rw [← hid] at hc2 hfresh
    refine ⟨by have := hwf.2.1; omega, ?_⟩
    simp only
    have hsel : t2.selectCustomer id'
        = some ⟨id', c.NationalityID, c.Name, Date.ofTime c.Dob, c.PhoneNum, c.Email⟩ := by
      unfold DB.selectCustomer
      rw [hc2, List.find?_append]
      have hnone : db.customer.find? (fun r => decide (r.cst_id = id')) = none := by
        rw [List.find?_eq_none]
        intro x hx
        simpa using hfresh x hx
      rw [hnone]
      simp
    have hold : db.family_list.filter (fun r => decide (r.cst_id = id')) = [] := by
      rw [List.filter_eq_nil_iff]
      intro f hf
      obtain ⟨c0, hc0, hc0id⟩ := hwf.1 f hf
      have := hfresh c0 hc0
      simp only [decide_eq_true_eq]
      intro hfid
      exact this (hc0id.trans hfid)
    have hfamrows : t2.selectFamily id'
        = newFamilyRows id' (Slice.toList c.Family) db.family_seq := by
      unfold DB.selectFamily
      rw [hfl2, List.filter_append, hold, List.nil_append, newFamilyRows_filter]
      exact List.Sorted.insertionSort_eq (newFamilyRows_sorted _ _ _)
    obtain ⟨g, hg, g1, g2, g3, g4, g5, g6, g7⟩ :=
      scanFamilyLoop_ok r2 (t2.selectFamily id') 2
        (PgUserRepo.scanCustomer
          ⟨id', c.NationalityID, c.Name, Date.ofTime c.Dob, c.PhoneNum, c.Email⟩) hget
    refine ⟨g, ?_, g1, g2, g3, ?_, g5, g6, ?_, ?_⟩
    · simp only [PgUserRepo.GetCustomer, PgUserRepo.queryRows, hget 0, hget 1, hsel]
      exact hg
    · rw [g4]
      simp only [PgUserRepo.scanCustomer, Date.toTime, Date.ofTime]
      exact hdob.symm
    · rw [g7, hfamrows]
      simp only [PgUserRepo.scanCustomer, Slice.toList_none, List.nil_append, List.map_map]
      exact newFamilyRows_scan id' _ db.family_seq hfam
    · rw [g7, hfamrows]
      simp only [PgUserRepo.scanCustomer, Slice.toList_none, List.nil_append, List.mem_map]
      rintro f ⟨row, hrow, rfl⟩
      exact (newFamilyRows_mem id' _ _ row hrow).2

/-- Witness of C2: `replacementCustomer` created in the store that holds
`exampleCustomer` gets id 2 and is fetched back. -/
theorem C2_CreateCustomer_GetCustomer_round_trip_witness :
    (0 : Int) < 2
      ∧ ∃ g, (PgUserRepo.healthy.GetCustomer 2
            (PgUserRepo.healthy.CreateCustomer replacementCustomer exampleStore).2).1
          = (some g, none)
        ∧ g.ID = 2 ∧ g.NationalityID = replacementCustomer.NationalityID
        ∧ g.Name = replacementCustomer.Name ∧ g.Dob = replacementCustomer.Dob
        ∧ g.PhoneNum = replacementCustomer.PhoneNum ∧ g.Email = replacementCustomer.Email
        ∧ (Slice.toList g.Family).map (fun f => (f.Relation, f.Name, f.Dob))
            = (Slice.toList replacementCustomer.Family).map
                (fun f => (f.Relation, f.Name, f.Dob))
        ∧ ∀ f ∈ Slice.toList g.Family, f.CustomerID = 2 :=
  C2_CreateCustomer_GetCustomer_round_trip PgUserRepo.healthy PgUserRepo.healthy
    replacementCustomer exampleStore 2 (by unfold DB.WF; decide) (by decide) (by decide)
    (by decide) (fun _ => rfl)

/-! ## Evaluations of the library models -/

/-- `time.Parse("2006-01-02", ·)` and `Format("2006-01-02")` on the dates of the
handler tests. -/
theorem parseDate_formatDate_evaluations :
    parseDate "1992-05-10" = some (Time.ofDate 1992 5 10)
      ∧ parseDate "10-05-1992" = none
      ∧ parseDate "31/12/2010" = none
      ∧ parseDate "2023-02-29" = none
      ∧ parseDate "2024-02-29" = some (Time.ofDate 2024 2 29)
      ∧ parseDate "1992-5-10" = none
      ∧ parseDate "" = none
      ∧ formatDate (Time.ofDate 1992 5 10) = "1992-05-10"
      ∧ Time.MarshalJSON (Time.ofDate 1992 5 10) = some "1992-05-10T00:00:00Z" := by
  decide

/-- `strconv.Atoi`, `strconv.Itoa` and `int32(·)` on path values. -/
theorem Atoi_evaluations :
    Atoi "125" = (125, none)
      ∧ Atoi "-5" = (-5, none)
      ∧ Atoi "+5" = (5, none)
      ∧ Atoi "abc" = (0, some NumError.ErrSyntax)
      ∧ Atoi "12abc" = (0, some NumError.ErrSyntax)
      ∧ Atoi "" = (0, some NumError.ErrSyntax)
      ∧ Atoi "+" = (0, some NumError.ErrSyntax)
      ∧ Atoi "9223372036854775807" = (9223372036854775807, none)
      ∧ Atoi "9223372036854775808" = (9223372036854775807, some NumError.ErrRange)
      ∧ Atoi "-9223372036854775808" = (-9223372036854775808, none)
      ∧ Atoi "-9223372036854775809" = (-9223372036854775808, some NumError.ErrRange)
      ∧ Atoi "99999999999999999999999x" = (9223372036854775807, some NumError.ErrRange)
      ∧ toInt32 4294967297 = 1
      ∧ toInt32 (-5) = -5
      ∧ toInt32 9223372036854775807 = -1
      ∧ Itoa 0 = "0"
      ∧ Itoa 12 = "12" := by
  decide

/-! ## The integrity of the store is kept -/

theorem insertFamily_seq (t : DB) (id : Int) (relation name : String) (dob : Date) :
    (t.insertFamily id relation name dob).2.customer_seq = t.customer_seq
      ∧ t.family_seq ≤ (t.insertFamily id relation name dob).2.family_seq := by
  unfold DB.insertFamily
  simp only
  split_ifs <;> simp

theorem insertFamilyLoop_seq (r : PgUserRepo) (id : Int) (fs : List FamilyMember) (k : Nat)
    (t : DB) :
    (r.insertFamilyLoop id fs k t).2.customer_seq = t.customer_seq
      ∧ t.family_seq ≤ (r.insertFamilyLoop id fs k t).2.family_seq := by
  induction fs generalizing k t with
  | nil => simp [PgUserRepo.insertFamilyLoop]
  | cons f fs ih =>
    simp only [PgUserRepo.insertFamilyLoop]
    cases r.fault k with
    | some e => simp
    | none =>
      simp only
      have hstep := insertFamily_seq t id f.Relation f.Name (Date.ofTime f.Dob)
      rcases hi : t.insertFamily id f.Relation f.Name (Date.ofTime f.Dob) with ⟨e, t1⟩
      rw [hi] at hstep
      cases e with
      | some e => exact hstep
      | none =>
        simp only
        have hrec := ih (k + 1) t1
        simp only at hstep
        exact ⟨hrec.1.trans hstep.1, le_trans hstep.2 hrec.2⟩

theorem insertCustomerRow_seq (r : PgUserRepo) (c : Customer) (t : DB) :
    t.customer_seq ≤ (r.insertCustomerRow c t).2.customer_seq
      ∧ (r.insertCustomerRow c t).2.family_seq = t.family_seq := by
  unfold PgUserRepo.insertCustomerRow
  cases r.fault 1 with
  | some e => simp
  | none =>
    unfold DB.insertCustomer
    simp only
    split_ifs <;> simp

/-- A store without customers and family rows, its sequences unused, keeps the
integrity `DB.WF`. -/
theorem WF_of_no_rows (nationality : List NationalityRow) :
    DB.WF ⟨nationality, [], [], 0, 0⟩ := by
  unfold DB.WF
  simp

/-- `CreateCustomer` keeps the integrity of the store, whatever it returns. -/
theorem CreateCustomer_preserves_WF (r : PgUserRepo) (c : Customer) (db : DB) (hwf : db.WF) :
    (r.CreateCustomer c db).2.WF := by
  cases hbegin : r.fault 0 with
  | some e =>
    have hres : r.CreateCustomer c db = ((0, some (Error.storage e)), db) := by
      simp [PgUserRepo.CreateCustomer, hbegin]
    rw [hres]
    exact hwf
  | none =>
    have hs1 := insertCustomerRow_seq r c db
    rcases CreateCustomer_cases r c db hbegin with
      ⟨e, t1, h1, h2⟩ | ⟨id, t1, e, t2, h1, hl, h2⟩ | ⟨id, t1, t2, h1, hl, _, h2⟩
    · rw [h2]
      rw [h1] at hs1
      simp only at hs1
      refine ⟨hwf.1, ?_, ?_⟩
      · have := hwf.2.1
        simp only [DB.rollback]
        omega
      · have := hwf.2.2
        simp only [DB.rollback]
        omega
    · rw [h2]
      rw [h1] at hs1
      simp only at hs1
      have hs2 := insertFamilyLoop_seq r id (Slice.toList c.Family) 2 t1
      have hloop : r.insertFamilyLoop id (Slice.toList c.Family) 2 t1 = (some e, t2)
          ∨ r.insertFamilyLoop id (Slice.toList c.Family) 2 t1 = (none, t2) := by
        rcases hl with hl | hl
        · exact Or.inl hl
        · exact Or.inr hl.1
      have hs2' : t2.customer_seq = t1.customer_seq ∧ t1.family_seq ≤ t2.family_seq := by
        rcases hloop with hl' | hl' <;> (rw [hl'] at hs2; exact hs2)
      clear hs2
      refine ⟨hwf.1, ?_, ?_⟩
      · have := hwf.2.1
        simp only [DB.rollback]
        omega
      · have := hwf.2.2
        simp only [DB.rollback]
        omega
    · rw [h2]
      simp only
      have hf1 : r.fault 1 = none := by
        cases hq : r.fault 1 with
        | none => rfl
        | some e => simp [PgUserRepo.insertCustomerRow, hq] at h1
      simp only [PgUserRepo.insertCustomerRow, hf1] at h1
      obtain ⟨hid, ht1, _⟩ := insertCustomer_ok db t1 id _ _ _ _ _ h1
      obtain ⟨hc2, _, hseq2, hfl2, hfs2⟩ := insertFamilyLoop_ok r id _ 2 t1 t2 hl
      subst ht1
      simp only at hc2 hseq2 hfl2 hfs2
      refine ⟨?_, ?_, ?_⟩
      · intro f hf
        rw [hfl2, List.mem_append] at hf
        rw [hc2]
        rcases hf with hf | hf
        · obtain ⟨c0, hc0, hc0id⟩ := hwf.1 f hf
          exact ⟨c0, List.mem_append_left _ hc0, hc0id⟩
        · refine ⟨_, List.mem_append_right _ (List.mem_singleton_self _), ?_⟩
          rw [(newFamilyRows_mem id _ _ f hf).2, hid]
      · have := hwf.2.1
        omega
      · have := hwf.2.2
        omega

/-- `UpdateCustomer` keeps the integrity of the store. -/
theorem UpdateCustomer_preserves_WF (r : PgUserRepo) (id : Int) (c : Customer) (db : DB)
    (hwf : db.WF) : (r.UpdateCustomer id c db).2.WF := by
  obtain ⟨h1, h2, _⟩ := UpdateCustomer_rows_unchanged r id c db
  have hseq : db.customer_seq ≤ (r.UpdateCustomer id c db).2.customer_seq
      ∧ db.family_seq ≤ (r.UpdateCustomer id c db).2.family_seq := by
    unfold PgUserRepo.UpdateCustomer
    cases r.fault 0 with
    | some e => simp
    | none =>
      simp only
      have hu : (r.updateCustomerRow id c db).2.customer_seq = db.customer_seq
          ∧ (r.updateCustomerRow id c db).2.family_seq = db.family_seq := by
        unfold PgUserRepo.updateCustomerRow
        cases r.fault 1 with
        | some e => simp
        | none =>
          simp only [DB.updateCustomer]
          split_ifs <;> simp
      rcases hup : r.updateCustomerRow id c db with ⟨e1, t1⟩
      rw [hup] at hu
      simp only at hu
      cases e1 with
      | some e => simp only [DB.rollback]; omega
      | none =>
        simp only
        have hd : (r.deleteFamilyRows id t1).2.customer_seq = t1.customer_seq
            ∧ (r.deleteFamilyRows id t1).2.family_seq = t1.family_seq := by
          unfold PgUserRepo.deleteFamilyRows
          cases r.fault 2 with
          | some e => simp
          | none => simp [DB.deleteFamily]
        rcases hdel : r.deleteFamilyRows id t1 with ⟨e2, t2⟩
        rw [hdel] at hd
        simp only at hd
        cases e2 with
        | some e => simp only [DB.rollback]; omega
        | none =>
          simp only
          have hl := insertFamilyLoop_seq r id (Slice.toList c.Family) 3 t2
          rcases hloop : r.insertFamilyLoop id (Slice.toList c.Family) 3 t2 with ⟨e3, t3⟩
          rw [hloop] at hl
          simp only at hl
          cases e3 with
          | some e => simp only [DB.rollback]; omega
          | none => simp only [DB.rollback]; omega
  refine ⟨?_, ?_, ?_⟩
  · intro f hf
    rw [h2] at hf
    rw [h1]
    exact hwf.1 f hf
  · have := hwf.2.1
    omega
  · have := hwf.2.2
    omega

/-- `DeleteCustomer` keeps the integrity of the store. -/
theorem DeleteCustomer_preserves_WF (r : PgUserRepo) (id : Int) (db : DB) (hwf : db.WF) :
    (r.DeleteCustomer id db).2.WF := by
  unfold PgUserRepo.DeleteCustomer
  cases r.fault 0 with
  | some e => exact hwf
  | none =>
    simp only [DB.deleteCustomer]
    have hkeep : DB.WF { db with
        customer := db.customer.filter (fun r => decide (r.cst_id ≠ id))
        family_list := db.family_list.filter (fun r => decide (r.cst_id ≠ id)) } := by
      refine ⟨?_, hwf.2.1, hwf.2.2⟩
      intro f hf
      simp only [List.mem_filter, decide_eq_true_eq] at hf
      obtain ⟨c0, hc0, hc0id⟩ := hwf.1 f hf.1
      refine ⟨c0, ?_, hc0id⟩
      simp only [List.mem_filter, decide_eq_true_eq]
      exact ⟨hc0, by rw [hc0id]; exact hf.2⟩
    split_ifs
    · exact hkeep
    · exact hkeep

/-! ## What `encoding/json` writes for a time -/

/-- For every time value, the string `Time.MarshalJSON` writes is longer than,
and so different from, the `YYYY-MM-DD` rendering `Format("2006-01-02")`. -/
theorem MarshalJSON_ne_formatDate (t : Time) (s : String) (h : t.MarshalJSON = some s) :
    s ≠ formatDate t := by
  unfold Time.MarshalJSON at h
  simp only at h
  split_ifs at h
  simp only [Option.some.injEq] at h
  subst h
  intro heq
  have hlen := congrArg (fun x : String => x.data.length) heq
  simp only [formatDate, appendFormatRFC3339, formatDateChars, List.length_append,
    List.length_cons, List.length_nil] at hlen
  omega

/-! ## The request pipeline: conflicts and declared-field validation -/

/-- C11: for a create payload that passes every validation, when the operations
layer's `Create` returns an error that is `ErrConflict`, `CreateUser` responds
409 with message "conflict" and the fields map `cst_email: already exists`. -/
theorem C11_CreateUser_conflict_is_409 {σ : Type} (h : Handler σ)
    (req : CreateCustomerRequest) (s : σ) (id : Int) (err : Error)
    (hval : h.Val.Struct req = false) (hdob : parseDate req.CstDob ≠ none)
    (hfam : ∀ f ∈ Slice.toList req.Family, parseDate f.FlDob ≠ none)
    (hcreate : (h.UC.Create
      (Handler.newCustomer req (Handler.buildFamily (Slice.toList req.Family) none)) s).1
        = (id, some err))
    (hconf : err.Is Error.ErrConflict = true) :
    (h.CreateUser (some req) s).1
      = ⟨409, Body.apiError ⟨true, "conflict", some [("cst_email", "already exists")]⟩⟩ := by
  have hcheck := checkFamilyDob_none (Slice.toList req.Family) 0 hfam
  rcases hc : h.UC.Create
      (Handler.newCustomer req (Handler.buildFamily (Slice.toList req.Family) none)) s
    with ⟨⟨id1, err1⟩, s1⟩
  rw [hc] at hcreate
  simp only [Prod.mk.injEq] at hcreate
  obtain ⟨rfl, rfl⟩ := hcreate
  simp only [Handler.CreateUser, hval, hdob, hcheck, Bool.false_eq_true, if_false, hc, hconf,
    if_true, writeErr, writeJSON, StatusConflict, MsgConflict]

/-- Witness of C11: the handler test's conflict case. -/
theorem C11_CreateUser_conflict_is_409_witness :
    (Handler.CreateUser ⟨stubUC (none, none) (0, some Error.ErrConflict) none none,
        exampleValidate⟩ (some exampleRequest) ()).1
      = ⟨409, Body.apiError ⟨true, "conflict", some [("cst_email", "already exists")]⟩⟩ :=
  C11_CreateUser_conflict_is_409
    ⟨stubUC (none, none) (0, some Error.ErrConflict) none none, exampleValidate⟩
    exampleRequest () 0 Error.ErrConflict (by decide) (by decide) (by decide) rfl (by decide)

/-- `UpdateUser` has no branch for a conflict: no request makes it answer 409. -/
theorem UpdateUser_never_409 {σ : Type} (h : Handler σ) (idVar : String)
    (body : Option UpdateCustomerRequest) (s : σ) :
    (h.UpdateUser idVar body s).1.status ≠ 409 := by
  unfold Handler.UpdateUser
  simp only
  split_ifs
  · simp [writeErr, writeJSON, StatusBadRequest]
  · cases body with
    | none => simp [writeErr, writeJSON, StatusBadRequest]
    | some req =>
      simp only
      split_ifs
      · simp [writeErr, writeJSON, StatusUnprocessableEntity]
      · simp [writeErr, writeJSON, StatusUnprocessableEntity]
      · split
        · simp [writeErr, writeJSON, StatusUnprocessableEntity]
        · split
          · split_ifs
            · simp [writeErr, writeJSON, StatusNotFound]
            · simp [writeErr, writeJSON, StatusInternalServerError]
          · simp [writeJSON, StatusOK]

/-- C12 (the code differs): `UpdateUser` maps only `ErrNotFound`.  For id 126 and
the valid scenario payload, when the operations layer's `Update` returns
`ErrConflict` the response is 500 "internal error" without a fields map, not
409.  Below it, `UpdateCustomer` does not translate the unique violation
either: giving customer 2 the email of customer 1 returns the storage error
23505 itself, which is not `ErrConflict`. -/
theorem C12_UpdateUser_conflict_is_500 :
    (Handler.UpdateUser ⟨stubUC (none, none) (0, none) (some Error.ErrConflict) none,
        exampleValidate⟩ "126" (some exampleRequest) ()).1
      = ⟨500, Body.apiError ⟨true, "internal error", none⟩⟩
    ∧ (PgUserRepo.healthy.UpdateCustomer 2 exampleCustomer twoCustomerStore).1
      = some (Error.storage (StorageErr.PgError "23505"))
    ∧ (Handler.UpdateUser
        ⟨NewUserUC PgUserRepo.healthy.asRepository, exampleValidate⟩ "2" (some exampleRequest)
        twoCustomerStore).1
      = ⟨500, Body.apiError ⟨true, "internal error", none⟩⟩ := by
  decide

/-- C13 (the code differs): the `Family` field has no `dive` tag, so the
`required` tags of its elements are never evaluated.  A payload whose family
entry has an empty `fl_relation`, or no `fl_name`, passes `Val.Struct`;
`CreateUser` invokes `Create` with that family member and answers 201,
`UpdateUser` invokes `Update` and answers 200. -/
theorem C13_empty_family_fields_are_accepted :
    exampleValidate.Struct emptyRelationRequest = false
    ∧ Handler.CreateUser ⟨recording (stubUC (none, none) (123, none) none none),
        exampleValidate⟩ (some emptyRelationRequest) ((), [])
      = (⟨201, Body.customerResponse ⟨123, "ALFA", "1992-05-10", 1, "0811000001",
            "alfa1@example.com", some [⟨"", "BETA", "1993-07-01"⟩]⟩⟩,
          ((), [Call.Create (Handler.newCustomer emptyRelationRequest
            (some [⟨0, 0, "", "BETA", Time.ofDate 1993 7 1⟩]))]))
    ∧ Handler.UpdateUser ⟨recording (stubUC (none, none) (123, none) none none),
        exampleValidate⟩ "126" (some emptyNameRequest) ((), [])
      = (⟨200, Body.stringMap [("status", "ok")]⟩,
          ((), [Call.Update 126 (Handler.newCustomer emptyNameRequest
            (some [⟨0, 0, "Spouse", "", Time.ofDate 1993 7 1⟩]))])) := by
  decide

/-- C14: for a decodable create or update payload (for update, with an accepted
path id) in which `nationality_id` is missing or `<= 0`, or one of `cst_name`,
`cst_dob`, `cst_phoneNum`, `cst_email` is empty or missing, or `cst_email`
fails the email rule, the response is 422 "validation error" without a fields
map and the operations layer is not invoked.  Nothing is assumed of the
dates: the check comes before the date-format checks. -/
theorem C14_declared_field_validation_is_422 {σ : Type} (uc : UserUsecase σ) (v : Validate)
    (req : CreateCustomerRequest) (idVar : String) (s : σ) (log : List Call)
    (hid : (Atoi idVar).1 ≠ 0)
    (hbad : req.NationalityID ≤ 0 ∨ req.CstName = "" ∨ req.CstDob = ""
      ∨ req.CstPhoneNum = "" ∨ req.CstEmail = "" ∨ v.email req.CstEmail = false) :
    Handler.CreateUser ⟨recording uc, v⟩ (some req) (s, log)
        = (⟨422, Body.apiError ⟨true, "validation error", none⟩⟩, (s, log))
      ∧ Handler.UpdateUser ⟨recording uc, v⟩ idVar (some req) (s, log)
        = (⟨422, Body.apiError ⟨true, "validation error", none⟩⟩, (s, log)) := by
  have hval : v.Struct req = true := by
    unfold Validate.Struct
    rcases hbad with h | h | h | h | h | h
    · have h2 : ¬ req.NationalityID > 0 := by omega
      simp [h2]
    · simp [h]
    · simp [h]
    · simp [h]
    · simp [h]
    · simp [h]
  constructor
  · simp [Handler.CreateUser, hval, writeErr, writeJSON, StatusUnprocessableEntity,
      MsgValidation]
  · simp [Handler.UpdateUser, hid, hval, writeErr, writeJSON, StatusUnprocessableEntity,
      MsgValidation]

/-- Witness of C14: the empty object of the handler tests, and a payload whose
only defect is an email without `@` while its `cst_dob` is also unparsable. -/
theorem C14_declared_field_validation_is_422_witness :
    Handler.CreateUser ⟨recording (stubUC (none, none) (123, none) none none), exampleValidate⟩
        (some ⟨"", "", 0, "", "", none⟩) ((), [])
      = (⟨422, Body.apiError ⟨true, "validation error", none⟩⟩, ((), []))
    ∧ Handler.UpdateUser ⟨recording (stubUC (none, none) (123, none) none none),
        exampleValidate⟩ "123"
        (some { badDobRequest with CstEmail := "alfa1.example.com" }) ((), [])
      = (⟨422, Body.apiError ⟨true, "validation error", none⟩⟩, ((), [])) :=
  ⟨(C14_declared_field_validation_is_422 (stubUC (none, none) (123, none) none none)
      exampleValidate ⟨"", "", 0, "", "", none⟩ "123" () [] (by decide)
      (Or.inl (by decide))).1,
   (C14_declared_field_validation_is_422 (stubUC (none, none) (123, none) none none)
      exampleValidate { badDobRequest with CstEmail := "alfa1.example.com" } "123" () []
      (by decide) (Or.inr (Or.inr (Or.inr (Or.inr (Or.inr (by decide))))))).2⟩

/-! ### More on `strconv.Atoi`: the value returned with an error -/

/-- What `strconv.Atoi` returns on a numeral: its value when that fits a signed
64-bit integer, else the nearest bound with a range error. -/
theorem Atoi_of_decimalValue (s : String) (v : Int) (h : decimalValue s = some v) :
    Atoi s =
      if 2 ^ 63 ≤ v then (2 ^ 63 - 1, some NumError.ErrRange)
      else if v < -(2 ^ 63) then (-(2 ^ 63), some NumError.ErrRange)
      else (v, none) := by
  unfold decimalValue at h
  unfold Atoi
  cases hs : s.data with
  | nil => rw [hs] at h; simp at h
  | cons c cs =>
    rw [hs] at h
    simp only at h
    generalize hd : (if c = '+' ∨ c = '-' then cs else c :: cs) = ds at h
    by_cases hgood : ds ≠ [] ∧ ds.all isDigit = true
    · rw [if_pos hgood] at h
      simp only [Option.some.injEq] at h
      rw [ParseInt_digits c cs ds hd.symm hgood.1 hgood.2]
      by_cases hc : c = '-'
      · simp only [hc, if_true] at h
        subst h
        simp only [hc, ne_eq, not_true_eq_false, false_and, if_false, true_and]
        have hneg : ¬ ((2 : Int) ^ 63 ≤ -(digitsValue ds 0 : Int)) := by omega
        rw [if_neg hneg]
        by_cases hbig : digitsValue ds 0 > 2 ^ 63
        · have h2 : -(digitsValue ds 0 : Int) < -(2 ^ 63) := by omega
          rw [if_pos hbig, if_pos h2]
        · have h2 : ¬ (-(digitsValue ds 0 : Int) < -(2 ^ 63)) := by omega
          rw [if_neg hbig, if_neg h2]
          simp
      · simp only [hc, if_false] at h
        subst h
        simp only [hc, ne_eq, not_false_eq_true, true_and, false_and, if_false]
        by_cases hbig : digitsValue ds 0 ≥ 2 ^ 63
        · have h2 : (2 : Int) ^ 63 ≤ (digitsValue ds 0 : Int) := by omega
          rw [if_pos hbig, if_pos h2]
        · have h2 : ¬ ((2 : Int) ^ 63 ≤ (digitsValue ds 0 : Int)) := by omega
          have h3 : ¬ ((digitsValue ds 0 : Int) < -(2 ^ 63)) := by omega
          rw [if_neg hbig, if_neg h2, if_neg h3]
    · rw [if_neg hgood] at h
      cases h

/-- The value `strconv.Atoi` returns together with an error is 0 (syntax error)
or one of the two bounds of the signed 64-bit range (range error). -/
theorem Atoi_error_value (s : String) (h : (Atoi s).2 ≠ none) :
    ((Atoi s).2 = some NumError.ErrSyntax ∧ (Atoi s).1 = 0)
      ∨ ((Atoi s).2 = some NumError.ErrRange
          ∧ ((Atoi s).1 = 2 ^ 63 - 1 ∨ (Atoi s).1 = -(2 ^ 63))) := by
  unfold Atoi ParseInt at h ⊢
  cases hd : s.data with
  | nil => exact Or.inl ⟨rfl, rfl⟩
  | cons c cs =>
    rw [hd] at h
    simp only at h ⊢
    rcases hp : ParseUint (if c = '+' ∨ c = '-' then cs else c :: cs) with ⟨un, err⟩
    rw [hp] at h
    cases err with
    | none =>
      simp only at h ⊢
      split_ifs at h ⊢
      all_goals first
        | exact Or.inr ⟨rfl, Or.inl rfl⟩
        | exact Or.inr ⟨rfl, Or.inr rfl⟩
        | exact absurd rfl h
    | some e =>
      cases e with
      | ErrSyntax => exact Or.inl ⟨rfl, rfl⟩
      | ErrRange =>
        simp only at h ⊢
        split_ifs at h ⊢
        all_goals first
          | exact Or.inr ⟨rfl, Or.inl rfl⟩
          | exact Or.inr ⟨rfl, Or.inr rfl⟩
          | exact absurd rfl h

/-- `strconv.Atoi` on the empty string: a syntax error, value 0. -/
theorem Atoi_empty : Atoi "" = (0, some NumError.ErrSyntax) := by decide

/-- A result that fits a signed 64-bit integer is held unchanged. -/
theorem toInt64_of_fits (x : Int) (hlo : -(2 ^ 63) ≤ x) (hhi : x < 2 ^ 63) : toInt64 x = x := by
  unfold toInt64
  omega

/-! ## Listing: pagination from the query string to the gateway -/

theorem userUC_List_eq {σ : Type} (repo : UserRepository σ) (search : String) (p s : Int)
    (st : σ) :
    userUC.List repo search p s st
      = repo.ListCustomers search (if s ≤ 0 then 10 else s)
          (toInt64 (((if p ≤ 0 then 1 else p) - 1) * (if s ≤ 0 then 10 else s))) st :=
  rfl

theorem userUC_List_log {σ : Type} (repo : UserRepository σ) (search : String) (p s : Int)
    (st : σ) (log : List RepoCall) :
    (userUC.List (recordingRepo repo) search p s (st, log)).2.2
      = log ++ [RepoCall.ListCustomers search (if s ≤ 0 then 10 else s)
          (toInt64 (((if p ≤ 0 then 1 else p) - 1) * (if s ≤ 0 then 10 else s)))] :=
  rfl

/-- The state `ListUsers` leaves is the state its one call of `List` leaves, and
its status is 200 or 500. -/
theorem ListUsers_state_status {σ : Type} (h : Handler σ)
    (pageParam sizeParam searchParam : String) (s : σ) :
    (h.ListUsers pageParam sizeParam searchParam s).2
        = (h.UC.List searchParam
            (if (Atoi pageParam).1 < 1 then 1 else (Atoi pageParam).1)
            (if (Atoi sizeParam).1 < 1 ∨ (Atoi sizeParam).1 > 100 then 10
              else (Atoi sizeParam).1) s).2
      ∧ ((h.ListUsers pageParam sizeParam searchParam s).1.status = 200
          ∨ (h.ListUsers pageParam sizeParam searchParam s).1.status = 500) := by
  unfold Handler.ListUsers
  simp only
  rcases h.UC.List searchParam
      (if (Atoi pageParam).1 < 1 then 1 else (Atoi pageParam).1)
      (if (Atoi sizeParam).1 < 1 ∨ (Atoi sizeParam).1 > 100 then 10
        else (Atoi sizeParam).1) s with ⟨⟨rows, total, err⟩, s1⟩
  cases err with
  | none => exact ⟨rfl, Or.inl rfl⟩
  | some e => exact ⟨rfl, Or.inr rfl⟩

/-- C15 as stated fails: `List("", 9223372036854775807, 100)` calls the gateway
with limit 100 and offset -200, the 64-bit value of `(p - 1) * s`, not with the
product 922337203685477580600. -/
theorem C15_offset_wraps_for_large_page :
    (userUC.List (recordingRepo (stubRepo (none, 0, none))) "" 9223372036854775807 100
        ((), [])).2.2 = [RepoCall.ListCustomers "" 100 (-200)]
      ∧ ¬ ((userUC.List (recordingRepo (stubRepo (none, 0, none))) "" 9223372036854775807 100
            ((), [])).2.2
          = [RepoCall.ListCustomers "" 100 ((9223372036854775807 - 1) * 100)]) := by
  decide

/-- C15 (amended): for every search string, page `p` and size `s`, usecase `List`
calls the gateway's `ListCustomers` exactly once, with the search string
unchanged, limit `s'` and offset the 64-bit `int` value of `(p' - 1) * s'`,
where `s' = 10` if `s <= 0` else `s` and `p' = 1` if `p <= 0` else `p`, and
returns the gateway's result unchanged.  The offset is the product itself
whenever the product fits a signed 64-bit integer.  `List(search, 0, 0)` makes
the same call as `List(search, 1, 10)`. -/
theorem C15_List_normalises_and_forwards {σ : Type} (repo : UserRepository σ)
    (search : String) (p s : Int) (st : σ) (log : List RepoCall) :
    userUC.List repo search p s st
        = repo.ListCustomers search (if s ≤ 0 then 10 else s)
            (toInt64 (((if p ≤ 0 then 1 else p) - 1) * (if s ≤ 0 then 10 else s))) st
      ∧ (userUC.List (recordingRepo repo) search p s (st, log)).2.2
        = log ++ [RepoCall.ListCustomers search (if s ≤ 0 then 10 else s)
            (toInt64 (((if p ≤ 0 then 1 else p) - 1) * (if s ≤ 0 then 10 else s)))]
      ∧ (-(2 ^ 63) ≤ ((if p ≤ 0 then 1 else p) - 1) * (if s ≤ 0 then 10 else s) →
          ((if p ≤ 0 then 1 else p) - 1) * (if s ≤ 0 then 10 else s) < 2 ^ 63 →
          toInt64 (((if p ≤ 0 then 1 else p) - 1) * (if s ≤ 0 then 10 else s))
            = ((if p ≤ 0 then 1 else p) - 1) * (if s ≤ 0 then 10 else s))
      ∧ userUC.List repo search 0 0 st = userUC.List repo search 1 10 st
      ∧ userUC.List repo search 0 0 st = repo.ListCustomers search 10 0 st :=
  ⟨userUC_List_eq repo search p s st, userUC_List_log repo search p s st log,
    fun hlo hhi => toInt64_of_fits _ hlo hhi, rfl, rfl⟩

/-- C16 as stated fails: for `page=9223372036854775807&size=100` the handler
composed with usecase `List` hands the gateway limit 100 and offset -200, which
is not `(max(page, 1) - 1) * 100`. -/
theorem C16_offset_wraps_through_ListUsers :
    (Handler.ListUsers
        ⟨NewUserUC (recordingRepo (stubRepo (none, 0, none))), exampleValidate⟩
        "9223372036854775807" "100" "" ((), [])).2.2
        = [RepoCall.ListCustomers "" 100 (-200)]
      ∧ (-200 : Int) ≠ (max 9223372036854775807 1 - 1) * 100 := by
  decide

/-- C16 (amended): for all page and size query values, `ListUsers` composed with
usecase `List` makes one gateway call, with a limit in [1,100] and with the
offset the 64-bit `int` value of `(p - 1) * limit`, `p` being the value `Atoi`
returns for the page parameter when that is at least 1, else 1.  For a numeric
page below `2^63` whose product `(max(page,1) - 1) * limit` is below `2^63`
the offset is that product. -/
theorem C16_ListUsers_limit_and_offset {σ : Type} (repo : UserRepository σ) (v : Validate)
    (pageParam sizeParam searchParam : String) (st : σ) (log : List RepoCall) :
    ∃ limit offset : Int,
      (Handler.ListUsers ⟨NewUserUC (recordingRepo repo), v⟩ pageParam sizeParam searchParam
          (st, log)).2.2 = log ++ [RepoCall.ListCustomers searchParam limit offset]
        ∧ 1 ≤ limit ∧ limit ≤ 100
        ∧ offset = toInt64
            (((if (Atoi pageParam).1 < 1 then 1 else (Atoi pageParam).1) - 1) * limit)
        ∧ (∀ page, decimalValue pageParam = some page → page < 2 ^ 63 →
            (max page 1 - 1) * limit < 2 ^ 63 → offset = (max page 1 - 1) * limit) := by
  generalize hP : (if (Atoi pageParam).1 < 1 then 1 else (Atoi pageParam).1) = P
  generalize hS : (if (Atoi sizeParam).1 < 1 ∨ (Atoi sizeParam).1 > 100 then 10
    else (Atoi sizeParam).1) = S
  have hS1 : 1 ≤ S ∧ S ≤ 100 := by
    rw [← hS]
    split_ifs with hc
    · omega
    · omega
  have hP1 : 1 ≤ P := by
    rw [← hP]
    split_ifs <;> omega
  have hstate := (ListUsers_state_status ⟨NewUserUC (recordingRepo repo), v⟩ pageParam
    sizeParam searchParam (st, log)).1
  rw [hP, hS] at hstate
  have hlog := userUC_List_log repo searchParam P S st log
  have hSn : (if S ≤ 0 then 10 else S) = S := by
    rw [if_neg (by omega)]
  have hPn : (if P ≤ 0 then 1 else P) = P := by
    rw [if_neg (by omega)]
  rw [hSn, hPn] at hlog
  refine ⟨S, toInt64 ((P - 1) * S), ?_, hS1.1, hS1.2, rfl, ?_⟩
  · rw [hstate]
    exact hlog
  · intro page hpage hlt hfit
    have hA := Atoi_of_decimalValue pageParam page hpage
    rw [if_neg (by omega)] at hA
    have hPmax : P = max page 1 := by
      rw [← hP]
      by_cases hunder : page < -(2 ^ 63)
      · rw [if_pos hunder] at hA
        rw [hA]
        simp only
        rw [if_pos (by omega), max_eq_right (by omega)]
      · rw [if_neg hunder] at hA
        rw [hA]
        simp only
        by_cases h1 : page < 1
        · rw [if_pos h1, max_eq_right (by omega)]
        · rw [if_neg h1, max_eq_left (by omega)]
    rw [← hPmax] at hfit ⊢
    apply toInt64_of_fits _ _ hfit
    have hnn : 0 ≤ (P - 1) * S := Int.mul_nonneg (by omega) (by omega)
    omega

/-- C17 as stated fails.  The page value "9223372036854775808" is numeric and at
least 1, yet `List` is called with page 9223372036854775807, not with the given
page. -/
theorem C17_page_is_not_always_given_or_1 :
    decimalValue "9223372036854775808" = some 9223372036854775808
      ∧ (Handler.ListUsers ⟨recording (stubListUC (none, 0, none) (none, none)),
          exampleValidate⟩ "9223372036854775808" "" "" ((), [])).2.2
        = [Call.List "" 9223372036854775807 10]
      ∧ (9223372036854775807 : Int) ≠ 9223372036854775808
      ∧ (9223372036854775807 : Int) ≠ 1 := by
  decide

/-- C17 (amended): for every query string `ListUsers` calls `List` exactly once
and answers 200 or 500, never a client error.  The page it passes is 1 when
the page parameter is absent, is a numeral below 1, or is a value on which
`Atoi` reports a syntax error; it is the given page for a numeral in
`[1, 2^63 - 1]`; it is `2^63 - 1` for a numeral of `2^63` or more.  Nothing is
said of the page passed for a value that is not a numeral and on which `Atoi`
reports a range error.  The size it passes is the given size for a numeral in
`[1, 100]` and 10 for every other value, absent or not numeric included. -/
theorem C17_ListUsers_page_and_size_defaults {σ : Type} (uc : UserUsecase σ) (v : Validate)
    (pageParam sizeParam searchParam : String) (s : σ) (log : List Call) :
    ∃ page size : Int,
      (Handler.ListUsers ⟨recording uc, v⟩ pageParam sizeParam searchParam (s, log)).2.2
          = log ++ [Call.List searchParam page size]
        ∧ ((Handler.ListUsers ⟨recording uc, v⟩ pageParam sizeParam searchParam
              (s, log)).1.status = 200
            ∨ (Handler.ListUsers ⟨recording uc, v⟩ pageParam sizeParam searchParam
              (s, log)).1.status = 500)
        ∧ (pageParam = "" → page = 1)
        ∧ ((Atoi pageParam).2 = some NumError.ErrSyntax → page = 1)
        ∧ (∀ x, decimalValue pageParam = some x →
            (x < 1 → page = 1) ∧ (1 ≤ x → x < 2 ^ 63 → page = x)
              ∧ (2 ^ 63 ≤ x → page = 2 ^ 63 - 1))
        ∧ (∀ x, decimalValue sizeParam = some x → 1 ≤ x → x ≤ 100 → size = x)
        ∧ ((∀ x, decimalValue sizeParam = some x → x < 1 ∨ 100 < x) → size = 10) := by
  have hss := ListUsers_state_status ⟨recording uc, v⟩ pageParam sizeParam searchParam (s, log)
  refine ⟨if (Atoi pageParam).1 < 1 then 1 else (Atoi pageParam).1,
    if (Atoi sizeParam).1 < 1 ∨ (Atoi sizeParam).1 > 100 then 10 else (Atoi sizeParam).1,
    ?_, hss.2, ?_, ?_, ?_, ?_, ?_⟩
  · rw [hss.1]
    rfl
  · intro hempty
    subst hempty
    rw [Atoi_empty]
    rfl
  · intro hsyn
    rcases Atoi_error_value pageParam (by rw [hsyn]; simp) with ⟨_, h0⟩ | ⟨hr, _⟩
    · rw [h0]
      rfl
    · rw [hsyn] at hr
      cases hr
  · intro x hx
    have hA := Atoi_of_decimalValue pageParam x hx
    refine ⟨fun hlt => ?_, fun h1 hlt => ?_, fun hbig => ?_⟩
    · rw [if_neg (by omega)] at hA
      by_cases hunder : x < -(2 ^ 63)
      · rw [if_pos hunder] at hA
        rw [hA]
        simp
      · rw [if_neg hunder] at hA
        rw [hA]
        simp only
        rw [if_pos hlt]
    · rw [if_neg (by omega), if_neg (by omega)] at hA
      rw [hA]
      simp only
      rw [if_neg (by omega)]
    · rw [if_pos hbig] at hA
      rw [hA]
      simp
  · intro x hx h1 h100
    have hA := Atoi_of_decimalValue sizeParam x hx
    rw [if_neg (by omega), if_neg (by omega)] at hA
    rw [hA]
    simp only
    rw [if_neg (by omega)]
  · intro hall
    cases hd : decimalValue sizeParam with
    | none =>
      have herr : (Atoi sizeParam).2 ≠ none := by
        intro hok
        obtain ⟨w, hw, _⟩ := (Atoi_err_eq_none_iff sizeParam).1 hok
        rw [hd] at hw
        cases hw
      rcases Atoi_error_value sizeParam herr with ⟨_, h0⟩ | ⟨_, hmax | hmin⟩
      · rw [h0]
        simp
      · rw [hmax]
        simp
      · rw [hmin]
        simp
    | some x =>
      have hA := Atoi_of_decimalValue sizeParam x hd
      have hx := hall x hd
      by_cases hbig : 2 ^ 63 ≤ x
      · rw [if_pos hbig] at hA
        rw [hA]
        simp
      · rw [if_neg hbig] at hA
        by_cases hunder : x < -(2 ^ 63)
        · rw [if_pos hunder] at hA
          rw [hA]
          simp
        · rw [if_neg hunder] at hA
          rw [hA]
          simp only
          rw [if_pos (by omega)]

/-! ## Listing: the body written -/

theorem buildListItems_some (l : List Customer) (acc : List CustomerListItem) :
    Handler.buildListItems l (some acc)
      = some (acc ++ l.map (fun c =>
          ⟨c.ID, TrimSpace c.Name, formatDate c.Dob, c.NationalityID, c.PhoneNum, c.Email⟩)) := by
  induction l generalizing acc with
  | nil => simp [Handler.buildListItems]
  | cons c cs ih =>
    simp only [Handler.buildListItems, Slice.append, Slice.toList_some]
    rw [ih]
    simp

theorem digitChar_isDigit : ∀ k, k < 10 → isDigit (digitChar k) = true ∧ digitVal (digitChar k) = k := by
  decide

/-- `Format("2006-01-02")` of a date with a four-digit year and a day that
exists parses back, with the same layout, to that date. -/
theorem parseDate_formatDate (t : Time) (hy0 : 0 ≤ t.year) (hy1 : t.year ≤ 9999)
    (hm0 : 1 ≤ t.month) (hm1 : t.month ≤ 12) (hd0 : 1 ≤ t.day)
    (hd1 : t.day ≤ daysIn t.month t.year) :
    parseDate (formatDate t) = some (Time.ofDate t.year t.month t.day) := by
  obtain ⟨y, hy⟩ : ∃ y : Nat, t.year = (y : Int) := ⟨t.year.toNat, by omega⟩
  have hylt : y < 10000 := by omega
  have hdle : t.day ≤ 31 := by
    have : daysIn t.month t.year ≤ 31 := by
      unfold daysIn
      split_ifs
      · omega
      · split <;> omega
    omega
  have hfmt : formatDateChars t
      = [digitChar (y / 1000), digitChar (y / 100 % 10), digitChar (y / 10 % 10),
          digitChar (y % 10), '-', digitChar (t.month / 10), digitChar (t.month % 10), '-',
          digitChar (t.day / 10), digitChar (t.day % 10)] := by
    have h42 : ¬ ((4 : Nat) = 2 ∧ y < 100) := by omega
    have hmlt : t.month < 100 := by omega
    have hdlt : t.day < 100 := by omega
    have hneg : ¬ ((y : Int) < 0) := by omega
    have hnegm : ¬ ((t.month : Int) < 0) := by omega
    have hnegd : ¬ ((t.day : Int) < 0) := by omega
    simp [formatDateChars, appendInt, hy, hylt, h42, hmlt, hdlt, hneg, hnegm, hnegd]
  have d1 := digitChar_isDigit (y / 1000) (by omega)
  have d2 := digitChar_isDigit (y / 100 % 10) (by omega)
  have d3 := digitChar_isDigit (y / 10 % 10) (by omega)
  have d4 := digitChar_isDigit (y % 10) (by omega)
  have d5 := digitChar_isDigit (t.month / 10) (by omega)
  have d6 := digitChar_isDigit (t.month % 10) (by omega)
  have d7 := digitChar_isDigit (t.day / 10) (by omega)
  have d8 := digitChar_isDigit (t.day % 10) (by omega)
  have hyv : y / 1000 * 1000 + y / 100 % 10 * 100 + y / 10 % 10 * 10 + y % 10 = y := by omega
  have hmv : t.month / 10 * 10 + t.month % 10 = t.month := by omega
  have hdv : t.day / 10 * 10 + t.day % 10 = t.day := by omega
  have hmr : ¬ (t.month = 0 ∨ 12 < t.month) := by omega
  have hdr : ¬ (t.day < 1 ∨ t.day > daysIn t.month (y : Int)) := by
    rw [← hy]
    omega
  unfold parseDate formatDate
  simp only [hfmt, parseDateChars, getYear4, getnum2, skipDash, d1.1, d2.1, d3.1, d4.1, d5.1,
    d6.1, d7.1, d8.1, d1.2, d2.2, d3.2, d4.2, d5.2, d6.2, d7.2, d8.2, Bool.and_self, if_true,
    hyv, hmv, hdv, hmr, hdr, if_false, ne_eq, not_true_eq_false, hy]

/-- `strings.TrimSpace` removes a run of white space at each end and nothing
else: what remains neither starts nor ends with white space. -/
theorem TrimSpace_spec (s : String) :
    ∃ pre post : List Char,
      s.data = pre ++ (TrimSpace s).data ++ post
        ∧ (∀ c ∈ pre, isSpace c = true) ∧ (∀ c ∈ post, isSpace c = true)
        ∧ (∀ c, (TrimSpace s).data.head? = some c → isSpace c = false)
        ∧ (∀ c, (TrimSpace s).data.getLast? = some c → isSpace c = false) := by
  have hdata : (TrimSpace s).data
      = ((s.data.dropWhile isSpace).reverse.dropWhile isSpace).reverse := rfl
  have hsplit : s.data.dropWhile isSpace
      = ((s.data.dropWhile isSpace).reverse.dropWhile isSpace).reverse
        ++ ((s.data.dropWhile isSpace).reverse.takeWhile isSpace).reverse := by
    rw [← List.reverse_append, List.takeWhile_append_dropWhile, List.reverse_reverse]
  refine ⟨s.data.takeWhile isSpace,
    ((s.data.dropWhile isSpace).reverse.takeWhile isSpace).reverse, ?_, ?_, ?_, ?_, ?_⟩
  · rw [hdata, List.append_assoc, ← hsplit, List.takeWhile_append_dropWhile]
  · intro c hc
    exact List.mem_takeWhile_imp hc
  · intro c hc
    rw [List.mem_reverse] at hc
    exact List.mem_takeWhile_imp hc
  · intro c hc
    rw [hdata] at hc
    have hne : ((s.data.dropWhile isSpace).reverse.dropWhile isSpace).reverse ≠ [] := by
      intro hnil
      rw [hnil] at hc
      cases hc
    have hhead : (s.data.dropWhile isSpace).head? = some c := by
      rw [hsplit, List.head?_append_of_ne_nil _ hne]
      exact hc
    have hnot := List.head?_dropWhile_not isSpace s.data
    rw [hhead] at hnot
    exact hnot
  · intro c hc
    rw [hdata, List.getLast?_reverse] at hc
    have hnot := List.head?_dropWhile_not isSpace (s.data.dropWhile isSpace).reverse
    rw [hc] at hnot
    exact hnot

/-- What `ListUsers` writes when its call of `List` returns no error. -/
theorem ListUsers_ok {σ : Type} (h : Handler σ) (pageParam sizeParam searchParam : String)
    (s : σ) (rows : Slice Customer) (total : Int)
    (hlist : (h.UC.List searchParam
        (if (Atoi pageParam).1 < 1 then 1 else (Atoi pageParam).1)
        (if (Atoi sizeParam).1 < 1 ∨ (Atoi sizeParam).1 > 100 then 10
          else (Atoi sizeParam).1) s).1 = (rows, total, none)) :
    (h.ListUsers pageParam sizeParam searchParam s).1
      = ⟨200, Body.customerListResponse
          ⟨some ((Slice.toList rows).map (fun c =>
            ⟨c.ID, TrimSpace c.Name, formatDate c.Dob, c.NationalityID, c.PhoneNum,
              c.Email⟩)), total⟩⟩ := by
  unfold Handler.ListUsers
  simp only
  rcases hres : h.UC.List searchParam
      (if (Atoi pageParam).1 < 1 then 1 else (Atoi pageParam).1)
      (if (Atoi sizeParam).1 < 1 ∨ (Atoi sizeParam).1 > 100 then 10
        else (Atoi sizeParam).1) s with ⟨⟨rows1, total1, err1⟩, s1⟩
  rw [hres] at hlist
  simp only [Prod.mk.injEq] at hlist
  obtain ⟨rfl, rfl, rfl⟩ := hlist
  simp only [writeJSON, StatusOK, buildListItems_some, List.nil_append]

/-- C18 as stated fails for a row whose date of birth has a year beyond 9999 or
before 0: `Format("2006-01-02")` writes such a year with more than four digits
or with a sign.  A row born on 2 January 12345 is listed with the date
"12345-01-02", eleven characters that do not read as YYYY-MM-DD, and 15 March
of the year -44 is written "-0044-03-15". -/
theorem C18_year_outside_0_9999_is_not_YYYY_MM_DD :
    (Handler.ListUsers
        ⟨stubListUC (some [⟨36, 1, "ALFA", Time.ofDate 12345 1 2, "0811000001",
          "alfa1@example.com", none⟩], 1, none) (none, none), exampleValidate⟩ "1" "2" "" ()).1
      = ⟨200, Body.customerListResponse
          ⟨some [⟨36, "ALFA", "12345-01-02", 1, "0811000001", "alfa1@example.com"⟩], 1⟩⟩
    ∧ "12345-01-02".length = 11
    ∧ parseDate "12345-01-02" = none
    ∧ formatDate (Time.ofDate (-44) 3 15) = "-0044-03-15"
    ∧ parseDate "-0044-03-15" = none := by
  decide

/-- C18 (amended): when the operations layer's `List` returns rows and a total
without error, `ListUsers` answers 200 with a data list that has exactly one
item per row, in the same order, each carrying the row's id, nationality,
phone and email unchanged, the row's name after `strings.TrimSpace` and the
row's date of birth after `Format("2006-01-02")`; the body's total is the
returned total, whatever the number of rows.  `TrimSpace` removes white space
at both ends only, and the rendering of a date whose year is in 0..9999 reads
back, as YYYY-MM-DD, to that date. -/
theorem C18_ListUsers_body_mirrors_rows {σ : Type} (h : Handler σ)
    (pageParam sizeParam searchParam : String) (s : σ) (rows : Slice Customer) (total : Int)
    (hlist : (h.UC.List searchParam
        (if (Atoi pageParam).1 < 1 then 1 else (Atoi pageParam).1)
        (if (Atoi sizeParam).1 < 1 ∨ (Atoi sizeParam).1 > 100 then 10
          else (Atoi sizeParam).1) s).1 = (rows, total, none)) :
    (∃ items : List CustomerListItem,
      (h.ListUsers pageParam sizeParam searchParam s).1
          = ⟨200, Body.customerListResponse ⟨some items, total⟩⟩
        ∧ items.length = (Slice.toList rows).length
        ∧ items.map (fun i => (i.CstID, i.NationalityID, i.CstPhoneNum, i.CstEmail))
            = (Slice.toList rows).map (fun c => (c.ID, c.NationalityID, c.PhoneNum, c.Email))
        ∧ items.map (fun i => i.CstName) = (Slice.toList rows).map (fun c => TrimSpace c.Name)
        ∧ items.map (fun i => i.CstDob) = (Slice.toList rows).map (fun c => formatDate c.Dob))
    ∧ (∀ name : String, ∃ pre post : List Char,
        name.data = pre ++ (TrimSpace name).data ++ post
          ∧ (∀ c ∈ pre, isSpace c = true) ∧ (∀ c ∈ post, isSpace c = true)
          ∧ (∀ c, (TrimSpace name).data.head? = some c → isSpace c = false)
          ∧ (∀ c, (TrimSpace name).data.getLast? = some c → isSpace c = false))
    ∧ (∀ t : Time, 0 ≤ t.year → t.year ≤ 9999 → 1 ≤ t.month → t.month ≤ 12 → 1 ≤ t.day →
        t.day ≤ daysIn t.month t.year →
        parseDate (formatDate t) = some (Time.ofDate t.year t.month t.day)) := by
  refine ⟨⟨_, ListUsers_ok h pageParam sizeParam searchParam s rows total hlist, ?_, ?_, ?_, ?_⟩,
    TrimSpace_spec, parseDate_formatDate⟩
  · simp
  · simp [List.map_map, Function.comp_def]
  · simp [List.map_map, Function.comp_def]
  · simp [List.map_map, Function.comp_def]

/-- Witness of C18: the two rows of the handler test, total 2. -/
theorem C18_ListUsers_body_mirrors_rows_witness :
    (Handler.ListUsers ⟨stubListUC (some exampleRows, 2, none) (none, none), exampleValidate⟩
        "1" "2" "AL" ()).1
      = ⟨200, Body.customerListResponse
          ⟨some [⟨36, "ALFA", "1992-05-10", 1, "0811000001", "alfa1@example.com"⟩,
                 ⟨37, "BRAVO", "1988-11-20", 1, "0811000002", "bravo2@example.com"⟩], 2⟩⟩ := by
  obtain ⟨items, hresp, _, _, _, _⟩ :=
    (C18_ListUsers_body_mirrors_rows
      ⟨stubListUC (some exampleRows, 2, none) (none, none), exampleValidate⟩
      "1" "2" "AL" () (some exampleRows) 2 rfl).1
  rw [hresp]
  have hitems : (Handler.ListUsers
      ⟨stubListUC (some exampleRows, 2, none) (none, none), exampleValidate⟩
      "1" "2" "AL" ()).1.body
      = Body.customerListResponse
          ⟨some [⟨36, "ALFA", "1992-05-10", 1, "0811000001", "alfa1@example.com"⟩,
                 ⟨37, "BRAVO", "1988-11-20", 1, "0811000002", "bravo2@example.com"⟩], 2⟩ := by
    decide
  rw [hresp] at hitems
  simp only at hitems
  rw [hitems]

/-- What `ListNationality` writes when `ListNationality` of the operations layer
returns no error. -/
theorem ListNationality_ok {σ : Type} (h : Handler σ) (s : σ) (n : Slice Nationality)
    (hnat : (h.UC.ListNationality s).1 = (n, none)) :
    (h.ListNationality s).1 = ⟨200, Body.nationalities (some (Slice.toList n))⟩ := by
  unfold Handler.ListNationality
  rcases hres : h.UC.ListNationality s with ⟨⟨n1, err1⟩, s1⟩
  rw [hres] at hnat
  simp only [Prod.mk.injEq] at hnat
  obtain ⟨rfl, rfl⟩ := hnat
  cases n1 <;> rfl

/-- C19: when the operations layer returns no rows without error, as a nil or as
an empty slice, `ListUsers` answers 200 and the body encodes as
`{"data": [], "total": total}`, and `ListNationality` answers 200 and the body
encodes as `[]`: the list is neither `null` nor left out. -/
theorem C19_no_rows_render_as_empty_list {σ : Type} (h : Handler σ)
    (pageParam sizeParam searchParam : String) (s : σ) :
    (∀ (rows : Slice Customer) (total : Int), Slice.toList rows = [] →
      (h.UC.List searchParam
        (if (Atoi pageParam).1 < 1 then 1 else (Atoi pageParam).1)
        (if (Atoi sizeParam).1 < 1 ∨ (Atoi sizeParam).1 > 100 then 10
          else (Atoi sizeParam).1) s).1 = (rows, total, none) →
      (h.ListUsers pageParam sizeParam searchParam s).1.status = 200
        ∧ (h.ListUsers pageParam sizeParam searchParam s).1.body.marshal
          = some (JSON.object [("data", JSON.array []), ("total", JSON.number total)]))
    ∧ (∀ n : Slice Nationality, Slice.toList n = [] →
      (h.UC.ListNationality s).1 = (n, none) →
      (h.ListNationality s).1.status = 200
        ∧ (h.ListNationality s).1.body.marshal = some (JSON.array [])) := by
  constructor
  · intro rows total hrows hlist
    rw [ListUsers_ok h pageParam sizeParam searchParam s rows total hlist, hrows]
    exact ⟨rfl, rfl⟩
  · intro n hn hnat
    rw [ListNationality_ok h s n hnat, hn]
    exact ⟨rfl, rfl⟩

/-- Witness of C19: a nil slice from `List` and from `ListNationality`, as in the
handler test `ok_nil_slice_returns_empty_array`; an empty slice gives the same. -/
theorem C19_no_rows_render_as_empty_list_witness :
    ((Handler.ListUsers ⟨stubListUC (none, 0, none) (none, none), exampleValidate⟩
        "0" "0" "" ()).1.body.marshal
      = some (JSON.object [("data", JSON.array []), ("total", JSON.number 0)]))
    ∧ ((Handler.ListNationality ⟨stubListUC (none, 0, none) (none, none), exampleValidate⟩
        ()).1.body.marshal = some (JSON.array []))
    ∧ ((Handler.ListNationality ⟨stubListUC (none, 0, none) (some [], none), exampleValidate⟩
        ()).1.body.marshal = some (JSON.array [])) :=
  ⟨((C19_no_rows_render_as_empty_list
      ⟨stubListUC (none, 0, none) (none, none), exampleValidate⟩ "0" "0" "" ()).1
      none 0 rfl rfl).2,
   ((C19_no_rows_render_as_empty_list
      ⟨stubListUC (none, 0, none) (none, none), exampleValidate⟩ "0" "0" "" ()).2
      none rfl rfl).2,
   ((C19_no_rows_render_as_empty_list
      ⟨stubListUC (none, 0, none) (some [], none), exampleValidate⟩ "0" "0" "" ()).2
      (some []) rfl rfl).2⟩

/-! ## The persistence gateway: delete -/

theorem DeleteCustomer_of_ok (r : PgUserRepo) (id : Int) (db : DB) (h0 : r.fault 0 = none) :
    r.DeleteCustomer id db
      = (if (db.deleteCustomer id).1 = 0 then some Error.ErrNotFound else none,
          (db.deleteCustomer id).2) := by
  unfold PgUserRepo.DeleteCustomer
  simp only [h0]
  split_ifs <;> rfl

/-- C20: `DeleteCustomer` returns `ErrNotFound` exactly when the delete statement
succeeds and affects no row, nil exactly when it succeeds and affects at least
one row, and the storage error when the statement fails.  Hence, the statement
succeeding, deleting an id that has no customer row returns `ErrNotFound`, and
deleting the same id a second time returns `ErrNotFound`. -/
theorem C20_DeleteCustomer_outcomes (r : PgUserRepo) (id : Int) (db : DB) :
    ((r.DeleteCustomer id db).1 = some Error.ErrNotFound
        ↔ (r.fault 0 = none ∧ (db.deleteCustomer id).1 = 0))
      ∧ ((r.DeleteCustomer id db).1 = none
        ↔ (r.fault 0 = none ∧ 1 ≤ (db.deleteCustomer id).1))
      ∧ (∀ e, r.fault 0 = some e → r.DeleteCustomer id db = (some (Error.storage e), db))
      ∧ (r.fault 0 = none → (∀ row ∈ db.customer, row.cst_id ≠ id) →
          (r.DeleteCustomer id db).1 = some Error.ErrNotFound)
      ∧ (r.fault 0 = none →
          (r.DeleteCustomer id (r.DeleteCustomer id db).2).1 = some Error.ErrNotFound) := by
  have hfail : ∀ e, r.fault 0 = some e →
      r.DeleteCustomer id db = (some (Error.storage e), db) := by
    intro e he
    simp [PgUserRepo.DeleteCustomer, he]
  have hnone : ∀ d : DB, (∀ row ∈ d.customer, row.cst_id ≠ id) → (d.deleteCustomer id).1 = 0 := by
    intro d hd
    simp only [DB.deleteCustomer, List.length_eq_zero, List.filter_eq_nil_iff,
      decide_eq_true_eq]
    exact hd
  refine ⟨?_, ?_, hfail, ?_, ?_⟩
  · cases h0 : r.fault 0 with
    | some e =>
      rw [hfail e h0]
      simp
    | none =>
      rw [DeleteCustomer_of_ok r id db h0]
      by_cases hn : (db.deleteCustomer id).1 = 0
      · simp [hn]
      · simp [hn]
  · cases h0 : r.fault 0 with
    | some e =>
      rw [hfail e h0]
      simp
    | none =>
      rw [DeleteCustomer_of_ok r id db h0]
      by_cases hn : (db.deleteCustomer id).1 = 0
      · simp [hn]
      · simp only [hn, if_false, true_and, true_iff]
        omega
  · intro h0 hno
    rw [DeleteCustomer_of_ok r id db h0, hnone db hno]
    rfl
  · intro h0
    rw [DeleteCustomer_of_ok r id _ h0]
    have hgone : ∀ row ∈ (r.DeleteCustomer id db).2.customer, row.cst_id ≠ id := by
      rw [DeleteCustomer_of_ok r id db h0]
      intro row hrow
      simp only [DB.deleteCustomer, List.mem_filter, decide_eq_true_eq] at hrow
      exact hrow.2
    rw [hnone _ hgone]
    rfl

/-- Witness of C20: deleting customer 1 of `exampleStore` returns nil, deleting it
again returns `ErrNotFound`, deleting the absent id 999 returns `ErrNotFound`,
and a failing statement returns the storage error. -/
theorem C20_DeleteCustomer_outcomes_witness :
    (PgUserRepo.healthy.DeleteCustomer 1 exampleStore).1 = none
      ∧ (PgUserRepo.healthy.DeleteCustomer 1
          (PgUserRepo.healthy.DeleteCustomer 1 exampleStore).2).1 = some Error.ErrNotFound
      ∧ (PgUserRepo.healthy.DeleteCustomer 999 exampleStore).1 = some Error.ErrNotFound
      ∧ (PgUserRepo.failingAt 0 (StorageErr.other "db down")).DeleteCustomer 1 exampleStore
          = (some (Error.storage (StorageErr.other "db down")), exampleStore) :=
  ⟨(C20_DeleteCustomer_outcomes PgUserRepo.healthy 1 exampleStore).2.1.2 ⟨rfl, by decide⟩,
   (C20_DeleteCustomer_outcomes PgUserRepo.healthy 1 exampleStore).2.2.2.2 rfl,
   (C20_DeleteCustomer_outcomes PgUserRepo.healthy 999 exampleStore).2.2.2.1 rfl (by decide),
   (C20_DeleteCustomer_outcomes (PgUserRepo.failingAt 0 (StorageErr.other "db down")) 1
      exampleStore).2.2.1 (StorageErr.other "db down") rfl⟩

/-! ## The calls the id-taking and body-taking handlers make -/

theorem GetUser_log {σ : Type} (uc : UserUsecase σ) (v : Validate) (idVar : String)
    (s : σ) (log : List Call) (hid : (Atoi idVar).1 ≠ 0) :
    (Handler.GetUser ⟨recording uc, v⟩ idVar (s, log)).2.2
        = log ++ [Call.Get (toInt32 (Atoi idVar).1)]
      ∧ (Handler.GetUser ⟨recording uc, v⟩ idVar (s, log)).1.status ≠ 400 := by
  unfold Handler.GetUser
  simp only [if_neg hid, recording]
  rcases hget : (uc.Get (toInt32 (Atoi idVar).1) s).1 with ⟨c, err⟩
  cases err with
  | some e =>
    by_cases hnf : e.Is Error.ErrNotFound = true
    · simp [hnf, writeErr, writeJSON, StatusNotFound]
    · simp [hnf, writeErr, writeJSON, StatusInternalServerError]
  | none =>
    cases c with
    | none => simp [writeErr, writeJSON, StatusNotFound]
    | some c => simp [writeJSON, StatusOK]

theorem CreateUser_log {σ : Type} (uc : UserUsecase σ) (v : Validate)
    (req : CreateCustomerRequest) (s : σ) (log : List Call)
    (hval : v.Struct req = false) (hdob : parseDate req.CstDob ≠ none)
    (hcheck : Handler.checkFamilyDob (Slice.toList req.Family) 0 = none) :
    (Handler.CreateUser ⟨recording uc, v⟩ (some req) (s, log)).2.2
        = log ++ [Call.Create
            (Handler.newCustomer req (Handler.buildFamily (Slice.toList req.Family) none))] := by
  simp only [Handler.CreateUser, hval, hdob, hcheck, Bool.false_eq_true, if_false, recording]
  rcases hc : (uc.Create
      (Handler.newCustomer req (Handler.buildFamily (Slice.toList req.Family) none)) s).1
    with ⟨id, err⟩
  cases err with
  | none => simp [writeJSON]
  | some e =>
    by_cases hcf : e.Is Error.ErrConflict = true
    · simp [hcf, writeErr]
    · simp [hcf, writeErr]

theorem UpdateUser_log {σ : Type} (uc : UserUsecase σ) (v : Validate) (idVar : String)
    (req : UpdateCustomerRequest) (s : σ) (log : List Call)
    (hid : (Atoi idVar).1 ≠ 0)
    (hval : v.Struct req = false) (hdob : parseDate req.CstDob ≠ none)
    (hcheck : Handler.checkFamilyDob (Slice.toList req.Family) 0 = none) :
    (Handler.UpdateUser ⟨recording uc, v⟩ idVar (some req) (s, log)).2.2
        = log ++ [Call.Update (toInt32 (Atoi idVar).1)
            (Handler.newCustomer req (Handler.buildFamily (Slice.toList req.Family) none))]
      ∧ (Handler.UpdateUser ⟨recording uc, v⟩ idVar (some req) (s, log)).1.status ≠ 400 := by
  have hloop := checkAndBuildFamily_eq (Slice.toList req.Family) 0 none
  rw [hcheck] at hloop
  simp only [Handler.UpdateUser, if_neg hid, hval, hdob, hloop, Bool.false_eq_true, if_false,
    recording]
  cases hu : (uc.Update (toInt32 (Atoi idVar).1)
      (Handler.newCustomer req (Handler.buildFamily (Slice.toList req.Family) none)) s).1 with
  | none => simp [writeJSON, StatusOK]
  | some e =>
    by_cases hnf : e.Is Error.ErrNotFound = true
    · simp [hnf, writeErr, writeJSON, StatusNotFound]
    · simp [hnf, writeErr, writeJSON, StatusInternalServerError]

/-- The checks `CreateUser` and `UpdateUser` make on a body before their call:
a body that fails one of them gets the same response from both, with no call
made. -/
theorem CreateUser_UpdateUser_reject_alike {σ : Type} (h : Handler σ) (idVar : String)
    (body : Option CreateCustomerRequest) (s : σ) (hid : (Atoi idVar).1 ≠ 0)
    (hbad : ∀ req, body = some req → h.Val.Struct req = false → parseDate req.CstDob ≠ none →
      Handler.checkFamilyDob (Slice.toList req.Family) 0 ≠ none) :
    ∃ resp : Response, h.CreateUser body s = (resp, s) ∧ h.UpdateUser idVar body s = (resp, s)
      ∧ (resp.status = 400 ∨ resp.status = 422) := by
  cases body with
  | none =>
    exact ⟨writeErr StatusBadRequest MsgInvalidJSON none, rfl,
      by simp only [Handler.UpdateUser, if_neg hid], Or.inl rfl⟩
  | some req =>
    by_cases hval : h.Val.Struct req = true
    · exact ⟨writeErr StatusUnprocessableEntity MsgValidation none,
        by simp only [Handler.CreateUser, hval, if_true],
        by simp only [Handler.UpdateUser, if_neg hid, hval, if_true], Or.inr rfl⟩
    · have hv : h.Val.Struct req = false := by simpa using hval
      by_cases hdob : parseDate req.CstDob = none
      · exact ⟨writeErr StatusUnprocessableEntity "invalid cst_dob"
            (some [("cst_dob", "YYYY-MM-DD")]),
          by simp only [Handler.CreateUser, hv, hdob, Bool.false_eq_true, if_true, if_false],
          by simp only [Handler.UpdateUser, if_neg hid, hv, hdob, Bool.false_eq_true, if_true,
            if_false],
          Or.inr rfl⟩
      · cases hcheck : Handler.checkFamilyDob (Slice.toList req.Family) 0 with
        | none => exact absurd hcheck (hbad req rfl hv hdob)
        | some i =>
          have hloop := checkAndBuildFamily_eq (Slice.toList req.Family) 0 none
          rw [hcheck] at hloop
          exact ⟨writeErr StatusUnprocessableEntity "invalid fl_dob"
              (some [("family[" ++ Itoa i ++ "].fl_dob", "YYYY-MM-DD")]),
            by simp only [Handler.CreateUser, hv, hdob, hcheck, Bool.false_eq_true, if_false],
            by simp only [Handler.UpdateUser, if_neg hid, hv, hdob, hloop, Bool.false_eq_true,
              if_false],
            Or.inr rfl⟩

theorem parses_of_checkFamilyDob_none (l : List FamilyRequest) (k : Nat)
    (h : Handler.checkFamilyDob l k = none) :
    ∀ f ∈ l, parseDate f.FlDob = some (mustParse f.FlDob) := by
  induction l generalizing k with
  | nil => intro f hf; cases hf
  | cons a as ih =>
    intro f hf
    simp only [Handler.checkFamilyDob] at h
    cases hp : parseDate a.FlDob with
    | none => rw [hp] at h; cases h
    | some t =>
      rw [hp] at h
      rcases List.mem_cons.1 hf with rfl | hmem
      · simp only [mustParse, hp]
      · exact ih (k + 1) h f hmem

/-- C26: for every request body and every id value the handler lets through,
`CreateUser` and `UpdateUser` either both answer with one and the same 400 or
422 response (status, message, fields map) and make no call, or both make one
call on the operations layer carrying the identical `domain.Customer`: scalar
fields copied from the body, `Dob` the parsed `cst_dob`, the family in list
order with every `fl_dob` parsed.  The one-pass loop of `UpdateUser` computes
what the check loop followed by the build loop of `CreateUser` computes. -/
theorem C26_CreateUser_UpdateUser_validate_alike {σ : Type} (uc : UserUsecase σ)
    (v : Validate) (idVar : String) (body : Option CreateCustomerRequest) (s : σ)
    (log : List Call) (hid : (Atoi idVar).1 ≠ 0) :
    ((∃ resp : Response,
        Handler.CreateUser ⟨recording uc, v⟩ body (s, log) = (resp, (s, log))
          ∧ Handler.UpdateUser ⟨recording uc, v⟩ idVar body (s, log) = (resp, (s, log))
          ∧ (resp.status = 400 ∨ resp.status = 422))
      ∨ (∃ (req : CreateCustomerRequest) (c : Customer), body = some req
          ∧ (Handler.CreateUser ⟨recording uc, v⟩ body (s, log)).2.2 = log ++ [Call.Create c]
          ∧ (Handler.UpdateUser ⟨recording uc, v⟩ idVar body (s, log)).2.2
              = log ++ [Call.Update (toInt32 (Atoi idVar).1) c]
          ∧ c.NationalityID = req.NationalityID ∧ c.Name = req.CstName
          ∧ c.PhoneNum = req.CstPhoneNum ∧ c.Email = req.CstEmail
          ∧ parseDate req.CstDob = some c.Dob
          ∧ Slice.toList c.Family = (Slice.toList req.Family).map
              (fun f => ⟨0, 0, f.FlRelation, f.FlName, mustParse f.FlDob⟩)
          ∧ ∀ f ∈ Slice.toList req.Family, parseDate f.FlDob = some (mustParse f.FlDob)))
    ∧ ∀ l : List FamilyRequest,
        Handler.checkAndBuildFamily l 0 none =
          match Handler.checkFamilyDob l 0 with
          | some j => Except.error j
          | none => Except.ok (Handler.buildFamily l none) := by
  refine ⟨?_, fun l => checkAndBuildFamily_eq l 0 none⟩
  by_cases hgood : ∃ req, body = some req ∧ v.Struct req = false ∧ parseDate req.CstDob ≠ none
      ∧ Handler.checkFamilyDob (Slice.toList req.Family) 0 = none
  · obtain ⟨req, rfl, hval, hdob, hcheck⟩ := hgood
    refine Or.inr ⟨req,
      Handler.newCustomer req (Handler.buildFamily (Slice.toList req.Family) none), rfl,
      CreateUser_log uc v req s log hval hdob hcheck,
      (UpdateUser_log uc v idVar req s log hid hval hdob hcheck).1, rfl, rfl, rfl, rfl, ?_, ?_,
      parses_of_checkFamilyDob_none _ 0 hcheck⟩
    · cases hp : parseDate req.CstDob with
      | none => exact absurd hp hdob
      | some t => simp only [Handler.newCustomer, mustParse, hp]
    · simp only [Handler.newCustomer, buildFamily_toList, Slice.toList_none, List.nil_append]
  · refine Or.inl (CreateUser_UpdateUser_reject_alike ⟨recording uc, v⟩ idVar body (s, log) hid ?_)
    intro req hb hval hdob hcheck
    exact hgood ⟨req, hb, hval, hdob, hcheck⟩

/-- Witness of C26 on the scenario payload and on the payload whose second
family date does not parse, for the id value "7". -/
theorem C26_CreateUser_UpdateUser_validate_alike_witness :
    (Atoi "7").1 ≠ 0
      ∧ Handler.CreateUser ⟨recording (stubUC (none, none) (1, none) none none),
          exampleValidate⟩ (some badFamilyRequest) ((), [])
        = Handler.UpdateUser ⟨recording (stubUC (none, none) (1, none) none none),
          exampleValidate⟩ "7" (some badFamilyRequest) ((), [])
      ∧ (Handler.UpdateUser ⟨recording (stubUC (none, none) (1, none) none none),
          exampleValidate⟩ "7" (some exampleRequest) ((), [])).2.2
        = [Call.Update 7 (Handler.newCustomer exampleRequest
            (some [⟨0, 0, "Spouse", "BETA", Time.ofDate 1993 7 1⟩]))]
      ∧ ((∃ resp : Response,
          Handler.CreateUser ⟨recording (stubUC (none, none) (1, none) none none),
              exampleValidate⟩ (some exampleRequest) ((), []) = (resp, ((), []))
            ∧ Handler.UpdateUser ⟨recording (stubUC (none, none) (1, none) none none),
              exampleValidate⟩ "7" (some exampleRequest) ((), []) = (resp, ((), []))
            ∧ (resp.status = 400 ∨ resp.status = 422))
        ∨ (∃ (req : CreateCustomerRequest) (c : Customer), some exampleRequest = some req
            ∧ (Handler.CreateUser ⟨recording (stubUC (none, none) (1, none) none none),
                exampleValidate⟩ (some exampleRequest) ((), [])).2.2 = [] ++ [Call.Create c]
            ∧ (Handler.UpdateUser ⟨recording (stubUC (none, none) (1, none) none none),
                exampleValidate⟩ "7" (some exampleRequest) ((), [])).2.2
                = [] ++ [Call.Update (toInt32 (Atoi "7").1) c]
            ∧ c.NationalityID = req.NationalityID ∧ c.Name = req.CstName
            ∧ c.PhoneNum = req.CstPhoneNum ∧ c.Email = req.CstEmail
            ∧ parseDate req.CstDob = some c.Dob
            ∧ Slice.toList c.Family = (Slice.toList req.Family).map
                (fun f => ⟨0, 0, f.FlRelation, f.FlName, mustParse f.FlDob⟩)
            ∧ ∀ f ∈ Slice.toList req.Family, parseDate f.FlDob = some (mustParse f.FlDob))) :=
  ⟨by decide, by decide, by decide,
    (C26_CreateUser_UpdateUser_validate_alike (stubUC (none, none) (1, none) none none)
      exampleValidate "7" (some exampleRequest) () [] (by decide)).1⟩

/-! ## Errors of the operations layer that no handler maps specially -/

/-- C22: for each of the six handlers and every error `e` the operations layer
returns to it, other than the kind the handler maps specially (`ErrNotFound`
for `GetUser`, `UpdateUser` and `DeleteUser`, `ErrConflict` for `CreateUser`,
none for `ListUsers` and `ListNationality`), the response is 500 with the
message "internal error" and no fields map.  The response is one fixed value,
the same for every such `e`, and it is written as the object with the members
`error` and `message` only. -/
theorem C22_unmapped_error_is_500_internal_error {σ : Type} (h : Handler σ) (s : σ)
    (e : Error) :
    (∀ (pageParam sizeParam searchParam : String) (rows : Slice Customer) (total : Int),
        (h.UC.List searchParam
          (if (Atoi pageParam).1 < 1 then 1 else (Atoi pageParam).1)
          (if (Atoi sizeParam).1 < 1 ∨ (Atoi sizeParam).1 > 100 then 10
            else (Atoi sizeParam).1) s).1 = (rows, total, some e) →
        (h.ListUsers pageParam sizeParam searchParam s).1
          = ⟨500, Body.apiError ⟨true, "internal error", none⟩⟩)
    ∧ (∀ (idVar : String) (c : Option Customer), (Atoi idVar).1 ≠ 0 →
        (h.UC.Get (toInt32 (Atoi idVar).1) s).1 = (c, some e) →
        e.Is Error.ErrNotFound = false →
        (h.GetUser idVar s).1 = ⟨500, Body.apiError ⟨true, "internal error", none⟩⟩)
    ∧ (∀ (req : CreateCustomerRequest) (id : Int), h.Val.Struct req = false →
        parseDate req.CstDob ≠ none →
        Handler.checkFamilyDob (Slice.toList req.Family) 0 = none →
        (h.UC.Create
          (Handler.newCustomer req (Handler.buildFamily (Slice.toList req.Family) none)) s).1
            = (id, some e) →
        e.Is Error.ErrConflict = false →
        (h.CreateUser (some req) s).1 = ⟨500, Body.apiError ⟨true, "internal error", none⟩⟩)
    ∧ (∀ (idVar : String) (req : UpdateCustomerRequest), (Atoi idVar).1 ≠ 0 →
        h.Val.Struct req = false → parseDate req.CstDob ≠ none →
        Handler.checkFamilyDob (Slice.toList req.Family) 0 = none →
        (h.UC.Update (toInt32 (Atoi idVar).1)
          (Handler.newCustomer req (Handler.buildFamily (Slice.toList req.Family) none)) s).1
            = some e →
        e.Is Error.ErrNotFound = false →
        (h.UpdateUser idVar (some req) s).1
          = ⟨500, Body.apiError ⟨true, "internal error", none⟩⟩)
    ∧ (∀ idVar : String, (Atoi idVar).2 = none → 0 < (Atoi idVar).1 →
        (h.UC.Delete (toInt32 (Atoi idVar).1) s).1 = some e →
        e.Is Error.ErrNotFound = false →
        (h.DeleteUser idVar s).1 = ⟨500, Body.apiError ⟨true, "internal error", none⟩⟩)
    ∧ (∀ n : Slice Nationality, (h.UC.ListNationality s).1 = (n, some e) →
        (h.ListNationality s).1 = ⟨500, Body.apiError ⟨true, "internal error", none⟩⟩)
    ∧ Body.marshal (Body.apiError ⟨true, "internal error", none⟩)
        = some (JSON.object
            [("error", JSON.bool true), ("message", JSON.string "internal error")]) := by
  refine ⟨?_, ?_, ?_, ?_, ?_, ?_, rfl⟩
  · intro pageParam sizeParam searchParam rows total hlist
    unfold Handler.ListUsers
    simp only
    rcases hl : h.UC.List searchParam
        (if (Atoi pageParam).1 < 1 then 1 else (Atoi pageParam).1)
        (if (Atoi sizeParam).1 < 1 ∨ (Atoi sizeParam).1 > 100 then 10
          else (Atoi sizeParam).1) s with ⟨⟨r1, t1, e1⟩, s1⟩
    rw [hl] at hlist
    simp only [Prod.mk.injEq] at hlist
    obtain ⟨-, -, rfl⟩ := hlist
    rfl
  · intro idVar c hid hget hnf
    unfold Handler.GetUser
    simp only [if_neg hid]
    rcases hg : h.UC.Get (toInt32 (Atoi idVar).1) s with ⟨⟨c1, e1⟩, s1⟩
    rw [hg] at hget
    simp only [Prod.mk.injEq] at hget
    obtain ⟨-, rfl⟩ := hget
    simp only [hnf, Bool.false_eq_true, if_false]
    rfl
  · intro req id hval hdob hcheck hcreate hcf
    rcases hc : h.UC.Create
        (Handler.newCustomer req (Handler.buildFamily (Slice.toList req.Family) none)) s
      with ⟨⟨id1, e1⟩, s1⟩
    rw [hc] at hcreate
    simp only [Prod.mk.injEq] at hcreate
    obtain ⟨-, rfl⟩ := hcreate
    simp only [Handler.CreateUser, hval, hdob, hcheck, Bool.false_eq_true, if_false, hc, hcf]
    rfl
  · intro idVar req hid hval hdob hcheck hupdate hnf
    have hloop := checkAndBuildFamily_eq (Slice.toList req.Family) 0 none
    rw [hcheck] at hloop
    rcases hu : h.UC.Update (toInt32 (Atoi idVar).1)
        (Handler.newCustomer req (Handler.buildFamily (Slice.toList req.Family) none)) s
      with ⟨e1, s1⟩
    rw [hu] at hupdate
    simp only at hupdate
    subst hupdate
    simp only [Handler.UpdateUser, if_neg hid, hval, hdob, hloop, Bool.false_eq_true, if_false,
      hu, hnf]
    rfl
  · intro idVar herr hpos hdelete hnf
    unfold Handler.DeleteUser
    rcases ha : Atoi idVar with ⟨id, err⟩
    rw [ha] at herr hpos hdelete
    simp only at herr hpos hdelete
    subst herr
    have hnot : ¬ ((none : Option NumError) ≠ none ∨ id ≤ 0) := by
      intro hor
      rcases hor with hor | hor
      · exact hor rfl
      · omega
    simp only [if_neg hnot]
    rcases hd : h.UC.Delete (toInt32 id) s with ⟨e1, s1⟩
    rw [hd] at hdelete
    simp only at hdelete
    subst hdelete
    simp only [hnf, Bool.false_eq_true, if_false]
    rfl
  · intro n hnat
    unfold Handler.ListNationality
    rcases hl : h.UC.ListNationality s with ⟨⟨n1, e1⟩, s1⟩
    rw [hl] at hnat
    simp only [Prod.mk.injEq] at hnat
    obtain ⟨-, rfl⟩ := hnat
    rfl

/-- Witness of C22: a connection error returned to `GetUser` and a storage error
returned to `DeleteUser`, both for the id value "7", give the same 500
response. -/
theorem C22_unmapped_error_is_500_internal_error_witness :
    (Handler.GetUser
        ⟨stubUC (none, some (Error.other "dial tcp 10.0.0.5:5432: connect: connection refused"))
          (0, none) none none, exampleValidate⟩ "7" ()).1
      = ⟨500, Body.apiError ⟨true, "internal error", none⟩⟩
    ∧ (Handler.DeleteUser
        ⟨stubUC (none, none) (0, none) none (some (Error.storage (StorageErr.PgError "57P01"))),
          exampleValidate⟩ "7" ()).1
      = ⟨500, Body.apiError ⟨true, "internal error", none⟩⟩ :=
  ⟨(C22_unmapped_error_is_500_internal_error
      ⟨stubUC (none, some (Error.other "dial tcp 10.0.0.5:5432: connect: connection refused"))
        (0, none) none none, exampleValidate⟩ ()
      (Error.other "dial tcp 10.0.0.5:5432: connect: connection refused")).2.1 "7" none
      (by decide) rfl rfl,
   (C22_unmapped_error_is_500_internal_error
      ⟨stubUC (none, none) (0, none) none (some (Error.storage (StorageErr.PgError "57P01"))),
        exampleValidate⟩ () (Error.storage (StorageErr.PgError "57P01"))).2.2.2.2.1 "7"
      (by decide) (by decide) rfl rfl⟩

/-! ## Storage failures inside `ListCustomers` -/

theorem scanCustomersLoop_ok (r : PgUserRepo) (rows : List CustomerRow) (k : Nat)
    (out : Slice Customer) (hok : ∀ j, j < rows.length → r.fault (k + j) = none) :
    r.scanCustomersLoop rows k out
      = Except.ok (if rows = [] then out
          else some (Slice.toList out ++ rows.map PgUserRepo.scanCustomer)) := by
  induction rows generalizing k out with
  | nil => rfl
  | cons row rows ih =>
    have h0 : r.fault k = none := by simpa using hok 0 (by simp)
    have hrest : ∀ j, j < rows.length → r.fault (k + 1 + j) = none := by
      intro j hj
      have := hok (j + 1) (by simpa using hj)
      rwa [show k + (j + 1) = k + 1 + j by omega] at this
    simp only [PgUserRepo.scanCustomersLoop, h0]
    rw [ih (k + 1) _ hrest]
    by_cases hnil : rows = []
    · subst hnil
      simp [Slice.append]
    · simp [hnil, Slice.append, Slice.toList]

theorem scanCustomersLoop_error (r : PgUserRepo) (rows : List CustomerRow) (k : Nat)
    (out : Slice Customer) (j : Nat) (e : StorageErr) (hj : j < rows.length)
    (hfail : r.fault (k + j) = some e) :
    ∃ e1, r.scanCustomersLoop rows k out = Except.error e1 := by
  induction rows generalizing k out j with
  | nil => simp at hj
  | cons row rows ih =>
    simp only [PgUserRepo.scanCustomersLoop]
    cases h0 : r.fault k with
    | some e0 => exact ⟨e0, rfl⟩
    | none =>
      cases j with
      | zero => rw [Nat.add_zero, h0] at hfail; cases hfail
      | succ j =>
        simp only
        exact ih (k + 1) _ j (by simpa using hj)
          (by rwa [show k + 1 + j = k + (j + 1) by omega])

theorem queryRows_returned {α : Type} (r : PgUserRepo) (k : Nat) (result : List α)
    (e : StorageErr) (hf : r.fault k = some e) (hq : r.inRows k = none) :
    r.queryRows k result = Except.error e := by
  simp only [PgUserRepo.queryRows, hf, hq]

theorem queryRows_inRows {α : Type} (r : PgUserRepo) (k n : Nat) (result : List α)
    (e : StorageErr) (hf : r.fault k = some e) (hq : r.inRows k = some n) :
    r.queryRows k result = Except.ok (result.take n) := by
  simp only [PgUserRepo.queryRows, hf, hq]

theorem queryRows_ok {α : Type} (r : PgUserRepo) (k : Nat) (result : List α)
    (hf : r.fault k = none) : r.queryRows k result = Except.ok result := by
  simp only [PgUserRepo.queryRows, hf]

theorem ListCustomers_query_failure (r : PgUserRepo) (search : String) (limit offset : Int)
    (db : DB) (e : StorageErr) (h0 : r.fault 0 = some e) (hq : r.inRows 0 = none) :
    r.ListCustomers search limit offset db = ((none, 0, some (Error.storage e)), db) := by
  simp only [PgUserRepo.ListCustomers, queryRows_returned r 0 _ e h0 hq]

theorem ListCustomers_scan_failure (r : PgUserRepo) (search : String) (limit offset : Int)
    (db : DB) (j : Nat) (e : StorageErr) (h0 : r.fault 0 = none)
    (hj : j < (r.pageRows (TrimSpace search) limit offset db).length)
    (hfail : r.fault (1 + j) = some e) :
    ∃ e1, r.ListCustomers search limit offset db = ((none, 0, some (Error.storage e1)), db) := by
  obtain ⟨e1, he1⟩ := scanCustomersLoop_error r _ 1 none j e hj hfail
  refine ⟨e1, ?_⟩
  simp only [PgUserRepo.ListCustomers, queryRows_ok r 0 _ h0, he1]

theorem ListCustomers_count_failure (r : PgUserRepo) (search : String) (limit offset : Int)
    (db : DB) (e : StorageErr) (h0 : r.fault 0 = none)
    (hscan : ∀ j, j < (r.pageRows (TrimSpace search) limit offset db).length →
      r.fault (1 + j) = none)
    (hcount : r.fault (1 + (r.pageRows (TrimSpace search) limit offset db).length) = some e) :
    (r.ListCustomers search limit offset db).1.2 = (0, none)
      ∧ Slice.toList (r.ListCustomers search limit offset db).1.1
          = (r.pageRows (TrimSpace search) limit offset db).map PgUserRepo.scanCustomer := by
  have hloop := scanCustomersLoop_ok r _ 1 none hscan
  simp only [PgUserRepo.ListCustomers, queryRows_ok r 0 _ h0, hloop, hcount, true_and]
  split_ifs with hnil
  · rw [hnil]
    rfl
  · simp [Slice.toList]

theorem ListCustomers_failure_in_rows (r : PgUserRepo) (search : String) (limit offset : Int)
    (db : DB) (e : StorageErr) (n : Nat) (h0 : r.fault 0 = some e) (hq : r.inRows 0 = some n)
    (hrest : ∀ k, 0 < k → r.fault k = none) :
    (r.ListCustomers search limit offset db).1.2
        = (((db.customer.filter (r.matchesSearch (TrimSpace search))).length : Int), none)
      ∧ Slice.toList (r.ListCustomers search limit offset db).1.1
          = ((r.pageRows (TrimSpace search) limit offset db).take n).map
              PgUserRepo.scanCustomer := by
  have hloop := scanCustomersLoop_ok r
    ((r.pageRows (TrimSpace search) limit offset db).take n) 1 none
    (fun j _ => hrest (1 + j) (by omega))
  simp only [PgUserRepo.ListCustomers, queryRows_inRows r 0 n _ e h0 hq, hloop,
    hrest (1 + ((r.pageRows (TrimSpace search) limit offset db).take n).length) (by omega),
    true_and]
  split_ifs with hnil
  · rw [hnil]
    rfl
  · simp [Slice.toList]

/-- C21 does not hold of the code.  An error that `Query` returns and a failing
row scan do give an error and no result.  A page query that fails while its
rows are read does not: no `rows.Err()` follows the loop, and the call returns
the rows read so far with the total and a nil error.  A failing count query
does not either: its error is dropped, and the call returns the rows of the
page with total 0 and a nil error.  On `exampleStore`, whose one customer
matches, a call whose count query fails returns that customer with total 0,
a call whose page query fails before its first row returns no row with total
1, and the call without failure returns the customer with total 1. -/
theorem C21_failures_returned_with_nil_error :
    (∀ (r : PgUserRepo) (search : String) (limit offset : Int) (db : DB) (e : StorageErr),
        r.fault 0 = some e → r.inRows 0 = none →
        r.ListCustomers search limit offset db = ((none, 0, some (Error.storage e)), db))
    ∧ (∀ (r : PgUserRepo) (search : String) (limit offset : Int) (db : DB) (j : Nat)
        (e : StorageErr), r.fault 0 = none →
        j < (r.pageRows (TrimSpace search) limit offset db).length →
        r.fault (1 + j) = some e →
        ∃ e1, r.ListCustomers search limit offset db
          = ((none, 0, some (Error.storage e1)), db))
    ∧ (∀ (r : PgUserRepo) (search : String) (limit offset : Int) (db : DB) (e : StorageErr)
        (n : Nat), r.fault 0 = some e → r.inRows 0 = some n →
        (∀ k, 0 < k → r.fault k = none) →
        (r.ListCustomers search limit offset db).1.2
          = (((db.customer.filter (r.matchesSearch (TrimSpace search))).length : Int), none))
    ∧ (∀ (r : PgUserRepo) (search : String) (limit offset : Int) (db : DB) (e : StorageErr),
        r.fault 0 = none →
        (∀ j, j < (r.pageRows (TrimSpace search) limit offset db).length →
          r.fault (1 + j) = none) →
        r.fault (1 + (r.pageRows (TrimSpace search) limit offset db).length) = some e →
        (r.ListCustomers search limit offset db).1.2 = (0, none))
    ∧ (PgUserRepo.failingAt 2 (StorageErr.other "conn closed")).ListCustomers "" 10 0
          exampleStore
        = ((some [⟨1, 1, "ALFA", Time.ofDate 1992 5 10, "0811000001", "alfa1@example.com",
            none⟩], 0, none), exampleStore)
    ∧ (PgUserRepo.failingInRows 0 0 (StorageErr.other "conn closed")).ListCustomers "" 10 0
          exampleStore
        = ((none, 1, none), exampleStore)
    ∧ PgUserRepo.healthy.ListCustomers "" 10 0 exampleStore
        = ((some [⟨1, 1, "ALFA", Time.ofDate 1992 5 10, "0811000001", "alfa1@example.com",
            none⟩], 1, none), exampleStore) := by
  refine ⟨ListCustomers_query_failure, ?_, ?_, ?_, by decide, by decide, by decide⟩
  · intro r search limit offset db j e h0 hj hfail
    exact ListCustomers_scan_failure r search limit offset db j e h0 hj hfail
  · intro r search limit offset db e n h0 hq hrest
    exact (ListCustomers_failure_in_rows r search limit offset db e n h0 hq hrest).1
  · intro r search limit offset db e h0 hscan hcount
    exact (ListCustomers_count_failure r search limit offset db e h0 hscan hcount).1

/-! ## The context a gateway operation hands to storage -/

theorem withContext_fault (r : PgUserRepo) (e : ContextErr) (k : Nat) :
    (r.withContext ⟨some e⟩).fault k = some e.toStorage := rfl

theorem withContext_inRows (r : PgUserRepo) (e : ContextErr) (k : Nat) :
    (r.withContext ⟨some e⟩).inRows k = none := rfl

theorem toStorage_ne_ErrNoRows (e : ContextErr) : e.toStorage ≠ StorageErr.ErrNoRows := by
  cases e <;> simp [ContextErr.toStorage]

/-- C23 does not hold of `ListNationalities`.  Under a context that is done the
five other operations return the context's error and leave the store as it
was, since each of their storage calls carries the context received.
`ListNationalities` hands storage `context.Background()`: its result does not
depend on the context it received, and under a cancelled context it still
runs its query and returns the rows with a nil error. -/
theorem C23_ListNationalities_ignores_its_context :
    (∀ (r : PgUserRepo) (e : ContextErr) (db : DB),
        (∀ search limit offset, WithContext.ListCustomers r ⟨some e⟩ search limit offset db
          = ((none, 0, some (Error.storage e.toStorage)), db))
        ∧ (∀ id, WithContext.GetCustomer r ⟨some e⟩ id db
          = ((none, some (Error.storage e.toStorage)), db))
        ∧ (∀ c, WithContext.CreateCustomer r ⟨some e⟩ c db
          = ((0, some (Error.storage e.toStorage)), db))
        ∧ (∀ id c, WithContext.UpdateCustomer r ⟨some e⟩ id c db
          = (some (Error.storage e.toStorage), db))
        ∧ (∀ id, WithContext.DeleteCustomer r ⟨some e⟩ id db
          = (some (Error.storage e.toStorage), db)))
    ∧ (∀ (r : PgUserRepo) (ctx : Context) (db : DB),
        WithContext.ListNationalities r ctx db = r.ListNationalities db)
    ∧ WithContext.ListNationalities PgUserRepo.healthy ⟨some ContextErr.Canceled⟩ exampleStore
        = ((some [⟨1, "Indonesia", some "ID"⟩], none), exampleStore)
    ∧ WithContext.DeleteCustomer PgUserRepo.healthy ⟨some ContextErr.Canceled⟩ 1 exampleStore
        = (some (Error.storage (StorageErr.other "context canceled")), exampleStore) := by
  refine ⟨?_, fun r ctx db => rfl, by decide, by decide⟩
  intro r e db
  refine ⟨?_, ?_, ?_, ?_, ?_⟩
  · intro search limit offset
    exact ListCustomers_query_failure _ search limit offset db _ (withContext_fault r e 0)
      (withContext_inRows r e 0)
  · intro id
    simp only [WithContext.GetCustomer, PgUserRepo.GetCustomer, withContext_fault,
      if_neg (toStorage_ne_ErrNoRows e)]
  · intro c
    simp only [WithContext.CreateCustomer, PgUserRepo.CreateCustomer, withContext_fault]
  · intro id c
    simp only [WithContext.UpdateCustomer, PgUserRepo.UpdateCustomer, withContext_fault]
  · intro id
    simp only [WithContext.DeleteCustomer, PgUserRepo.DeleteCustomer, withContext_fault]

/-! ## Sign of the limit and the offset handed to the gateway -/

/-- C25 does not hold of the code for large pages.  The limit usecase `List`
hands to the gateway is positive for every page and size, and the offset is
non-negative whenever `(max(page,1) - 1) * limit` is below `2^63`.  Beyond
that the 64-bit product wraps: for `page=4611686018427387905&size=2` the
gateway is handed limit 2 and offset `-2^63`.  Storage rejects the negative
`OFFSET` as the statement runs, the gateway loses that error with the rows,
and `ListUsers` answers 200 with no data and total 1. -/
theorem C25_large_page_gives_negative_offset :
    (∀ {σ : Type} (repo : UserRepository σ) (search : String) (p s : Int) (st : σ)
        (log : List RepoCall),
        ∃ limit offset : Int,
          (userUC.List (recordingRepo repo) search p s (st, log)).2.2
              = log ++ [RepoCall.ListCustomers search limit offset]
            ∧ 0 < limit
            ∧ ((max p 1 - 1) * limit < 2 ^ 63 → 0 ≤ offset))
    ∧ (Handler.ListUsers
          ⟨NewUserUC (recordingRepo (stubRepo (none, 0, none))), exampleValidate⟩
          "4611686018427387905" "2" "" ((), [])).2.2
        = [RepoCall.ListCustomers "" 2 (-9223372036854775808)]
    ∧ PgUserRepo.healthy.pageRows "" 2 (-9223372036854775808) exampleStore = []
    ∧ Handler.ListUsers ⟨NewUserUC PgUserRepo.healthy.asRepository, exampleValidate⟩
          "4611686018427387905" "2" "" exampleStore
        = (⟨200, Body.customerListResponse ⟨some [], 1⟩⟩, exampleStore) := by
  refine ⟨?_, by decide, by decide, by decide⟩
  intro σ repo search p s st log
  refine ⟨if s ≤ 0 then 10 else s,
    toInt64 (((if p ≤ 0 then 1 else p) - 1) * (if s ≤ 0 then 10 else s)),
    userUC_List_log repo search p s st log, ?_, ?_⟩
  · split_ifs <;> omega
  · intro hfit
    have hmax : max p 1 = if p ≤ 0 then 1 else p := by
      split_ifs with h0
      · exact max_eq_right (by omega)
      · exact max_eq_left (by omega)
    rw [hmax] at hfit
    have hnn : 0 ≤ ((if p ≤ 0 then 1 else p) - 1) * (if s ≤ 0 then 10 else s) := by
      apply mul_nonneg <;> split_ifs <;> omega
    rw [toInt64_of_fits _ (by omega) hfit]
    exact hnn

/-! ## The id handed to the operations layer -/

theorem toInt32_of_fits (x : Int) (hlo : -(2 ^ 31) ≤ x) (hhi : x < 2 ^ 31) : toInt32 x = x := by
  unfold toInt32
  omega

theorem Atoi_of_int32_value (idVar : String) (x : Int) (hx : decimalValue idVar = some x)
    (hlo : -(2 ^ 31) ≤ x) (hhi : x < 2 ^ 31) : Atoi idVar = (x, none) :=
  (Atoi_eq_ok_iff idVar x).2 ⟨hx, by omega, by omega⟩

/-- For every numeric id path value whose integer value `x` fits int32, `GetUser`
and `UpdateUser` accept it exactly when `x` is not 0 and `DeleteUser` exactly
when `x` is positive, and on acceptance the id handed to the operations layer
is `x`.  Two such path values are handed the same id exactly when they write
the same integer. -/
theorem id_fitting_int32_is_handed_unchanged {σ : Type} (uc : UserUsecase σ)
    (v : Validate) (idVar : String) (x : Int) (s : σ) (log : List Call)
    (hx : decimalValue idVar = some x) (hlo : -(2 ^ 31) ≤ x) (hhi : x < 2 ^ 31) :
    ((Handler.GetUser ⟨recording uc, v⟩ idVar (s, log)).1.status ≠ 400 ↔ x ≠ 0)
    ∧ (x ≠ 0 →
        (Handler.GetUser ⟨recording uc, v⟩ idVar (s, log)).2.2 = log ++ [Call.Get x])
    ∧ (∀ body, x = 0 → Handler.UpdateUser ⟨recording uc, v⟩ idVar body (s, log)
        = (⟨400, Body.apiError ⟨true, "invalid id", none⟩⟩, (s, log)))
    ∧ (x ≠ 0 → ∀ req : UpdateCustomerRequest, v.Struct req = false →
        parseDate req.CstDob ≠ none →
        Handler.checkFamilyDob (Slice.toList req.Family) 0 = none →
        (Handler.UpdateUser ⟨recording uc, v⟩ idVar (some req) (s, log)).2.2
          = log ++ [Call.Update x
              (Handler.newCustomer req (Handler.buildFamily (Slice.toList req.Family) none))])
    ∧ ((Handler.DeleteUser ⟨recording uc, v⟩ idVar (s, log)).1.status ≠ 400 ↔ 0 < x)
    ∧ (0 < x →
        (Handler.DeleteUser ⟨recording uc, v⟩ idVar (s, log)).2.2 = log ++ [Call.Delete x])
    ∧ (∀ (idVar2 : String) (y : Int), decimalValue idVar2 = some y → -(2 ^ 31) ≤ y →
        y < 2 ^ 31 → (toInt32 (Atoi idVar).1 = toInt32 (Atoi idVar2).1 ↔ x = y)) := by
  have ha := Atoi_of_int32_value idVar x hx hlo hhi
  have hid : (Atoi idVar).1 = x := by rw [ha]
  have herr : (Atoi idVar).2 = none := by rw [ha]
  have h32 := toInt32_of_fits x hlo hhi
  have hzero := GetUser_UpdateUser_reject_zero (⟨recording uc, v⟩ : Handler (σ × List Call))
    idVar
  refine ⟨?_, ?_, ?_, ?_, ?_, ?_, ?_⟩
  · constructor
    · intro hst hx0
      subst hx0
      rw [(hzero none (s, log) (Or.inl hx)).1] at hst
      exact hst rfl
    · intro hx0
      exact (GetUser_log uc v idVar s log (by rw [hid]; exact hx0)).2
  · intro hx0
    have := (GetUser_log uc v idVar s log (by rw [hid]; exact hx0)).1
    rwa [hid, h32] at this
  · intro body hx0
    subst hx0
    exact (hzero body (s, log) (Or.inl hx)).2
  · intro hx0 req hval hdob hcheck
    have := (UpdateUser_log uc v idVar req s log (by rw [hid]; exact hx0) hval hdob hcheck).1
    rwa [hid, h32] at this
  · constructor
    · intro hst
      by_contra hneg
      have hrej := DeleteUser_rejects (⟨recording uc, v⟩ : Handler (σ × List Call)) idVar
        (s, log) (Or.inr (by rw [hid]; omega))
      rw [hrej] at hst
      exact hst rfl
    · intro hpos
      exact (DeleteUser_accepts uc v idVar s log herr (by rw [hid]; exact hpos)).2
  · intro hpos
    have := (DeleteUser_accepts uc v idVar s log herr (by rw [hid]; exact hpos)).1
    rwa [hid, h32] at this
  · intro idVar2 y hy hylo hyhi
    have hb := Atoi_of_int32_value idVar2 y hy hylo hyhi
    rw [ha, hb]
    simp only
    rw [h32, toInt32_of_fits y hylo hyhi]

/-- C24 does not hold of the code for values beyond int32.  The handlers check
the 64-bit value and then convert it with `int32(id)`.  The numeric path value
"4294967297" is accepted by `GetUser`, `UpdateUser` and `DeleteUser`, and each
hands the operations layer id 1, not 4294967297: on `exampleStore` the lookup
returns customer 1 and the deletion removes customer 1.  The value
"4294967296" is accepted by `GetUser` and hands the operations layer id 0. -/
theorem C24_id_beyond_int32_is_truncated :
    decimalValue "4294967297" = some 4294967297
    ∧ Handler.GetUser ⟨recording (stubUC (some exampleCustomer, none) (0, none) none none),
        exampleValidate⟩ "4294967297" ((), [])
      = (⟨200, Body.customer exampleCustomer⟩, ((), [Call.Get 1]))
    ∧ (Handler.UpdateUser ⟨recording (stubUC (some exampleCustomer, none) (0, none) none
        none), exampleValidate⟩ "4294967297" (some exampleRequest) ((), [])).2.2
      = [Call.Update 1 (Handler.newCustomer exampleRequest
          (some [⟨0, 0, "Spouse", "BETA", Time.ofDate 1993 7 1⟩]))]
    ∧ Handler.DeleteUser ⟨recording (stubUC (some exampleCustomer, none) (0, none) none none),
        exampleValidate⟩ "4294967297" ((), [])
      = (⟨200, Body.stringMap [("status", "ok")]⟩, ((), [Call.Delete 1]))
    ∧ decimalValue "4294967296" = some 4294967296
    ∧ (Handler.GetUser ⟨recording (stubUC (some exampleCustomer, none) (0, none) none none),
        exampleValidate⟩ "4294967296" ((), [])).2.2 = [Call.Get 0]
    ∧ (Handler.GetUser ⟨NewUserUC PgUserRepo.healthy.asRepository, exampleValidate⟩
        "4294967297" exampleStore).1 = ⟨200, Body.customer exampleCustomer⟩
    ∧ (Handler.DeleteUser ⟨NewUserUC PgUserRepo.healthy.asRepository, exampleValidate⟩
        "4294967297" exampleStore).1 = ⟨200, Body.stringMap [("status", "ok")]⟩
    ∧ (Handler.DeleteUser ⟨NewUserUC PgUserRepo.healthy.asRepository, exampleValidate⟩
        "4294967297" exampleStore).2.customer = [] := by
  decide

end Usrsvc
